import Mathlib

/-!
# Stack traceback library (`traceback/traceback.c`) and kernel drivers (`kern/`)

A shallow embedding of the frame walker, the function resolver and the typed
argument decoder of `traceback.c`, over an explicit model of a 32-bit,
byte-addressed memory with per-byte read and write permissions; and, in the
namespace `Kern`, of the cursor and scrolling functions of
`console_device_driver.c` and of the keyboard buffer of `install_handlers.c`.

Conventions of the embedding:

* addresses and machine words are natural numbers taken modulo `2^32`;
* a memory access that the hardware would refuse is the error `Stop.segv`;
  a `sigsetjmp` guard around a block is a handler for that error;
* a libc scan that would never meet a NUL byte is the error `Stop.hang`;
* the text buffer `buf` is modelled by its C-string content together with the
  write offset `read_cnt` the source threads through every decoder;
* the output file is the list of chunks accepted by `Write`, oldest first.
-/

namespace Traceback

/-! ## Constants of `traceback.c` -/

/-- Number of addresses of the 32-bit address space. -/
def WORD : Nat := 4294967296

/-- Maximum characters permissible in a string. -/
def STRING_MAX_CHARACTERS : Nat := 25

/-- Maximum number of strings to be displayed in a string array. -/
def STRING_ARRAY_MAX_STRINGS : Nat := 3

/-- Value stored by the write probe. -/
def DUMMY_VALUE : Nat := 10

/-! ## Memory -/

/-- The reasons a computation of the library does not return to its caller. -/
inductive Stop where
  | segv
  | hang
deriving DecidableEq

/-- Byte-addressed memory: permissions and content of every address. -/
structure Memory where
  readable : Nat → Bool
  writable : Nat → Bool
  byte : Nat → Nat

/-- Load of one byte (`str[i]`). -/
def load8 (m : Memory) (a : Nat) : Except Stop Nat :=
  if m.readable (a % WORD) then .ok (m.byte (a % WORD) % 256) else .error .segv

/-- Load of a little-endian 32-bit word, `*(unsigned int *)a`. -/
def load32 (m : Memory) (a : Nat) : Except Stop Nat :=
  if m.readable (a % WORD) && m.readable ((a + 1) % WORD) &&
      m.readable ((a + 2) % WORD) && m.readable ((a + 3) % WORD) then
    .ok (m.byte (a % WORD) % 256 + 256 * (m.byte ((a + 1) % WORD) % 256)
      + 65536 * (m.byte ((a + 2) % WORD) % 256)
      + 16777216 * (m.byte ((a + 3) % WORD) % 256))
  else .error .segv

/-- Store of the 32-bit word `v` at `a`, `*(int *)a = v`, permissions unchanged. -/
def store32 (m : Memory) (a v : Nat) : Memory :=
  { m with byte := fun x =>
      if x = a % WORD then v % 256
      else if x = (a + 1) % WORD then v / 256 % 256
      else if x = (a + 2) % WORD then v / 65536 % 256
      else if x = (a + 3) % WORD then v / 16777216 % 256
      else m.byte x }

/-- The macro `GET_OLD_EBP(bp)`. -/
def GET_OLD_EBP (m : Memory) (bp : Nat) : Except Stop Nat := load32 m bp

/-- The macro `GET_ARG_OFFSET(bp,offset)`: `((char *) bp) + offset`. -/
def GET_ARG_OFFSET (bp : Nat) (offset : Int) : Nat := (((bp : Int) + offset) % 4294967296).toNat

/-- The macro `GET_ARG(bp)`. -/
def GET_ARG (m : Memory) (bp : Nat) : Except Stop Nat := load32 m bp

/-- The macro `GET_ARG_FLOAT(bp)`: the bit pattern of the `float` at `bp`. -/
def GET_ARG_FLOAT (m : Memory) (bp : Nat) : Except Stop Nat := load32 m bp

/-- The macro `GET_NEXT_STRING_OFFSET(bp,offset)`: `(unsigned int*)bp + offset`. -/
def GET_NEXT_STRING_OFFSET (bp offset : Nat) : Nat := (bp + 4 * offset) % WORD

/-- The macro `GET_NEXT_STRING_ADDR(bp,offset)`. -/
def GET_NEXT_STRING_ADDR (m : Memory) (bp offset : Nat) : Except Stop Nat :=
  load32 m (GET_NEXT_STRING_OFFSET bp offset)

/-- The macro `DEREFERENCE_ADDR(bp)`. -/
def DEREFERENCE_ADDR (m : Memory) (bp : Nat) : Except Stop Nat := load32 m bp

/-- The macro `GET_ADDR_DIFF(addr1,addr2)`: unsigned 32-bit subtraction. -/
def GET_ADDR_DIFF (addr1 addr2 : Nat) : Nat := (addr1 % WORD + (WORD - addr2 % WORD)) % WORD

/-- The function `is_address_valid`: the guarded dereference of `addr`. -/
def is_address_valid (m : Memory) (addr : Nat) : Bool :=
  match DEREFERENCE_ADDR m addr with
  | .ok _ => true
  | .error _ => false

/-- The function `check_valid_frame`. -/
def check_valid_frame (m : Memory) (base_pointer : Nat) : Bool :=
  if is_address_valid m base_pointer then true else false

/-- The function `check_mem_addr_writtable`: the guarded store of `DUMMY_VALUE`
at `addr`; returns whether the store went through and the memory afterwards. -/
def check_mem_addr_writtable (m : Memory) (addr : Nat) : Bool × Memory :=
  if m.writable (addr % WORD) && m.writable ((addr + 1) % WORD) &&
      m.writable ((addr + 2) % WORD) && m.writable ((addr + 3) % WORD) then
    (true, store32 m addr DUMMY_VALUE)
  else (false, m)

/-- Modelled from the spec: `get_return_addr` lives in `traceback_asm.S`, which
is not among the sources. The return address is stored adjacent to the saved
frame pointer, so the primitive loads the word at `bp + 4`, outside any guard. -/
def get_return_addr (m : Memory) (bp : Nat) : Except Stop Nat := load32 m (bp + 4)

/-! ## C library -/

/-- The libc predicate `isprint` in the C locale, for the value of a byte. -/
def isprint (c : Nat) : Bool := decide (32 ≤ c ∧ c ≤ 126)

/-- The call `isprint(c)` on the 32-bit `int` with bit pattern `c`. C defines
the result for the values of `unsigned char` and for `EOF` (-1) only; for
every other word the answer is the one the C library at hand happens to give,
`libc c`. -/
def isprint_int (libc : Nat → Bool) (c : Nat) : Bool :=
  if c ≤ 255 then isprint c else if c = 4294967295 then false else libc c

/-- Bytes of the C string at `str`, NUL excluded; `fuel` bounds the scan and
`i` is the index reached. -/
def c_string (m : Memory) (str : Nat) : Nat → Nat → Except Stop (List Nat)
  | 0, _ => .error .hang
  | fuel + 1, i =>
    match load8 m (str + i) with
    | .error s => .error s
    | .ok b =>
      if b = 0 then .ok []
      else
        match c_string m str fuel (i + 1) with
        | .error s => .error s
        | .ok bs => .ok (b :: bs)

/-- The libc function `strlen`. -/
def strlen (m : Memory) (str : Nat) : Except Stop Nat :=
  match c_string m str WORD 0 with
  | .error s => .error s
  | .ok bs => .ok bs.length

/-- The libc function `strncpy(temp_buf, str, n)` into a zeroed buffer that keeps
a NUL after its `n` bytes: the C-string content of the destination. -/
def strncpy (m : Memory) (str : Nat) : Nat → Nat → Except Stop (List Nat)
  | 0, _ => .ok []
  | n + 1, i =>
    match load8 m (str + i) with
    | .error s => .error s
    | .ok b =>
      if b = 0 then .ok []
      else
        match strncpy m str n (i + 1) with
        | .error s => .error s
        | .ok bs => .ok (b :: bs)

/-- Conversion `%s`: the bytes as text. -/
def fmt_s (bytes : List Nat) : String := String.mk (bytes.map Char.ofNat)

/-- Conversion `%c`: the value converted to `unsigned char`. -/
def fmt_c (c : Nat) : String := String.mk [Char.ofNat (c % 256)]

/-- Conversion `%o` of a 32-bit word. -/
def fmt_o (w : Nat) : String := String.mk (Nat.toDigits 8 w)

/-- Conversion `%x` of a 32-bit word. -/
def fmt_x (w : Nat) : String := String.mk (Nat.toDigits 16 w)

/-- Conversion `%d` of a 32-bit word read as a two's complement `int`. -/
def fmt_d (w : Nat) : String :=
  if w < 2147483648 then String.mk (Nat.toDigits 10 w)
  else "-" ++ String.mk (Nat.toDigits 10 (4294967296 - w))

/-- Conversion `%p` as glibc prints it. -/
def fmt_p (p : Nat) : String := if p = 0 then "(nil)" else "0x" ++ fmt_x p

/-- Digits padded with zeros on the left up to `width`. -/
def pad_zeros (width : Nat) (digits : List Char) : List Char :=
  List.replicate (width - digits.length) '0' ++ digits

/-- Conversion `%f` of the IEEE-754 single-precision value with bit pattern `w`
(six fractional digits, exact value rounded to nearest, ties to even). -/
def fmt_f (w : Nat) : String :=
  let sign := if w / 2147483648 % 2 = 1 then "-" else ""
  let e := w / 8388608 % 256
  let frac := w % 8388608
  if e = 255 then (if frac = 0 then sign ++ "inf" else sign ++ "nan")
  else
    let mant := if e = 0 then frac else frac + 8388608
    let ex := if e = 0 then 1 else e
    let num := mant * 1000000 * 2 ^ (ex - 150)
    let den := 2 ^ (150 - ex)
    let q := num / den
    let r := num % den
    let q1 := if 2 * r > den ∨ (2 * r = den ∧ q % 2 = 1) then q + 1 else q
    sign ++ String.mk (Nat.toDigits 10 (q1 / 1000000)) ++ "."
      ++ String.mk (pad_zeros 6 (Nat.toDigits 10 (q1 % 1000000)))

/-- C-string content of `buf` after `snprintf(buf + read_cnt, MAX_BUF_SIZE, ...)`
produced `text`: the bytes before `read_cnt` stay, `text` and its NUL follow.
Text placed behind the terminating NUL is not part of the string. The size
argument never cuts `text`: with the fixed-size name fields of the function
table a line stays far below `MAX_BUF_SIZE` (8192). -/
def snprintf (buf : String) (read_cnt : Nat) (text : String) : String :=
  if read_cnt ≤ buf.length then String.mk (buf.data.take read_cnt ++ text.data) else buf

/-- The pair `(buf, read_cnt)` every decoder receives and hands back. -/
structure Buf where
  buf : String
  read_cnt : Nat
deriving DecidableEq

/-- The statement `read_cnt += snprintf(buf+read_cnt,MAX_BUF_SIZE,...)`. -/
def Buf.add (b : Buf) (text : String) : Buf :=
  { buf := snprintf b.buf b.read_cnt text, read_cnt := b.read_cnt + text.length }

/-! ## Function table (`traceback_internal.h`) -/

/-- The argument type tags. -/
inductive ArgType where
  | TYPE_CHAR
  | TYPE_INT
  | TYPE_FLOAT
  | TYPE_DOUBLE
  | TYPE_STRING
  | TYPE_STRING_ARRAY
  | TYPE_VOIDSTAR
  | TYPE_UNKNOWN
deriving DecidableEq

/-- One argument descriptor. -/
structure argsym_t where
  type : ArgType
  offset : Int
  name : String

/-- One function descriptor. -/
structure functsym_t where
  addr : Nat
  name : String
  args : List argsym_t

/-- What the library receives from outside: the limits of the absent header
`traceback_internal.h`, the function table, the platform primitive
`get_initial_base_pointer`, the outcome of the system calls, the
indeterminate initial value of the local `temp_str` of `build_string_array`,
and the answers of the C library to `isprint` where C does not define them. -/
structure Env where
  FUNCTS_MAX_NUM : Nat
  ARGS_MAX_NUM : Nat
  MAX_FUNCTION_SIZE_BYTES : Nat
  functions : List functsym_t
  initial_base_pointer : Nat
  Fileno_ok : Bool
  install_ok : Bool
  Malloc_ok : Bool
  Write_ok : Nat → Bool
  temp_str_garbage : Nat
  isprint_libc : Nat → Bool

/-- Entry `functions[i]`; the array is zero-filled behind its last entry. -/
def Env.fn (e : Env) (i : Nat) : functsym_t :=
  e.functions.getD i { addr := 0, name := "", args := [] }

/-- Entry `functions[i].args[j]`; zero-filled behind the last argument. -/
def Env.arg (e : Env) (i j : Nat) : argsym_t :=
  (e.fn i).args.getD j { type := .TYPE_CHAR, offset := 0, name := "" }

/-! ## Function resolver -/

/-- The `for` loop of `get_function_index`, from index `i` on, carrying
`temp` and `func_index`. -/
def get_function_index_loop (e : Env) (return_addr : Nat) : Nat → Nat → Nat → Nat → Nat × Nat
  | 0, _, temp, func_index => (temp, func_index)
  | fuel + 1, i, temp, func_index =>
    if (e.fn i).name.length ≠ 0 ∧ i < e.FUNCTS_MAX_NUM then
      let addr_diff := GET_ADDR_DIFF return_addr (e.fn i).addr
      if addr_diff < temp ∧ addr_diff > 0 then
        get_function_index_loop e return_addr fuel (i + 1) addr_diff i
      else
        get_function_index_loop e return_addr fuel (i + 1) temp func_index
    else (temp, func_index)

/-- The function `get_function_index`; `none` stands for the result `-1`. -/
def get_function_index (e : Env) (return_addr : Nat) : Option Nat :=
  let temp := GET_ADDR_DIFF return_addr (e.fn 0).addr
  let r := get_function_index_loop e return_addr e.FUNCTS_MAX_NUM 1 temp 0
  if r.1 > 0 ∧ r.1 < e.MAX_FUNCTION_SIZE_BYTES then some r.2 else none

/-! ## Argument decoder -/

/-- The `for` loop of `is_string_printable` from index `i` on; `fuel` is the
distance of `i` to `strlen(str)`. -/
def is_string_printable_loop (m : Memory) (str : Nat) : Nat → Nat → Except Stop Bool
  | 0, _ => .ok true
  | fuel + 1, i =>
    match load8 m (str + i) with
    | .error s => .error s
    | .ok c =>
      if !isprint c then .ok false
      else is_string_printable_loop m str fuel (i + 1)

/-- The function `is_string_printable`. -/
def is_string_printable (m : Memory) (str : Nat) : Except Stop Bool :=
  match strlen m str with
  | .error s => .error s
  | .ok n => is_string_printable_loop m str n 0

/-- The block of `build_string` run under the `sigsetjmp` guard. -/
def build_string_guarded (m : Memory) (str : Nat) (b : Buf) : Except Stop Buf :=
  match is_string_printable m str with
  | .error s => .error s
  | .ok true =>
    match strlen m str with
    | .error s => .error s
    | .ok n =>
      if n ≤ STRING_MAX_CHARACTERS then
        match c_string m str WORD 0 with
        | .error s => .error s
        | .ok bytes => .ok (b.add ("\"" ++ fmt_s bytes ++ "\""))
      else
        match strncpy m str STRING_MAX_CHARACTERS 0 with
        | .error s => .error s
        | .ok temp_buf => .ok (b.add ("\"" ++ fmt_s temp_buf ++ "...\""))
  | .ok false => .ok (b.add (fmt_p str))

/-- The function `build_string`: a fault inside the guarded block comes back
through `siglongjmp` and the address is printed instead. -/
def build_string (m : Memory) (str : Nat) (b : Buf) : Except Stop Buf :=
  match build_string_guarded m str b with
  | .error .segv => .ok (b.add (fmt_p str))
  | r => r

/-- The `while` loop of `build_string_array`; `fuel` is the distance of
`string_count` to `STRING_ARRAY_MAX_STRINGS`. Returns `string_count` and the buffer. -/
def build_string_array_loop (m : Memory) (str : Nat) :
    Nat → Nat → Nat → Buf → Except Stop (Nat × Buf)
  | 0, string_count, _, b => .ok (string_count, b)
  | fuel + 1, string_count, temp_str, b =>
    let slot := GET_NEXT_STRING_OFFSET str string_count
    match (if is_address_valid m slot then
        (match GET_NEXT_STRING_ADDR m str string_count with
          | .error s => Except.error s
          | .ok p => Except.ok (p, b))
      else Except.ok (temp_str, b.add (fmt_p slot))) with
    | .error s => .error s
    | .ok (temp_str1, b1) =>
      if temp_str1 = 0 then .ok (string_count, b1)
      else
        let b2 := if string_count ≠ 0 then b1.add "," else b1
        match build_string m temp_str1 b2 with
        | .error s => .error s
        | .ok b3 => build_string_array_loop m str fuel (string_count + 1) temp_str1 b3

/-- The function `build_string_array`; `garbage` is the indeterminate initial
value of the local `temp_str`. -/
def build_string_array (m : Memory) (garbage : Nat) (str : Nat) (b : Buf) : Except Stop Buf :=
  match build_string_array_loop m str STRING_ARRAY_MAX_STRINGS 0 garbage (b.add "\x7b") with
  | .error s => .error s
  | .ok (string_count, b1) =>
    let slot := GET_NEXT_STRING_OFFSET str string_count
    match (if is_address_valid m slot then GET_NEXT_STRING_ADDR m str string_count
        else Except.ok 0) with
    | .error s => .error s
    | .ok temp_str =>
      let b2 := if string_count = STRING_ARRAY_MAX_STRINGS ∧ temp_str ≠ 0 then b1.add ", ..." else b1
      .ok (b2.add "\x7d")

/-- The function `get_char_argument`: `character` is the whole word of the
slot and goes to `isprint` as it is; `libc` answers where C does not. -/
def get_char_argument (libc : Nat → Bool) (m : Memory) (base_pointer : Nat) (arg_offset : Int)
    (b : Buf) (arg_name : String) : Except Stop Buf :=
  match GET_ARG m (GET_ARG_OFFSET base_pointer arg_offset) with
  | .error s => .error s
  | .ok character =>
    if isprint_int libc character then
      .ok (b.add ("char " ++ arg_name ++ "='" ++ fmt_c character ++ "'"))
    else .ok (b.add ("char " ++ arg_name ++ "='\\" ++ fmt_o character ++ "'"))

/-- The function `get_int_argument`. -/
def get_int_argument (m : Memory) (base_pointer : Nat) (arg_offset : Int) (b : Buf)
    (arg_name : String) : Except Stop Buf :=
  match GET_ARG m (GET_ARG_OFFSET base_pointer arg_offset) with
  | .error s => .error s
  | .ok v => .ok (b.add ("int " ++ arg_name ++ "=" ++ fmt_d v))

/-- The function `get_float_argument`. -/
def get_float_argument (m : Memory) (base_pointer : Nat) (arg_offset : Int) (b : Buf)
    (arg_name : String) : Except Stop Buf :=
  match GET_ARG_FLOAT m (GET_ARG_OFFSET base_pointer arg_offset) with
  | .error s => .error s
  | .ok v => .ok (b.add ("float " ++ arg_name ++ "=" ++ fmt_f v))

/-- The function `get_double_argument`: reads through `GET_ARG_FLOAT` as well. -/
def get_double_argument (m : Memory) (base_pointer : Nat) (arg_offset : Int) (b : Buf)
    (arg_name : String) : Except Stop Buf :=
  match GET_ARG_FLOAT m (GET_ARG_OFFSET base_pointer arg_offset) with
  | .error s => .error s
  | .ok v => .ok (b.add ("double " ++ arg_name ++ "=" ++ fmt_f v))

/-- The function `get_string_argument`. -/
def get_string_argument (m : Memory) (base_pointer : Nat) (arg_offset : Int) (b : Buf)
    (arg_name : String) : Except Stop Buf :=
  match GET_ARG m (GET_ARG_OFFSET base_pointer arg_offset) with
  | .error s => .error s
  | .ok string => build_string m string (b.add ("char *" ++ arg_name ++ "="))

/-- The function `get_string_array`. -/
def get_string_array (m : Memory) (garbage : Nat) (base_pointer : Nat) (arg_offset : Int)
    (b : Buf) (arg_name : String) : Except Stop Buf :=
  match GET_ARG m (GET_ARG_OFFSET base_pointer arg_offset) with
  | .error s => .error s
  | .ok string =>
    let b1 := b.add ("char **" ++ arg_name ++ "=")
    if is_address_valid m string then build_string_array m garbage string b1
    else .ok (b1.add ("\x7b" ++ fmt_p string ++ "\x7d"))

/-- The function `get_void_pointer_argument`. -/
def get_void_pointer_argument (m : Memory) (base_pointer : Nat) (arg_offset : Int) (b : Buf)
    (arg_name : String) : Except Stop Buf :=
  match GET_ARG m (GET_ARG_OFFSET base_pointer arg_offset) with
  | .error s => .error s
  | .ok v => .ok (b.add ("void *" ++ arg_name ++ "=0v" ++ fmt_x v))

/-- The function `get_unknown_argument`. -/
def get_unknown_argument (m : Memory) (base_pointer : Nat) (arg_offset : Int) (b : Buf)
    (arg_name : String) : Except Stop Buf :=
  match GET_ARG m (GET_ARG_OFFSET base_pointer arg_offset) with
  | .error s => .error s
  | .ok v => .ok (b.add ("UNKNOWN " ++ arg_name ++ "=" ++ fmt_p v))

/-- The function `get_function_arguments`: the `switch` on the type tag. -/
def get_function_arguments (e : Env) (m : Memory) (func_index arg_num base_pointer : Nat)
    (b : Buf) (arg_name : String) (arg_offset : Int) : Except Stop Buf :=
  match (e.arg func_index arg_num).type with
  | .TYPE_CHAR => get_char_argument e.isprint_libc m base_pointer arg_offset b arg_name
  | .TYPE_INT => get_int_argument m base_pointer arg_offset b arg_name
  | .TYPE_FLOAT => get_float_argument m base_pointer arg_offset b arg_name
  | .TYPE_DOUBLE => get_double_argument m base_pointer arg_offset b arg_name
  | .TYPE_STRING => get_string_argument m base_pointer arg_offset b arg_name
  | .TYPE_STRING_ARRAY =>
    get_string_array m e.temp_str_garbage base_pointer arg_offset b arg_name
  | .TYPE_VOIDSTAR => get_void_pointer_argument m base_pointer arg_offset b arg_name
  | .TYPE_UNKNOWN => get_unknown_argument m base_pointer arg_offset b arg_name

/-! ## Frame walker -/

/-- Variables of `traceback` live across the argument loop. -/
structure ArgState where
  b : Buf
  arg_num : Nat
  frame_invalid : Bool

/-- The argument `while` loop of `traceback`; `fuel` is the distance of
`arg_num` to `ARGS_MAX_NUM`. Its `break` leaves this loop only. -/
def args_loop (e : Env) (m : Memory) (func_index base_pointer : Nat) :
    Nat → ArgState → Except Stop ArgState
  | 0, s => .ok s
  | fuel + 1, s =>
    let arg_name := (e.arg func_index s.arg_num).name
    let arg_offset := (e.arg func_index s.arg_num).offset
    if arg_name.length ≠ 0 ∧ s.arg_num < e.ARGS_MAX_NUM then
      let b1 := if s.arg_num ≥ 1 then s.b.add ", " else s.b
      if is_address_valid m (GET_ARG_OFFSET base_pointer arg_offset) then
        match get_function_arguments e m func_index s.arg_num base_pointer b1 arg_name
            arg_offset with
        | .error x => .error x
        | .ok b2 =>
          args_loop e m func_index base_pointer fuel
            { b := b2, arg_num := s.arg_num + 1, frame_invalid := s.frame_invalid }
      else
        .ok { b := { b1 with buf := snprintf b1.buf b1.read_cnt "), in\n" },
              arg_num := s.arg_num, frame_invalid := true }
    else .ok s

/-- The `return` statement through which `traceback` is left. -/
inductive Exit where
  | fileno_error
  | handler_error
  | malloc_error
  | write_error
  | completed
deriving DecidableEq

/-- What a call of `traceback` leaves behind: the chunks the file accepted,
the memory, the flag `frame_invalid`, the content of `buf` when the function
is left, and the exit taken. -/
structure TraceResult where
  sink : List String
  mem : Memory
  frame_invalid : Bool
  b : Buf
  exit : Exit

/-- Variables of `traceback` live across the frame loop. -/
structure WalkState where
  base_pointer : Nat
  b : Buf
  frame_invalid : Bool
  sink : List String

/-- The code of `traceback` behind its frame loop: the marker is formatted into
`buf` when `frame_invalid` is set, then `buf` is freed and the handler restored. -/
def after_loop (s : WalkState) (m : Memory) : TraceResult :=
  { sink := s.sink
    mem := m
    frame_invalid := s.frame_invalid
    b := if s.frame_invalid then s.b.add "FATAL:Stack frame invalid/corrupt\n" else s.b
    exit := .completed }

/-- The early `return` of `traceback` after a failed `Write`. -/
def write_failed (s : WalkState) (m : Memory) (b : Buf) (frame_invalid : Bool) : TraceResult :=
  { sink := s.sink, mem := m, frame_invalid := frame_invalid, b := b, exit := .write_error }

/-- What one turn of the frame loop leads to: the next turn, or the end of
`traceback` (the code behind the loop, or an early `return`). -/
inductive Turn where
  | next (s : WalkState)
  | done (t : TraceResult)

/-- One turn of the frame `while` loop of `traceback`, loop test included. -/
def frame_turn (e : Env) (m : Memory) (s : WalkState) : Except Stop Turn :=
  if s.base_pointer = 0 then .ok (.done (after_loop s m))
  else if !check_valid_frame m s.base_pointer then
    .ok (.done (after_loop { s with frame_invalid := true } m))
  else
    match get_return_addr m s.base_pointer with
    | .error x => .error x
    | .ok return_addr =>
      if !check_valid_frame m return_addr then
        .ok (.done (after_loop { s with frame_invalid := true } m))
      else
        match GET_OLD_EBP m s.base_pointer with
        | .error x => .error x
        | .ok old_ebp =>
          if old_ebp > s.base_pointer then
            let base_pointer := old_ebp
            match get_function_index e return_addr with
            | none =>
              let buf := snprintf s.b.buf 0 ("Function " ++ fmt_p return_addr ++ "(...), in\n")
              if e.Write_ok s.sink.length then
                .ok (.next
                  { base_pointer := base_pointer
                    b := { buf := "", read_cnt := s.b.read_cnt }
                    frame_invalid := s.frame_invalid
                    sink := s.sink ++ [buf] })
              else .ok (.done (write_failed s m { s.b with buf := buf } s.frame_invalid))
            | some func_index =>
              let func_name := (e.fn func_index).name
              let b0 : Buf :=
                { buf := snprintf s.b.buf 0 ("Function " ++ func_name ++ "(")
                  read_cnt := ("Function " ++ func_name ++ "(").length }
              match args_loop e m func_index base_pointer e.ARGS_MAX_NUM
                  { b := b0, arg_num := 0, frame_invalid := s.frame_invalid } with
              | .error x => .error x
              | .ok a =>
                let b1 := if a.arg_num = 0 then a.b.add "void), in\n" else a.b.add "), in\n"
                if e.Write_ok s.sink.length then
                  .ok (.next
                    { base_pointer := base_pointer
                      b := { buf := "", read_cnt := b1.read_cnt }
                      frame_invalid := a.frame_invalid
                      sink := s.sink ++ [b1.buf] })
                else .ok (.done (write_failed s m b1 a.frame_invalid))
          else
            match check_mem_addr_writtable m old_ebp with
            | (false, m1) => .ok (.done (after_loop s m1))
            | (true, m1) => .ok (.done (after_loop { s with frame_invalid := true } m1))

/-- The frame `while` loop of `traceback` followed by the code behind it.
`fuel` bounds the number of turns. -/
def walk (e : Env) (m : Memory) : Nat → WalkState → Except Stop TraceResult
  | 0, _ => .error .hang
  | fuel + 1, s =>
    match frame_turn e m s with
    | .error x => .error x
    | .ok (.done t) => .ok t
    | .ok (.next s1) => walk e m fuel s1

/-- The function `traceback`. The frame loop strictly raises the base pointer
at every turn, so `WORD + 1` turns exhaust the address space. -/
def traceback (e : Env) (m : Memory) : Except Stop TraceResult :=
  if !e.Fileno_ok then
    .ok { sink := [], mem := m, frame_invalid := false, b := ⟨"", 0⟩, exit := .fileno_error }
  else if !e.install_ok then
    .ok { sink := [], mem := m, frame_invalid := false, b := ⟨"", 0⟩, exit := .handler_error }
  else if !e.Malloc_ok then
    .ok { sink := [], mem := m, frame_invalid := false, b := ⟨"", 0⟩, exit := .malloc_error }
  else
    walk e m (WORD + 1)
      { base_pointer := e.initial_base_pointer, b := ⟨"", 0⟩, frame_invalid := false, sink := [] }

/-- The buffer content a decoder returned with. -/
def rendered (r : Except Stop Buf) : Option String :=
  match r with
  | .ok b => some b.buf
  | .error _ => none

/-- The lines the output file received. -/
def lines (r : Except Stop TraceResult) : Option (List String) :=
  match r with
  | .ok t => some t.sink
  | .error _ => none

/-- Everything the output file received, as one text. -/
def delivered (r : Except Stop TraceResult) : Option String :=
  match r with
  | .ok t => some (String.join t.sink)
  | .error _ => none

/-- Whether the walk ended with `frame_invalid` set. -/
def fatal (r : Except Stop TraceResult) : Option Bool :=
  match r with
  | .ok t => some t.frame_invalid
  | .error _ => none

/-! ## Signal state -/

/-- What the process does when `SIGSEGV` arrives. -/
inductive Action where
  | SIG_DFL
  | sighandler
  | other (id : Nat)
deriving DecidableEq

/-- The part of the signal state `traceback` touches: the action of `SIGSEGV`
and whether `SIGSEGV` is in the blocked set. The other signals of the mask are
neither unblocked by `SIG_UNBLOCK` nor changed by `SIG_SETMASK` of the saved mask. -/
structure SigState where
  action : Action
  segv_blocked : Bool
deriving DecidableEq

/-- The function `install_SIGSEGV_handler`, every system call succeeding: the
state afterwards and the saved pair `(old_act_h, old_mask)`. -/
def install_SIGSEGV_handler (sig : SigState) : SigState × SigState :=
  ({ action := .sighandler, segv_blocked := false }, sig)

/-- The function `restore_SIGSEGV_handler`, every system call succeeding. -/
def restore_SIGSEGV_handler (old : SigState) (_sig : SigState) : SigState := old

/-- Signal state in which `traceback`, entered in state `sig`, is left through
the exit `x`. No state is given for a failed installation, which depends on
the system call that failed. -/
def signals_after (x : Exit) (sig : SigState) : Option SigState :=
  match x with
  | .fileno_error => some sig
  | .handler_error => none
  | .malloc_error => some (install_SIGSEGV_handler sig).1
  | .write_error => some (install_SIGSEGV_handler sig).1
  | .completed =>
    some (restore_SIGSEGV_handler (install_SIGSEGV_handler sig).2 (install_SIGSEGV_handler sig).1)

/-! ## Predicates on memory used by the statements -/

/-- Memory holds the bytes `s`, none of them NUL, from `p` on, then a NUL, all
of them readable. -/
def string_at (m : Memory) : Nat → List Nat → Bool
  | p, [] => m.readable (p % WORD) && (m.byte (p % WORD) % 256 == 0)
  | p, c :: cs =>
    m.readable (p % WORD) && (m.byte (p % WORD) % 256 == c) && (c != 0) && string_at m (p + 1) cs

/-- The array at `a` holds, from index `i` on, the non-null pointers of `ps`,
each paired with the text `build_string` renders for it. -/
def string_array_at (m : Memory) (a : Nat) : Nat → List (Nat × String) → Bool
  | _, [] => true
  | i, ps :: rest =>
    (match GET_NEXT_STRING_ADDR m a i with
      | .ok p => decide (p = ps.1)
      | .error _ => false) &&
    (ps.1 != 0) && decide (rendered (build_string m ps.1 ⟨"", 0⟩) = some ps.2) &&
    string_array_at m a (i + 1) rest

/-- The root frame at `bp`: readable, its return address readable, its saved
frame pointer not above `bp` and refused by the write probe. -/
def root_frame (m : Memory) (bp : Nat) : Bool :=
  check_valid_frame m bp &&
  (match get_return_addr m bp with
    | .ok return_addr => check_valid_frame m return_addr
    | .error _ => false) &&
  (match GET_OLD_EBP m bp with
    | .ok old_ebp => decide (old_ebp ≤ bp) && !(check_mem_addr_writtable m old_ebp).1
    | .error _ => false)

/-- A well-formed chain of calls starting at the non-null base pointer `bp`:
one frame per entry of `names`, each readable with a readable return address
that resolves to a function of that name without arguments, each saved frame
pointer strictly above its frame, and the root frame behind the last one. -/
def call_chain (e : Env) (m : Memory) : Nat → List String → Bool
  | bp, [] => root_frame m bp
  | bp, name :: rest =>
    (bp != 0) && check_valid_frame m bp &&
    (match get_return_addr m bp, GET_OLD_EBP m bp with
      | .ok return_addr, .ok old_ebp =>
        check_valid_frame m return_addr && decide (bp < old_ebp) &&
        (match get_function_index e return_addr with
          | some func_index =>
            decide ((e.fn func_index).name = name) && decide ((e.arg func_index 0).name = "")
          | none => false) &&
        call_chain e m old_ebp rest
      | _, _ => false)

/-- The exit through which `traceback` was left. -/
def exit_of (r : Except Stop TraceResult) : Option Exit :=
  match r with
  | .ok t => some t.exit
  | .error _ => none

/-- The reason for which `traceback` did not return. -/
def stopped (r : Except Stop TraceResult) : Option Stop :=
  match r with
  | .ok _ => none
  | .error x => some x

/-- The environment `e` with the output file answering `w` to the writes. -/
def Env.with_sink (e : Env) (w : Nat → Bool) : Env := { e with Write_ok := w }

/-- The word stored at `a`, whatever the permissions. -/
def word_at (m : Memory) (a : Nat) : Nat :=
  m.byte (a % WORD) % 256 + 256 * (m.byte ((a + 1) % WORD) % 256)
    + 65536 * (m.byte ((a + 2) % WORD) % 256) + 16777216 * (m.byte ((a + 3) % WORD) % 256)

/-- Signal state in which a call of `traceback` entered in state `sig` leaves
the process. -/
def signals_of (r : Except Stop TraceResult) (sig : SigState) : Option SigState :=
  match r with
  | .ok t => signals_after t.exit sig
  | .error _ => none

/-- The word the memory holds at `a` when `traceback` has returned. -/
def word_after (r : Except Stop TraceResult) (a : Nat) : Option Nat :=
  match r with
  | .ok t => some (word_at t.mem a)
  | .error _ => none

/-- The variables of `traceback` when it enters its frame loop. -/
def initial_state (e : Env) : WalkState :=
  { base_pointer := e.initial_base_pointer, b := ⟨"", 0⟩, frame_invalid := false, sink := [] }

/-- The state in which the walker stands after `n` turns of the frame loop,
when each of them led to a further turn. -/
def state_after (e : Env) (m : Memory) : Nat → Option WalkState
  | 0 => some (initial_state e)
  | n + 1 =>
    match state_after e m n with
    | none => none
    | some s =>
      match frame_turn e m s with
      | .ok (.next s1) => some s1
      | _ => none

/-- Entry `i` of the table is looked at by `get_function_index`: entry 0
always, an entry `i ≥ 1` when the `for` loop reaches it, that is when
`i < FUNCTS_MAX_NUM` and every entry from 1 to `i` has a non-empty name. -/
def scanned (e : Env) (i : Nat) : Bool :=
  decide (i = 0) ||
    (decide (i < e.FUNCTS_MAX_NUM) &&
      (List.range i).all fun j => decide ((e.fn (j + 1)).name.length ≠ 0))

/-- One access of the library to the memory it inspects, at the address the
pointer holds: the load of a byte, the load of a word, or the store of a word.
The buffer `buf`, the function table and the locals of the library are not
part of that memory. An access that faults is an access all the same. -/
inductive Access where
  | load8 (a : Nat)
  | load32 (a : Nat)
  | store32 (a : Nat)
deriving DecidableEq

/-- Whether the access is a store. -/
def is_store : Access → Bool
  | .store32 _ => true
  | _ => false

/-- No access of the list is a store. -/
def no_store (l : List Access) : Bool := l.all fun a => !is_store a

/-- Accesses of a scan of the C string at `str` (`strlen`, the conversion
`%s`) from index `i` on: byte after byte up to the NUL or the fault. -/
def c_string_accesses (m : Memory) (str : Nat) : Nat → Nat → List Access
  | 0, _ => []
  | fuel + 1, i =>
    .load8 (str + i) ::
      (match load8 m (str + i) with
        | .error _ => []
        | .ok b => if b = 0 then [] else c_string_accesses m str fuel (i + 1))

/-- Accesses of `strlen(str)`. -/
def strlen_accesses (m : Memory) (str : Nat) : List Access := c_string_accesses m str WORD 0

/-- Accesses of `strncpy(temp_buf, str, n)` from index `i` on. -/
def strncpy_accesses (m : Memory) (str : Nat) : Nat → Nat → List Access
  | 0, _ => []
  | n + 1, i =>
    .load8 (str + i) ::
      (match load8 m (str + i) with
        | .error _ => []
        | .ok b => if b = 0 then [] else strncpy_accesses m str n (i + 1))

/-- Accesses of the `for` loop of `is_string_printable` from index `i` on: its
test calls `strlen(str)` at every turn, its body loads `str[i]`. -/
def is_string_printable_loop_accesses (m : Memory) (str : Nat) : Nat → Nat → List Access
  | 0, _ => strlen_accesses m str
  | fuel + 1, i =>
    strlen_accesses m str ++ .load8 (str + i) ::
      (match load8 m (str + i) with
        | .error _ => []
        | .ok c => if !isprint c then [] else is_string_printable_loop_accesses m str fuel (i + 1))

/-- Accesses of `is_string_printable`. -/
def is_string_printable_accesses (m : Memory) (str : Nat) : List Access :=
  match strlen m str with
  | .error _ => strlen_accesses m str
  | .ok n => is_string_printable_loop_accesses m str n 0

/-- Accesses of `build_string`, up to the fault when there is one. -/
def build_string_accesses (m : Memory) (str : Nat) : List Access :=
  is_string_printable_accesses m str ++
    (match is_string_printable m str with
      | .ok true =>
        strlen_accesses m str ++
          (match strlen m str with
            | .error _ => []
            | .ok n =>
              if n ≤ STRING_MAX_CHARACTERS then c_string_accesses m str WORD 0
              else strncpy_accesses m str STRING_MAX_CHARACTERS 0)
      | _ => [])

/-- Accesses of the `while` loop of `build_string_array`. -/
def build_string_array_loop_accesses (m : Memory) (str : Nat) :
    Nat → Nat → Nat → Buf → List Access
  | 0, _, _, _ => []
  | fuel + 1, string_count, temp_str, b =>
    let slot := GET_NEXT_STRING_OFFSET str string_count
    .load32 slot ::
      (if is_address_valid m slot then
        .load32 slot ::
          (match GET_NEXT_STRING_ADDR m str string_count with
            | .error _ => []
            | .ok p =>
              if p = 0 then []
              else
                build_string_accesses m p ++
                  (match build_string m p (if string_count ≠ 0 then b.add "," else b) with
                    | .error _ => []
                    | .ok b3 =>
                      build_string_array_loop_accesses m str fuel (string_count + 1) p b3))
      else
        let b1 := b.add (fmt_p slot)
        if temp_str = 0 then []
        else
          build_string_accesses m temp_str ++
            (match build_string m temp_str (if string_count ≠ 0 then b1.add "," else b1) with
              | .error _ => []
              | .ok b3 =>
                build_string_array_loop_accesses m str fuel (string_count + 1) temp_str b3))

/-- Accesses of `build_string_array`. -/
def build_string_array_accesses (m : Memory) (garbage : Nat) (str : Nat) (b : Buf) :
    List Access :=
  build_string_array_loop_accesses m str STRING_ARRAY_MAX_STRINGS 0 garbage (b.add "\x7b") ++
    (match build_string_array_loop m str STRING_ARRAY_MAX_STRINGS 0 garbage (b.add "\x7b") with
      | .error _ => []
      | .ok (string_count, _) =>
        let slot := GET_NEXT_STRING_OFFSET str string_count
        .load32 slot :: (if is_address_valid m slot then [.load32 slot] else []))

/-- Accesses of `get_function_arguments`: every decoder loads the word of the
slot; the string decoders go on to the strings. -/
def get_function_arguments_accesses (e : Env) (m : Memory) (func_index arg_num base_pointer : Nat)
    (b : Buf) (arg_name : String) (arg_offset : Int) : List Access :=
  let slot := GET_ARG_OFFSET base_pointer arg_offset
  .load32 slot ::
    (match (e.arg func_index arg_num).type, GET_ARG m slot with
      | .TYPE_STRING, .ok string => build_string_accesses m string
      | .TYPE_STRING_ARRAY, .ok string =>
        .load32 string ::
          (if is_address_valid m string then
            build_string_array_accesses m e.temp_str_garbage string
              (b.add ("char **" ++ arg_name ++ "="))
          else [])
      | _, _ => [])

/-- Accesses of the argument `while` loop of `traceback`. -/
def args_loop_accesses (e : Env) (m : Memory) (func_index base_pointer : Nat) :
    Nat → ArgState → List Access
  | 0, _ => []
  | fuel + 1, s =>
    let arg_name := (e.arg func_index s.arg_num).name
    let arg_offset := (e.arg func_index s.arg_num).offset
    if arg_name.length ≠ 0 ∧ s.arg_num < e.ARGS_MAX_NUM then
      let b1 := if s.arg_num ≥ 1 then s.b.add ", " else s.b
      .load32 (GET_ARG_OFFSET base_pointer arg_offset) ::
        (if is_address_valid m (GET_ARG_OFFSET base_pointer arg_offset) then
          get_function_arguments_accesses e m func_index s.arg_num base_pointer b1 arg_name
              arg_offset ++
            (match get_function_arguments e m func_index s.arg_num base_pointer b1 arg_name
                arg_offset with
              | .error _ => []
              | .ok b2 =>
                args_loop_accesses e m func_index base_pointer fuel
                  { b := b2, arg_num := s.arg_num + 1, frame_invalid := s.frame_invalid })
        else [])
    else []

/-- Accesses of one turn of the frame loop of `traceback`: the probe of the
base pointer, the load of the return address and its probe, the loads of the
saved frame pointer (`GET_OLD_EBP` is expanded in the comparison and again in
the branch taken), then the argument loop or the store of
`check_mem_addr_writtable`. -/
def frame_turn_accesses (e : Env) (m : Memory) (s : WalkState) : List Access :=
  if s.base_pointer = 0 then []
  else
    .load32 s.base_pointer ::
      (if !check_valid_frame m s.base_pointer then []
      else
        .load32 (s.base_pointer + 4) ::
          (match get_return_addr m s.base_pointer with
            | .error _ => []
            | .ok return_addr =>
              .load32 return_addr ::
                (if !check_valid_frame m return_addr then []
                else
                  .load32 s.base_pointer ::
                    (match GET_OLD_EBP m s.base_pointer with
                      | .error _ => []
                      | .ok old_ebp =>
                        if old_ebp > s.base_pointer then
                          .load32 s.base_pointer ::
                            (match get_function_index e return_addr with
                              | none => []
                              | some func_index =>
                                args_loop_accesses e m func_index old_ebp e.ARGS_MAX_NUM
                                  { b :=
                                      { buf := snprintf s.b.buf 0
                                          ("Function " ++ (e.fn func_index).name ++ "(")
                                        read_cnt :=
                                          ("Function " ++ (e.fn func_index).name ++ "(").length }
                                    arg_num := 0
                                    frame_invalid := s.frame_invalid })
                        else [.load32 s.base_pointer, .store32 old_ebp]))))

/-- Accesses of the frame loop of `traceback`, turn after turn. -/
def walk_accesses (e : Env) (m : Memory) : Nat → WalkState → List Access
  | 0, _ => []
  | fuel + 1, s =>
    frame_turn_accesses e m s ++
      (match frame_turn e m s with
        | .ok (.next s1) => walk_accesses e m fuel s1
        | _ => [])

/-- Accesses of a call of `traceback`, in the order they are made. -/
def traceback_accesses (e : Env) (m : Memory) : List Access :=
  if !e.Fileno_ok then []
  else if !e.install_ok then []
  else if !e.Malloc_ok then []
  else walk_accesses e m (WORD + 1) (initial_state e)

/-! ## Concrete stacks and tables -/

/-- Byte cells of consecutive little-endian words from address `a` on. -/
def word_cells (a : Nat) : List Nat → List (Nat × Nat)
  | [] => []
  | w :: ws =>
    (a, w % 256) :: (a + 1, w / 256 % 256) :: (a + 2, w / 65536 % 256)
      :: (a + 3, w / 16777216 % 256) :: word_cells (a + 4) ws

/-- Byte cells of consecutive bytes from address `a` on. -/
def byte_cells (a : Nat) : List Nat → List (Nat × Nat)
  | [] => []
  | b :: bs => (a, b) :: byte_cells (a + 1) bs

/-- Memory mapping exactly the listed cells: `rw` readable and writable, `ro`
readable only. -/
def mem_of (rw ro : List (Nat × Nat)) : Memory :=
  { readable := fun a => (rw ++ ro).any fun c => c.1 == a
    writable := fun a => rw.any fun c => c.1 == a
    byte := fun a =>
      match (rw ++ ro).find? fun c => c.1 == a with
      | some c => c.2
      | none => 0 }

/-- Environment with a table of at most 1024 functions of at most 6 arguments,
the 1 MB function size limit, and system calls that all succeed. -/
def env_of (functions : List functsym_t) (ebp : Nat) : Env :=
  { FUNCTS_MAX_NUM := 1024
    ARGS_MAX_NUM := 6
    MAX_FUNCTION_SIZE_BYTES := 1048576
    functions := functions
    initial_base_pointer := ebp
    Fileno_ok := true
    install_ok := true
    Malloc_ok := true
    Write_ok := fun _ => true
    temp_str_garbage := 0
    isprint_libc := fun _ => false }

/-- Table with `f` and `main`, neither taking arguments; the walk starts at `0x11000`. -/
def chain_env : Env := env_of [⟨0x8000, "f", []⟩, ⟨0x8100, "main", []⟩] 0x11000

/-- Stack of `traceback` called by `f` called by `main`: frames at `0x11000`,
`0x11020` and the root frame at `0x11040`, whose saved frame pointer `0x8200`
lies in the read-only code. -/
def chain_mem : Memory :=
  mem_of
    (word_cells 0x11000 [0x11020, 0x8010] ++ word_cells 0x11020 [0x11040, 0x8110]
      ++ word_cells 0x11040 [0x8200, 0x8300])
    (word_cells 0x8010 [0] ++ word_cells 0x8110 [0] ++ word_cells 0x8200 [0]
      ++ word_cells 0x8300 [0])

/-- Stack of `traceback` called by `f`, where the frame of `f` at `0x11020` is
not mapped. -/
def fatal_mem : Memory :=
  mem_of (word_cells 0x11000 [0x11020, 0x8010]) (word_cells 0x8010 [0])

/-- Table whose entry 0 starts exactly at the return address `0x8000` while
entry 1 starts `0x1000` bytes before it. -/
def resolve_env : Env := env_of [⟨0x8000, "f", []⟩, ⟨0x7000, "g", []⟩] 0x11000

/-- Table with `f(int x)`, `x` at offset 8, and `main` without arguments. -/
def arg_fault_env : Env :=
  env_of [⟨0x8000, "f", [⟨.TYPE_INT, 8, "x"⟩]⟩, ⟨0x8100, "main", []⟩] 0x11000

/-- Stack of `traceback` called by `f` called by `main`: the frame of `f` sits
at `0x11ff8`, the last 8 mapped bytes below `0x12000`, so the slot of `x` at
`0x12000` is unmapped; the frame of `main` is the root, at `0x13000`. -/
def arg_fault_mem : Memory :=
  mem_of
    (word_cells 0x11000 [0x11ff8, 0x8010] ++ word_cells 0x11ff8 [0x13000, 0x8110]
      ++ word_cells 0x13000 [0x8200, 0x8300])
    (word_cells 0x8010 [0] ++ word_cells 0x8110 [0] ++ word_cells 0x8200 [0]
      ++ word_cells 0x8300 [0])

/-- The 26 lower-case letters. -/
def letters : List Nat :=
  [97, 98, 99, 100, 101, 102, 103, 104, 105, 106, 107, 108, 109, 110, 111, 112, 113, 114, 115,
    116, 117, 118, 119, 120, 121, 122]

/-- Frame at `0x11000` with argument slots from offset 8 on: pointers to a
26-byte string, to a 25-byte string, to `hi`, to two bytes that end at the
unmapped address `0x2300`, the values 7 and 65, and two string arrays (two
strings then NULL at `0x3000`, four strings at `0x3100`). -/
def arg_mem : Memory :=
  mem_of
    (word_cells 0x11000 [0x11020, 0x8010, 0x2000, 0x2100, 0x2200, 0x22fe, 7, 65, 0x3000, 0x3100]
      ++ byte_cells 0x2000 (letters ++ [0]) ++ byte_cells 0x2100 (letters.take 25 ++ [0])
      ++ byte_cells 0x2200 [104, 105, 0] ++ byte_cells 0x22fe [120, 121]
      ++ word_cells 0x3000 [0x2200, 0x2100, 0]
      ++ word_cells 0x3100 [0x2200, 0x2100, 0x2000, 0x2200])
    []

/-- String array at `0x2ffc` whose first slot is the last mapped word below the
unmapped address `0x3000`; the slot points at the string `ab`. -/
def array_fault_mem : Memory :=
  mem_of (word_cells 0x2ffc [0x2000] ++ byte_cells 0x2000 [97, 98, 0]) []

/-- Table whose only function starts 16 bytes below the top of the address space. -/
def wrap_env : Env := env_of [⟨0xFFFFFFF0, "f", []⟩] 0x11000

/-- Table with one function at a usual code address above the 1 MB limit. -/
def high_env : Env := env_of [⟨0x8048000, "f", []⟩] 0x11000

/-- Stack of `traceback` called by `f`, whose frame at `0x11020` holds the
saved frame pointer `0x10000`, an address below it in writable memory. -/
def corrupt_mem : Memory :=
  mem_of
    (word_cells 0x10000 [0] ++ word_cells 0x11000 [0x11020, 0x8010]
      ++ word_cells 0x11020 [0x10000, 0x8110])
    (word_cells 0x8010 [0] ++ word_cells 0x8110 [0])

/-- Stack whose first frame returns to `0x500000`, more than 1 MB behind every
function of the table; the frame at `0x11020` is the root. -/
def unresolved_mem : Memory :=
  mem_of
    (word_cells 0x11000 [0x11020, 0x500000] ++ word_cells 0x11020 [0x8200, 0x8300])
    (word_cells 0x500000 [0] ++ word_cells 0x8200 [0] ++ word_cells 0x8300 [0])

/-- Stack whose first frame holds the saved frame pointer `0x11ffc`, the last
mapped word below the unmapped address `0x12000`. -/
def page_end_mem : Memory :=
  mem_of (word_cells 0x11000 [0x11ffc, 0x8010] ++ word_cells 0x11ffc [0x13000])
    (word_cells 0x8010 [0])

/-- The table of `chain_env` with an output file that accepts the first write
and rejects the second. -/
def second_write_fails_env : Env := chain_env.with_sink fun k => decide (k ≠ 1)

/-- The table of `chain_env` with an output file that rejects every write. -/
def reject_env : Env := chain_env.with_sink fun _ => false

/-- The table of `chain_env` when `Malloc` fails. -/
def no_buffer_env : Env := { chain_env with Malloc_ok := false }

/-- A frame argument slot pointing at the string `h`, BEL, `i` at `0x2000`. -/
def nonprint_mem : Memory :=
  mem_of (byte_cells 0x2000 [104, 7, 105, 0]) []

/-- Table of four functions; the last two start at the same address. -/
def tie_env : Env :=
  env_of [⟨0x8000, "f", []⟩, ⟨0x8100, "g", []⟩, ⟨0x8200, "h", []⟩, ⟨0x8200, "k", []⟩] 0x11000

end Traceback

namespace Kern

/-! ## Console device driver (`kern/console_device_driver.c`) -/

/-- Modelled from the spec: `CONSOLE_WIDTH` of the absent header
`video_defines.h`; the console has the columns `0..79`. -/
def CONSOLE_WIDTH : Nat := 80

/-- Modelled from the spec: `CONSOLE_HEIGHT` of the absent header
`video_defines.h`; the console has the rows `0..24`. -/
def CONSOLE_HEIGHT : Nat := 25

/-- Modelled from the spec: `CONSOLE_MEM_BASE` of the absent header
`video_defines.h`, the address of the first cell of the text screen. -/
def CONSOLE_MEM_BASE : Nat := 0xB8000

/-- Modelled from the spec: the index port of the CRT controller. -/
def CRTC_IDX_REG : Nat := 0x3d4

/-- Modelled from the spec: the data port of the CRT controller. -/
def CRTC_DATA_REG : Nat := 0x3d5

/-- Modelled from the spec: the controller register with the low byte of the
cursor position. -/
def CRTC_CURSOR_LSB_IDX : Nat := 15

/-- Modelled from the spec: the controller register with the high byte of the
cursor position. -/
def CRTC_CURSOR_MSB_IDX : Nat := 14

/-- The macro `CURSOR_HIDE_CONSTANT`. -/
def CURSOR_HIDE_CONSTANT : Int := CONSOLE_WIDTH * CONSOLE_HEIGHT

/-- The macro `CURSOR_HIDE_ADD(bp)`. -/
def CURSOR_HIDE_ADD (bp : Int) : Int := bp + CURSOR_HIDE_CONSTANT

/-- The macro `GET_CURSOR_POS(row,col)`. -/
def GET_CURSOR_POS (row col : Int) : Int := row * CONSOLE_WIDTH + col

/-- The macro `IO_PORT_WIDTH`. -/
def IO_PORT_WIDTH : Int := 256

/-- The macro `SCROLL_CONSOLE_BUFFER_LENGTH`. -/
def SCROLL_CONSOLE_BUFFER_LENGTH : Nat := 2 * (CONSOLE_WIDTH * (CONSOLE_HEIGHT - 1))

/-- The macro `GET_NEXT_ROW(addr)`. -/
def GET_NEXT_ROW (addr : Nat) : Nat := addr + 2 * CONSOLE_WIDTH

/-- The macro `GET_LAST_ROW(addr)`. -/
def GET_LAST_ROW (addr : Nat) : Nat := addr + SCROLL_CONSOLE_BUFFER_LENGTH

/-- The CRT controller behind its two ports: the register selected through the
index port and the content of the registers. -/
structure Crtc where
  index : Nat
  reg : Nat → Nat

/-- Modelled from the spec: `outb(port, val)` of the absent `asm.h` sends the
byte `val` to an x86 port. A byte sent to the index port selects a register of
the controller, a byte sent to the data port is stored in the selected
register; the other ports do not belong to the console. -/
def outb (c : Crtc) (port : Nat) (val : Int) : Crtc :=
  if port = CRTC_IDX_REG then { c with index := (val % 256).toNat }
  else if port = CRTC_DATA_REG then
    { c with reg := fun i => if i = c.index then (val % 256).toNat else c.reg i }
  else c

/-- Modelled from the spec: `inb(port)` of the absent `asm.h` reads a byte from
an x86 port; the data port answers with the selected register. -/
def inb (c : Crtc) (port : Nat) : Nat :=
  if port = CRTC_DATA_REG then c.reg c.index % 256 else 0

/-- The state the driver works on: its globals `term_color` and
`cursor_hidden`, the CRT controller, and the bytes of memory by address. -/
structure Console where
  term_color : Int
  cursor_hidden : Int
  crtc : Crtc
  mem : Nat → Nat

/-- The function `get_cursor_location`. -/
def get_cursor_location (st : Console) (row col : Int) : Int :=
  let index := GET_CURSOR_POS row col
  if st.cursor_hidden = 0 then index else CURSOR_HIDE_ADD index

/-- The function `send_data_IO_port`; `%` and `/` of C truncate towards zero. -/
def send_data_IO_port (st : Console) (index : Int) : Console :=
  let c1 := outb st.crtc CRTC_IDX_REG CRTC_CURSOR_LSB_IDX
  let c2 := outb c1 CRTC_DATA_REG (Int.tmod index IO_PORT_WIDTH)
  let c3 := outb c2 CRTC_IDX_REG CRTC_CURSOR_MSB_IDX
  let c4 := outb c3 CRTC_DATA_REG (Int.tdiv index IO_PORT_WIDTH)
  { st with crtc := c4 }

/-- The function `set_cursor`: the state afterwards (the result is always 0). -/
def set_cursor (st : Console) (row col : Int) : Console :=
  let index := get_cursor_location st row col
  send_data_IO_port st index

/-- The function `get_cursor`: the state afterwards and the values stored
through `row` and `col`. -/
def get_cursor (st : Console) : Console × Int × Int :=
  let c1 := outb st.crtc CRTC_IDX_REG CRTC_CURSOR_LSB_IDX
  let temp := inb c1 CRTC_DATA_REG
  let c2 := outb c1 CRTC_IDX_REG CRTC_CURSOR_MSB_IDX
  let temp : Int := (((inb c2 CRTC_DATA_REG) <<< 8) ||| temp : Nat)
  ({ st with crtc := c2 }, Int.tdiv temp CONSOLE_WIDTH, Int.tmod temp CONSOLE_WIDTH)

/-- The pair `(row, col)` a call of `get_cursor` stores. -/
def cursor_position (st : Console) : Int × Int := (get_cursor st).2

/-- The libc function `memcpy(dst, src, n)` from a buffer given by its bytes. -/
def memcpy (mem : Nat → Nat) (dst : Nat) (src : Nat → Nat) (n : Nat) : Nat → Nat :=
  fun a => if dst ≤ a ∧ a < dst + n then src (a - dst) else mem a

/-- The `for` loop of `clear_console_row` from `i` on; `fuel` bounds the turns. -/
def clear_console_row_loop (addr : Nat) : Nat → Nat → (Nat → Nat) → (Nat → Nat)
  | 0, _, mem => mem
  | fuel + 1, i, mem =>
    if i < addr + CONSOLE_WIDTH then
      clear_console_row_loop addr fuel (i + 2) (fun a => if a = i then 0 else mem a)
    else mem

/-- The function `clear_console_row`. -/
def clear_console_row (mem : Nat → Nat) (addr : Nat) : Nat → Nat :=
  clear_console_row_loop addr CONSOLE_WIDTH addr mem

/-- The function `scroll_console`, `malloc` succeeding: the rows from the
second on go through the allocated buffer to the start of the screen. -/
def scroll_console (st : Console) : Console :=
  let mem_area_second_row := GET_NEXT_ROW CONSOLE_MEM_BASE
  let mem_area_start := CONSOLE_MEM_BASE
  let scroll_console_buffer : Nat → Nat := fun i => st.mem (mem_area_second_row + i)
  let mem1 := memcpy st.mem mem_area_start scroll_console_buffer SCROLL_CONSOLE_BUFFER_LENGTH
  let mem_area_lastrow := GET_LAST_ROW CONSOLE_MEM_BASE
  { st with mem := clear_console_row mem1 mem_area_lastrow }

/-- The character byte of the cell `(row, col)` of the screen, the byte that
`draw_char` writes and `get_char` reads. -/
def cell_char (st : Console) (row col : Nat) : Nat :=
  st.mem (CONSOLE_MEM_BASE + 2 * (row * CONSOLE_WIDTH + col))

/-- The colour byte of the cell `(row, col)`, stored behind its character byte. -/
def cell_color (st : Console) (row col : Nat) : Nat :=
  st.mem (CONSOLE_MEM_BASE + 2 * (row * CONSOLE_WIDTH + col) + 1)

/-- The function `adjust_cursor_position`. -/
def adjust_cursor_position (st : Console) (index : Int) : Console :=
  if st.cursor_hidden ≠ 0 then
    if index ≥ 2 * (CONSOLE_WIDTH * CONSOLE_HEIGHT) then
      send_data_IO_port (scroll_console st) (SCROLL_CONSOLE_BUFFER_LENGTH + CONSOLE_WIDTH)
    else send_data_IO_port st index
  else
    if index ≥ CONSOLE_WIDTH * CONSOLE_HEIGHT then
      send_data_IO_port (scroll_console st) (CONSOLE_WIDTH * (CONSOLE_HEIGHT - 1))
    else send_data_IO_port st index

/-- The function `hide_cursor`. -/
def hide_cursor (st : Console) : Console :=
  let st1 := { st with cursor_hidden := 1 }
  let r := get_cursor st1
  let index := GET_CURSOR_POS r.2.1 r.2.2
  let index := CURSOR_HIDE_ADD index
  adjust_cursor_position r.1 index

/-! ## Keyboard buffer (`kern/install_handlers.c`) -/

/-- The struct `sbuf_t`: `buf` is an array of `char`, given by its elements;
`front` and `rear` only count upwards from 0. -/
structure sbuf_t where
  buf : Nat → Int
  num_slots : Nat
  front : Nat
  rear : Nat

/-- Conversion of an `int` to the `char` of the x86 target, a signed byte. -/
def to_char (item : Int) : Int := (item + 128) % 256 - 128

/-- The function `sbuf_init`, both `calloc` succeeding. -/
def sbuf_init (num_slots : Nat) : sbuf_t :=
  { buf := fun _ => 0, num_slots := num_slots, front := 0, rear := 0 }

/-- The function `sbuf_insert`; `none` is the division by zero of an empty buffer. -/
def sbuf_insert (sbuf : sbuf_t) (item : Int) : Option sbuf_t :=
  if sbuf.num_slots = 0 then none
  else
    some { sbuf with
      buf := fun i => if i = sbuf.rear % sbuf.num_slots then to_char item else sbuf.buf i
      rear := sbuf.rear + 1 }

/-- The function `sbuf_remove`: the buffer afterwards and the item returned. -/
def sbuf_remove (sbuf : sbuf_t) : Option (sbuf_t × Int) :=
  if sbuf.num_slots = 0 then none
  else some ({ sbuf with front := sbuf.front + 1 }, sbuf.buf (sbuf.front % sbuf.num_slots))

/-- The scancodes `items` inserted one after the other. -/
def insert_all (sbuf : sbuf_t) : List Int → Option sbuf_t
  | [] => some sbuf
  | item :: rest =>
    match sbuf_insert sbuf item with
    | none => none
    | some s1 => insert_all s1 rest

/-- The items returned by `k` calls of `sbuf_remove`. -/
def remove_all (sbuf : sbuf_t) : Nat → Option (List Int)
  | 0 => some []
  | k + 1 =>
    match sbuf_remove sbuf with
    | none => none
    | some (s1, item) =>
      match remove_all s1 k with
      | none => none
      | some rest => some (item :: rest)

/-- What `k` calls of `sbuf_remove` return after the scancodes `items` went
into a buffer fresh from `sbuf_init(n)`. -/
def round_trip (n : Nat) (items : List Int) : Option (List Int) :=
  match insert_all (sbuf_init n) items with
  | none => none
  | some s => remove_all s items.length

/-! ## Concrete screens -/

/-- A controller with register 0 selected and every register zero. -/
def crtc_zero : Crtc := { index := 0, reg := fun _ => 0 }

/-- A console with the cursor shown. -/
def shown_console : Console :=
  { term_color := 7, cursor_hidden := 0, crtc := crtc_zero, mem := fun _ => 0 }

/-- The console `shown_console` after a call of `hide_cursor`. -/
def hidden_console : Console := hide_cursor shown_console

/-- A screen whose every cell holds the character `A` in the colour 7. -/
def full_console : Console :=
  { term_color := 7
    cursor_hidden := 0
    crtc := crtc_zero
    mem := fun a =>
      if CONSOLE_MEM_BASE ≤ a ∧ a < CONSOLE_MEM_BASE + 2 * (CONSOLE_WIDTH * CONSOLE_HEIGHT) then
        (if (a - CONSOLE_MEM_BASE) % 2 = 0 then 65 else 7)
      else 0 }

end Kern

namespace Traceback

/-! ## Lemmas -/

theorem snprintf_length (buf text : String) : snprintf buf buf.length text = buf ++ text := by
  unfold snprintf
  rw [if_pos (Nat.le_refl _)]
  apply String.ext
  show List.take buf.data.length buf.data ++ text.data = (buf ++ text).data
  rw [List.take_length, String.data_append]

theorem snprintf_zero (buf text : String) : snprintf buf 0 text = text := by
  unfold snprintf
  rw [if_pos (Nat.zero_le _)]
  rfl

theorem c_string_of_string_at (m : Memory) (str : Nat) :
    ∀ (s : List Nat) (fuel i : Nat), s.length < fuel → string_at m (str + i) s = true →
      c_string m str fuel i = .ok s := by
  intro s
  induction s with
  | nil =>
    intro fuel i hf h
    obtain ⟨k, rfl⟩ : ∃ k, fuel = k + 1 := ⟨fuel - 1, by simp at hf; omega⟩
    simp [string_at] at h
    simp [c_string, load8, h]
  | cons c cs ih =>
    intro fuel i hf h
    obtain ⟨k, rfl⟩ : ∃ k, fuel = k + 1 := ⟨fuel - 1, by simp at hf; omega⟩
    simp [string_at] at h
    obtain ⟨⟨⟨h1, h2⟩, h3⟩, h4⟩ := h
    have h5 := ih k (i + 1) (by simp at hf; omega) (by rw [← h4]; congr 1)
    simp [c_string, load8, h1, h2, h3, h5]

theorem string_at_nonzero (m : Memory) :
    ∀ (s : List Nat) (p j : Nat), string_at m p s = true → j < s.length →
      m.byte ((p + j) % WORD) % 256 ≠ 0 := by
  intro s
  induction s with
  | nil => intro p j _ hj; simp at hj
  | cons c cs ih =>
    intro p j h hj
    simp [string_at] at h
    obtain ⟨⟨⟨_, h2⟩, h3⟩, h4⟩ := h
    cases j with
    | zero => simpa [h2] using h3
    | succ j =>
      have := ih (p + 1) j h4 (by simpa using hj)
      rwa [show p + 1 + j = p + (j + 1) by omega] at this

theorem string_at_end (m : Memory) :
    ∀ (s : List Nat) (p : Nat), string_at m p s = true →
      m.byte ((p + s.length) % WORD) % 256 = 0 := by
  intro s
  induction s with
  | nil => intro p h; simp [string_at] at h; simpa using h.2
  | cons c cs ih =>
    intro p h
    simp [string_at] at h
    have := ih (p + 1) h.2
    rwa [show p + 1 + cs.length = p + (c :: cs).length by simp; omega] at this

theorem string_at_length (m : Memory) (s : List Nat) (p : Nat) (h : string_at m p s = true) :
    s.length < WORD := by
  by_contra hc
  have hj : s.length - WORD < s.length := by unfold WORD at *; omega
  have h1 := string_at_nonzero m s p (s.length - WORD) h hj
  have h2 := string_at_end m s p h
  have e : (p + (s.length - WORD)) % WORD = (p + s.length) % WORD := by
    have : p + s.length = p + (s.length - WORD) + WORD := by unfold WORD at *; omega
    rw [this, Nat.add_mod_right]
  rw [e] at h1
  exact h1 h2

theorem strlen_of_string_at (m : Memory) (str : Nat) (s : List Nat)
    (h : string_at m str s = true) : strlen m str = .ok s.length := by
  unfold strlen
  rw [c_string_of_string_at m str s WORD 0 (string_at_length m s str h) h]

theorem strncpy_of_string_at (m : Memory) (str : Nat) :
    ∀ (s : List Nat) (n i : Nat), string_at m (str + i) s = true →
      strncpy m str n i = .ok (s.take n) := by
  intro s
  induction s with
  | nil =>
    intro n i h
    cases n with
    | zero => simp [strncpy]
    | succ n =>
      simp [string_at] at h
      simp [strncpy, load8, h]
  | cons c cs ih =>
    intro n i h
    cases n with
    | zero => simp [strncpy]
    | succ n =>
      simp [string_at] at h
      obtain ⟨⟨⟨h1, h2⟩, h3⟩, h4⟩ := h
      have h5 := ih n (i + 1) (by rw [← h4]; congr 1)
      simp [strncpy, load8, h1, h2, h3, h5]

theorem is_string_printable_loop_of_string_at (m : Memory) (str : Nat) :
    ∀ (s : List Nat) (i : Nat), string_at m (str + i) s = true →
      is_string_printable_loop m str s.length i = .ok (s.all isprint) := by
  intro s
  induction s with
  | nil => intro i _; rfl
  | cons c cs ih =>
    intro i h
    simp [string_at] at h
    obtain ⟨⟨⟨h1, h2⟩, _⟩, h4⟩ := h
    have h5 := ih (i + 1) (by rw [← h4]; congr 1)
    cases hc : isprint c <;> simp [is_string_printable_loop, load8, h1, h2, hc, h5]

theorem is_string_printable_of_string_at (m : Memory) (str : Nat) (s : List Nat)
    (h : string_at m str s = true) : is_string_printable m str = .ok (s.all isprint) := by
  unfold is_string_printable
  rw [strlen_of_string_at m str s h]
  exact is_string_printable_loop_of_string_at m str s 0 h

theorem add_wf (b : Buf) (x : String) (hb : b.read_cnt ≤ b.buf.length) :
    (b.add x).read_cnt = (b.add x).buf.length := by
  unfold Buf.add snprintf
  rw [if_pos hb]
  show b.read_cnt + x.data.length = (List.take b.read_cnt b.buf.data ++ x.data).length
  rw [List.length_append, List.length_take]
  have : b.read_cnt ≤ b.buf.data.length := hb
  omega

theorem add_add (b : Buf) (x y : String) (hb : b.read_cnt ≤ b.buf.length) :
    (b.add x).add y = b.add (x ++ y) := by
  have h1 := add_wf b x hb
  have h2 : (b.add x).add y = ⟨(b.add x).buf ++ y, (b.add x).read_cnt + y.length⟩ := by
    show Buf.mk (snprintf (b.add x).buf (b.add x).read_cnt y) _ = _
    rw [h1, snprintf_length]
  rw [h2]
  unfold Buf.add snprintf
  simp only [if_pos hb, Buf.mk.injEq]
  constructor
  · apply String.ext
    simp [String.data_append, List.append_assoc]
  · rw [String.length_append]; omega

theorem build_string_of_string_at (m : Memory) (str : Nat) (s : List Nat) (b : Buf)
    (h : string_at m str s = true) (hp : s.all isprint = true) :
    build_string m str b = .ok (b.add (if s.length ≤ STRING_MAX_CHARACTERS
      then "\"" ++ fmt_s s ++ "\"" else "\"" ++ fmt_s (s.take STRING_MAX_CHARACTERS) ++ "...\"")) := by
  unfold build_string build_string_guarded
  rw [is_string_printable_of_string_at m str s h, hp]
  simp only
  rw [strlen_of_string_at m str s h]
  simp only
  by_cases hl : s.length ≤ STRING_MAX_CHARACTERS
  · rw [if_pos hl, if_pos hl,
      c_string_of_string_at m str s WORD 0 (string_at_length m s str h) h]
  · rw [if_neg hl, if_neg hl, strncpy_of_string_at m str s STRING_MAX_CHARACTERS 0 h]

theorem c_string_faults (m : Memory) (p k : Nat)
    (hk : m.readable ((p + k) % WORD) = false)
    (hpre : ∀ i, i < k → m.readable ((p + i) % WORD) = true ∧ m.byte ((p + i) % WORD) % 256 ≠ 0) :
    ∀ (d i fuel : Nat), i + d = k → d < fuel → c_string m p fuel i = .error .segv := by
  intro d
  induction d with
  | zero =>
    intro i fuel hi hf
    obtain ⟨f, rfl⟩ : ∃ f, fuel = f + 1 := ⟨fuel - 1, by omega⟩
    have : i = k := by omega
    subst this
    simp [c_string, load8, hk]
  | succ d ih =>
    intro i fuel hi hf
    obtain ⟨f, rfl⟩ : ∃ f, fuel = f + 1 := ⟨fuel - 1, by omega⟩
    obtain ⟨h1, h2⟩ := hpre i (by omega)
    have h3 := ih (i + 1) f (by omega) (by omega)
    simp [c_string, load8, h1, h2, h3]

theorem fault_index_lt (m : Memory) (p k : Nat)
    (hk : m.readable ((p + k) % WORD) = false)
    (hpre : ∀ i, i < k → m.readable ((p + i) % WORD) = true ∧ m.byte ((p + i) % WORD) % 256 ≠ 0) :
    k < WORD := by
  by_contra hc
  have h1 := (hpre (k - WORD) (by unfold WORD at *; omega)).1
  have e : (p + (k - WORD)) % WORD = (p + k) % WORD := by
    have : p + k = p + (k - WORD) + WORD := by unfold WORD at *; omega
    rw [this, Nat.add_mod_right]
  rw [e, hk] at h1
  exact Bool.noConfusion h1

theorem build_string_faults (m : Memory) (p k : Nat) (b : Buf)
    (hk : m.readable ((p + k) % WORD) = false)
    (hpre : ∀ i, i < k → m.readable ((p + i) % WORD) = true ∧ m.byte ((p + i) % WORD) % 256 ≠ 0) :
    build_string m p b = .ok (b.add (fmt_p p)) := by
  have hc := c_string_faults m p k hk hpre k 0 WORD (by omega) (fault_index_lt m p k hk hpre)
  unfold build_string build_string_guarded is_string_printable strlen
  rw [hc]

theorem valid_of_load (m : Memory) (a v : Nat) (h : load32 m a = .ok v) :
    is_address_valid m a = true := by
  unfold is_address_valid DEREFERENCE_ADDR
  rw [h]

theorem build_string_shape (m : Memory) (p : Nat) :
    (∃ t, ∀ b, build_string m p b = .ok (b.add t)) ∨
    (∀ b, build_string m p b = .error .hang) := by
  unfold build_string build_string_guarded
  cases h1 : is_string_printable m p with
  | error x =>
    cases x with
    | segv => exact Or.inl ⟨fmt_p p, fun b => rfl⟩
    | hang => exact Or.inr fun b => rfl
  | ok v =>
    cases v with
    | false => exact Or.inl ⟨fmt_p p, fun b => rfl⟩
    | true =>
      cases h2 : strlen m p with
      | error x =>
        cases x with
        | segv => exact Or.inl ⟨fmt_p p, fun b => rfl⟩
        | hang => exact Or.inr fun b => rfl
      | ok n =>
        by_cases hn : n ≤ STRING_MAX_CHARACTERS
        · simp only [if_pos hn]
          cases h3 : c_string m p WORD 0 with
          | error x =>
            cases x with
            | segv => exact Or.inl ⟨fmt_p p, fun b => rfl⟩
            | hang => exact Or.inr fun b => rfl
          | ok bytes => exact Or.inl ⟨_, fun b => rfl⟩
        · simp only [if_neg hn]
          cases h3 : strncpy m p STRING_MAX_CHARACTERS 0 with
          | error x =>
            cases x with
            | segv => exact Or.inl ⟨fmt_p p, fun b => rfl⟩
            | hang => exact Or.inr fun b => rfl
          | ok bytes => exact Or.inl ⟨_, fun b => rfl⟩

theorem build_string_uniform (m : Memory) (p : Nat) (s : String)
    (h : rendered (build_string m p ⟨"", 0⟩) = some s) (b : Buf) :
    build_string m p b = .ok (b.add s) := by
  rcases build_string_shape m p with ⟨t, ht⟩ | hh
  · rw [ht ⟨"", 0⟩] at h
    have h1 : snprintf "" 0 t = s := Option.some.inj h
    rw [snprintf_zero] at h1
    rw [← h1]
    exact ht b
  · rw [hh] at h
    exact Option.noConfusion h

theorem string_array_at_cons (m : Memory) (a i : Nat) (ps : Nat × String)
    (rest : List (Nat × String)) (h : string_array_at m a i (ps :: rest) = true) :
    GET_NEXT_STRING_ADDR m a i = .ok ps.1 ∧ ps.1 ≠ 0 ∧
      (∀ b, build_string m ps.1 b = .ok (b.add ps.2)) ∧ string_array_at m a (i + 1) rest = true := by
  unfold string_array_at at h
  cases h1 : GET_NEXT_STRING_ADDR m a i with
  | error x => simp [h1] at h
  | ok p =>
    simp only [h1, Bool.and_eq_true, decide_eq_true_eq, bne_iff_ne, ne_eq] at h
    obtain ⟨⟨⟨hp, hn⟩, hr⟩, hrest⟩ := h
    exact ⟨by rw [hp], hn, build_string_uniform m _ _ hr, hrest⟩

theorem load32_lt (m : Memory) (a v : Nat) (h : load32 m a = .ok v) : v < WORD := by
  unfold load32 at h
  split at h
  · have h1 := Except.ok.inj h
    have b0 := Nat.mod_lt (m.byte (a % WORD)) (show 0 < 256 by decide)
    have b1 := Nat.mod_lt (m.byte ((a + 1) % WORD)) (show 0 < 256 by decide)
    have b2 := Nat.mod_lt (m.byte ((a + 2) % WORD)) (show 0 < 256 by decide)
    have b3 := Nat.mod_lt (m.byte ((a + 3) % WORD)) (show 0 < 256 by decide)
    unfold WORD
    omega
  · exact Except.noConfusion h

theorem args_loop_no_args (e : Env) (m : Memory) (func_index base_pointer fuel : Nat)
    (s : ArgState) (h : (e.arg func_index s.arg_num).name = "") :
    args_loop e m func_index base_pointer fuel s = .ok s := by
  cases fuel with
  | zero => rfl
  | succ fuel => simp [args_loop, h]

theorem call_chain_length (e : Env) (m : Memory) :
    ∀ (names : List String) (bp : Nat), call_chain e m bp names = true →
      names = [] ∨ bp + names.length < WORD := by
  intro names
  induction names with
  | nil => intro bp _; exact Or.inl rfl
  | cons name rest ih =>
    intro bp h
    right
    unfold call_chain at h
    cases h1 : get_return_addr m bp with
    | error x => simp [h1] at h
    | ok return_addr =>
      cases h2 : GET_OLD_EBP m bp with
      | error x => simp [h1, h2] at h
      | ok old_ebp =>
        simp only [h1, h2, Bool.and_eq_true, decide_eq_true_eq] at h
        obtain ⟨_, ⟨⟨_, hlt⟩, _⟩, hrest⟩ := h
        have hold := load32_lt m bp old_ebp h2
        rcases ih old_ebp hrest with hnil | hlen
        · subst hnil; simp; omega
        · simp; omega

theorem frame_turn_root (e : Env) (m : Memory) (s : WalkState)
    (h : call_chain e m s.base_pointer [] = true) :
    ∃ t, frame_turn e m s = .ok (.done t) ∧ t.sink = s.sink := by
  unfold frame_turn
  by_cases h0 : s.base_pointer = 0
  · rw [if_pos h0]
    exact ⟨_, rfl, rfl⟩
  · rw [if_neg h0]
    unfold call_chain root_frame at h
    cases h1 : get_return_addr m s.base_pointer with
    | error x => simp [h1] at h
    | ok return_addr =>
      cases h2 : GET_OLD_EBP m s.base_pointer with
      | error x => simp [h1, h2] at h
      | ok old_ebp =>
        simp only [h1, h2, Bool.and_eq_true, decide_eq_true_eq, Bool.not_eq_true'] at h
        obtain ⟨⟨hv, hr⟩, hle, hnw⟩ := h
        rcases hcw : check_mem_addr_writtable m old_ebp with ⟨w, m1⟩
        rw [hcw] at hnw
        simp only at hnw
        subst hnw
        simp only [hv, hr, Bool.not_true, Bool.false_eq_true, if_false,
          if_neg (Nat.not_lt.mpr hle), hcw]
        exact ⟨_, rfl, rfl⟩

theorem frame_turn_call (e : Env) (m : Memory) (hw : ∀ k, e.Write_ok k = true)
    (s : WalkState) (name : String) (rest : List String)
    (h : call_chain e m s.base_pointer (name :: rest) = true) :
    ∃ s1, frame_turn e m s = .ok (.next s1) ∧
      s1.sink = s.sink ++ ["Function " ++ name ++ "(void), in\n"] ∧
      call_chain e m s1.base_pointer rest = true := by
  unfold frame_turn
  unfold call_chain at h
  cases h1 : get_return_addr m s.base_pointer with
  | error x => simp [h1] at h
  | ok return_addr =>
    cases h2 : GET_OLD_EBP m s.base_pointer with
    | error x => simp [h1, h2] at h
    | ok old_ebp =>
      cases h3 : get_function_index e return_addr with
      | none => simp [h1, h2, h3] at h
      | some func_index =>
        simp only [h1, h2, h3, Bool.and_eq_true, decide_eq_true_eq, bne_iff_ne, ne_eq] at h
        obtain ⟨⟨h0, hv⟩, ⟨⟨hr, hlt⟩, hname, hargs⟩, hrest⟩ := h
        have ha := args_loop_no_args e m func_index old_ebp e.ARGS_MAX_NUM
          { b := { buf := snprintf s.b.buf 0 ("Function " ++ (e.fn func_index).name ++ "(")
                   read_cnt := ("Function " ++ (e.fn func_index).name ++ "(").length }
            arg_num := 0
            frame_invalid := s.frame_invalid } hargs
        simp only [if_neg h0, hv, hr, Bool.not_true, Bool.false_eq_true, if_false,
          if_pos hlt, h3, ha, hw, if_true]
        refine ⟨_, rfl, ?_, hrest⟩
        simp only [Buf.add, snprintf_zero, snprintf_length, hname, String.append_assoc]
        rfl

theorem walk_call_chain (e : Env) (m : Memory) (hw : ∀ k, e.Write_ok k = true) :
    ∀ (names : List String) (fuel : Nat) (s : WalkState), names.length < fuel →
      call_chain e m s.base_pointer names = true →
      ∃ t, walk e m fuel s = .ok t ∧
        t.sink = s.sink ++ names.map (fun n => "Function " ++ n ++ "(void), in\n") := by
  intro names
  induction names with
  | nil =>
    intro fuel s hf h
    obtain ⟨f, rfl⟩ : ∃ f, fuel = f + 1 := ⟨fuel - 1, by simp at hf; omega⟩
    obtain ⟨t, ht, hsink⟩ := frame_turn_root e m s h
    refine ⟨t, ?_, by simp [hsink]⟩
    unfold walk
    rw [ht]
  | cons name rest ih =>
    intro fuel s hf h
    obtain ⟨f, rfl⟩ : ∃ f, fuel = f + 1 := ⟨fuel - 1, by simp at hf; omega⟩
    obtain ⟨s1, hs1, hsink1, hrest⟩ := frame_turn_call e m hw s name rest h
    obtain ⟨t, ht, hsink⟩ := ih f s1 (by simp at hf; omega) hrest
    refine ⟨t, ?_, ?_⟩
    · unfold walk
      rw [hs1]
      exact ht
    · rw [hsink, hsink1]
      simp

theorem get_function_index_loop_diff (e : Env) (return_addr : Nat) :
    ∀ (fuel i temp func_index : Nat), temp = GET_ADDR_DIFF return_addr (e.fn func_index).addr →
      (get_function_index_loop e return_addr fuel i temp func_index).1
        = GET_ADDR_DIFF return_addr
            (e.fn (get_function_index_loop e return_addr fuel i temp func_index).2).addr := by
  intro fuel
  induction fuel with
  | zero => intro i temp func_index h; exact h
  | succ fuel ih =>
    intro i temp func_index h
    unfold get_function_index_loop
    by_cases hc : (e.fn i).name.length ≠ 0 ∧ i < e.FUNCTS_MAX_NUM
    · simp only [if_pos hc]
      by_cases hd : GET_ADDR_DIFF return_addr (e.fn i).addr < temp ∧
          GET_ADDR_DIFF return_addr (e.fn i).addr > 0
      · simp only [if_pos hd]
        exact ih _ _ _ rfl
      · simp only [if_neg hd]
        exact ih _ _ _ h
    · simp only [if_neg hc]
      exact h

theorem get_function_index_diff (e : Env) (return_addr k : Nat)
    (h : get_function_index e return_addr = some k) :
    0 < GET_ADDR_DIFF return_addr (e.fn k).addr ∧
      GET_ADDR_DIFF return_addr (e.fn k).addr < e.MAX_FUNCTION_SIZE_BYTES := by
  unfold get_function_index at h
  simp only at h
  split at h
  · next hc =>
    have hk := Option.some.inj h
    have hd := get_function_index_loop_diff e return_addr e.FUNCTS_MAX_NUM 1 _ 0 rfl
    rw [hk] at hd
    rw [← hd]
    exact hc
  · exact Option.noConfusion h

theorem valid_of_old_ebp (m : Memory) (bp old_ebp : Nat) (ho : GET_OLD_EBP m bp = .ok old_ebp) :
    check_valid_frame m bp = true := by
  unfold check_valid_frame
  rw [valid_of_load m bp old_ebp ho]
  rfl

theorem walk_done (e : Env) (m : Memory) (fuel : Nat) (s : WalkState) (t : TraceResult)
    (h : frame_turn e m s = .ok (.done t)) : walk e m (fuel + 1) s = .ok t := by
  unfold walk
  rw [h]

theorem walk_next (e : Env) (m : Memory) (fuel : Nat) (s s1 : WalkState)
    (h : frame_turn e m s = .ok (.next s1)) : walk e m (fuel + 1) s = walk e m fuel s1 := by
  rw [walk, h]

theorem check_mem_addr_writtable_mem (m : Memory) (addr : Nat) :
    (check_mem_addr_writtable m addr).2
      = if (check_mem_addr_writtable m addr).1 then store32 m addr DUMMY_VALUE else m := by
  unfold check_mem_addr_writtable
  split <;> rfl

theorem store32_word (m : Memory) (a v : Nat) (hv : v < WORD) :
    word_at (store32 m a v) a = v := by
  unfold word_at store32 WORD at *
  have h1 : (a + 1) % 4294967296 ≠ a % 4294967296 := by omega
  have h2 : (a + 2) % 4294967296 ≠ a % 4294967296 := by omega
  have h3 : (a + 3) % 4294967296 ≠ a % 4294967296 := by omega
  have h4 : (a + 2) % 4294967296 ≠ (a + 1) % 4294967296 := by omega
  have h5 : (a + 3) % 4294967296 ≠ (a + 1) % 4294967296 := by omega
  have h6 : (a + 3) % 4294967296 ≠ (a + 2) % 4294967296 := by omega
  simp only [if_true, if_neg h1, if_neg h2, if_neg h3, if_neg h4, if_neg h5, if_neg h6]
  omega

theorem get_function_index_loop_with_sink (e : Env) (w : Nat → Bool) (return_addr : Nat) :
    ∀ (fuel i temp func_index : Nat),
      get_function_index_loop (e.with_sink w) return_addr fuel i temp func_index
        = get_function_index_loop e return_addr fuel i temp func_index := by
  intro fuel
  induction fuel with
  | zero => intro i temp func_index; rfl
  | succ fuel ih =>
    intro i temp func_index
    unfold get_function_index_loop
    simp only [ih]
    rfl

theorem get_function_index_with_sink (e : Env) (w : Nat → Bool) (return_addr : Nat) :
    get_function_index (e.with_sink w) return_addr = get_function_index e return_addr := by
  unfold get_function_index
  simp only [get_function_index_loop_with_sink]
  rfl

theorem args_loop_with_sink (e : Env) (w : Nat → Bool) (m : Memory)
    (func_index base_pointer : Nat) :
    ∀ (fuel : Nat) (s : ArgState),
      args_loop (e.with_sink w) m func_index base_pointer fuel s
        = args_loop e m func_index base_pointer fuel s := by
  intro fuel
  induction fuel with
  | zero => intro s; rfl
  | succ fuel ih =>
    intro s
    unfold args_loop
    simp only [ih]
    rfl

theorem frame_turn_with_sink (e : Env) (w : Nat → Bool) (m : Memory) (s : WalkState) :
    frame_turn (e.with_sink w) m s
      = frame_turn (e.with_sink fun _ => w s.sink.length) m s := by
  unfold frame_turn
  simp only [get_function_index_with_sink, args_loop_with_sink]
  rfl

theorem with_sink_args_max (e : Env) (w : Nat → Bool) :
    (e.with_sink w).ARGS_MAX_NUM = e.ARGS_MAX_NUM := rfl

theorem with_sink_fn (e : Env) (w : Nat → Bool) (i : Nat) : (e.with_sink w).fn i = e.fn i := rfl

theorem with_sink_write (e : Env) (w : Nat → Bool) : (e.with_sink w).Write_ok = w := rfl

theorem frame_turn_sink_cases (e : Env) (m : Memory) (s : WalkState) :
    (∃ x, frame_turn (e.with_sink fun _ => true) m s = .error x ∧
      frame_turn (e.with_sink fun _ => false) m s = .error x) ∨
    (∃ t, t.sink = s.sink ∧ frame_turn (e.with_sink fun _ => true) m s = .ok (.done t) ∧
      frame_turn (e.with_sink fun _ => false) m s = .ok (.done t)) ∨
    (∃ s1 line t, s1.sink = s.sink ++ [line] ∧ t.sink = s.sink ∧ t.exit = .write_error ∧
      frame_turn (e.with_sink fun _ => true) m s = .ok (.next s1) ∧
      frame_turn (e.with_sink fun _ => false) m s = .ok (.done t)) := by
  unfold frame_turn
  simp only [get_function_index_with_sink, args_loop_with_sink, with_sink_args_max,
    with_sink_fn, with_sink_write]
  by_cases h0 : s.base_pointer = 0
  · simp only [if_pos h0]
    exact Or.inr (Or.inl ⟨_, rfl, rfl, rfl⟩)
  simp only [if_neg h0]
  by_cases hv : (!check_valid_frame m s.base_pointer) = true
  · simp only [if_pos hv]
    exact Or.inr (Or.inl ⟨_, rfl, rfl, rfl⟩)
  simp only [if_neg hv]
  cases hr : get_return_addr m s.base_pointer with
  | error x => exact Or.inl ⟨x, rfl, rfl⟩
  | ok return_addr =>
    simp only
    by_cases hra : (!check_valid_frame m return_addr) = true
    · simp only [if_pos hra]
      exact Or.inr (Or.inl ⟨_, rfl, rfl, rfl⟩)
    simp only [if_neg hra]
    cases ho : GET_OLD_EBP m s.base_pointer with
    | error x => exact Or.inl ⟨x, rfl, rfl⟩
    | ok old_ebp =>
      simp only
      by_cases hlt : old_ebp > s.base_pointer
      · simp only [if_pos hlt]
        cases hf : get_function_index e return_addr with
        | none =>
          exact Or.inr (Or.inr ⟨_, _, _, rfl, rfl, rfl, rfl, rfl⟩)
        | some func_index =>
          simp only
          cases ha : args_loop e m func_index old_ebp e.ARGS_MAX_NUM
              { b := { buf := snprintf s.b.buf 0 ("Function " ++ (e.fn func_index).name ++ "(")
                       read_cnt := ("Function " ++ (e.fn func_index).name ++ "(").length }
                arg_num := 0
                frame_invalid := s.frame_invalid } with
          | error x => exact Or.inl ⟨x, rfl, rfl⟩
          | ok a => exact Or.inr (Or.inr ⟨_, _, _, rfl, rfl, rfl, rfl, rfl⟩)
      · simp only [if_neg hlt]
        rcases hc : check_mem_addr_writtable m old_ebp with ⟨wr, m1⟩
        cases wr <;> exact Or.inr (Or.inl ⟨_, rfl, rfl, rfl⟩)

theorem walk_sink_extends (e : Env) (m : Memory) :
    ∀ (fuel : Nat) (s : WalkState) (t : TraceResult),
      walk (e.with_sink fun _ => true) m fuel s = .ok t → ∃ rest, t.sink = s.sink ++ rest := by
  intro fuel
  induction fuel with
  | zero => intro s t h; exact Except.noConfusion h
  | succ fuel ih =>
    intro s t h
    unfold walk at h
    rcases frame_turn_sink_cases e m s with
      ⟨x, hT, _⟩ | ⟨t1, hs, hT, _⟩ | ⟨s1, line, t1, hs, _, _, hT, _⟩
    · rw [hT] at h; exact Except.noConfusion h
    · rw [hT] at h
      simp only [Except.ok.injEq] at h
      subst h
      exact ⟨[], by simp [hs]⟩
    · rw [hT] at h
      obtain ⟨rest, hr⟩ := ih s1 t h
      exact ⟨line :: rest, by rw [hr, hs]; simp⟩

theorem walk_write_failure (e : Env) (w : Nat → Bool) (m : Memory) (k : Nat)
    (hacc : ∀ j, j < k → w j = true) (hrej : w k = false) :
    ∀ (fuel : Nat) (s : WalkState) (full : TraceResult),
      walk (e.with_sink fun _ => true) m fuel s = .ok full → s.sink.length ≤ k →
      ∃ t, walk (e.with_sink w) m fuel s = .ok t ∧ t.sink = full.sink.take k ∧
        (k < full.sink.length → t.exit = .write_error) := by
  intro fuel
  induction fuel with
  | zero => intro s full h; exact Except.noConfusion h
  | succ fuel ih =>
    intro s full h hk
    have hx := walk_sink_extends e m (fuel + 1) s full h
    unfold walk at h ⊢
    rw [frame_turn_with_sink e w m s]
    rcases frame_turn_sink_cases e m s with
      ⟨x, hT, _⟩ | ⟨t1, hs, hT, hR⟩ | ⟨s1, line, t1, hs, ht1, hex, hT, hR⟩
    · rw [hT] at h; exact Except.noConfusion h
    · rw [hT] at h
      simp only [Except.ok.injEq] at h
      subst h
      have hsame : frame_turn (e.with_sink fun _ => w s.sink.length) m s = .ok (.done t1) := by
        cases w s.sink.length
        · exact hR
        · exact hT
      rw [hsame]
      refine ⟨t1, rfl, ?_, ?_⟩
      · rw [hs, List.take_of_length_le hk]
      · intro hlt; rw [hs] at hlt; omega
    · rw [hT] at h
      simp only at h
      rcases Nat.lt_or_ge s.sink.length k with hlt | hge
      · rw [hacc _ hlt, hT]
        simp only
        exact ih s1 full h (by rw [hs]; simp; omega)
      · have hkeq : s.sink.length = k := by omega
        rw [hkeq, hrej, hR]
        refine ⟨t1, rfl, ?_, fun _ => hex⟩
        obtain ⟨rest, hr⟩ := walk_sink_extends e m fuel s1 full h
        rw [ht1, hr, hs, ← hkeq]
        simp

theorem frame_turn_next_bp (e : Env) (m : Memory) (s s1 : WalkState)
    (h : frame_turn e m s = .ok (.next s1)) :
    s.base_pointer < s1.base_pointer ∧ s1.base_pointer < WORD := by
  unfold frame_turn at h
  split at h
  · simp at h
  split at h
  · simp at h
  split at h
  · exact Except.noConfusion h
  split at h
  · simp at h
  split at h
  · exact Except.noConfusion h
  next old_ebp ho =>
  have hold := load32_lt m _ _ ho
  split at h
  next hlt =>
    simp only at h
    split at h
    · split at h
      · simp only [Except.ok.injEq, Turn.next.injEq] at h
        subst h
        exact ⟨hlt, hold⟩
      · simp at h
    · split at h
      · exact Except.noConfusion h
      · split at h
        · simp only [Except.ok.injEq, Turn.next.injEq] at h
          subst h
          exact ⟨hlt, hold⟩
        · simp at h
  · split at h <;> simp at h

theorem state_after_bp (e : Env) (m : Memory) :
    ∀ (n : Nat) (s : WalkState), state_after e m n = some s →
      n = 0 ∨ (n ≤ s.base_pointer ∧ s.base_pointer < WORD) := by
  intro n
  induction n with
  | zero => intro s _; exact Or.inl rfl
  | succ n ih =>
    intro s h
    right
    unfold state_after at h
    cases hp : state_after e m n with
    | none => rw [hp] at h; exact Option.noConfusion h
    | some s0 =>
      rw [hp] at h
      simp only at h
      split at h
      next s1 ht =>
        simp only [Option.some.injEq] at h
        subst h
        have hb := frame_turn_next_bp e m s0 _ ht
        rcases ih s0 hp with h0 | ⟨h1, _⟩
        · omega
        · omega
      · exact Option.noConfusion h

theorem walk_state_after (e : Env) (m : Memory) :
    ∀ (n : Nat) (s : WalkState), state_after e m n = some s →
      ∀ fuel, walk e m (n + fuel) (initial_state e) = walk e m fuel s := by
  intro n
  induction n with
  | zero =>
    intro s h fuel
    simp only [state_after, Option.some.injEq] at h
    subst h
    rw [Nat.zero_add]
  | succ n ih =>
    intro s h fuel
    unfold state_after at h
    cases hp : state_after e m n with
    | none => rw [hp] at h; exact Option.noConfusion h
    | some s0 =>
      rw [hp] at h
      simp only at h
      split at h
      next s1 ht =>
        simp only [Option.some.injEq] at h
        subst h
        rw [show n + 1 + fuel = n + (fuel + 1) by omega, ih s0 hp (fuel + 1)]
        exact walk_next e m fuel s0 _ ht
      · exact Option.noConfusion h

theorem traceback_from_state (e : Env) (m : Memory) (n : Nat) (s : WalkState)
    (hf : e.Fileno_ok = true) (hi : e.install_ok = true) (hm : e.Malloc_ok = true)
    (h : state_after e m n = some s) :
    ∃ fuel, traceback e m = walk e m (fuel + 1) s := by
  have hn : n ≤ WORD := by
    rcases state_after_bp e m n s h with h0 | ⟨h1, h2⟩
    · omega
    · omega
  refine ⟨WORD - n, ?_⟩
  unfold traceback
  simp only [hf, hi, hm, Bool.not_true, Bool.false_eq_true, if_false]
  rw [← walk_state_after e m n s h (WORD - n + 1)]
  rw [show n + (WORD - n + 1) = WORD + 1 by omega]
  rfl

theorem walk_corrupt_frame (e : Env) (m : Memory) (s : WalkState) (fuel : Nat)
    (return_addr old_ebp : Nat)
    (h0 : s.base_pointer ≠ 0)
    (hr : get_return_addr m s.base_pointer = .ok return_addr)
    (ho : GET_OLD_EBP m s.base_pointer = .ok old_ebp)
    (hle : old_ebp ≤ s.base_pointer)
    (hw : (check_mem_addr_writtable m old_ebp).1 = true) :
    ∃ t, walk e m (fuel + 1) s = .ok t ∧ t.sink = s.sink ∧ t.frame_invalid = true ∧
      t.exit = .completed := by
  have hv := valid_of_old_ebp m _ _ ho
  rcases hcw : check_mem_addr_writtable m old_ebp with ⟨w, m1⟩
  rw [hcw] at hw
  simp only at hw
  subst hw
  by_cases hra : check_valid_frame m return_addr = true
  · refine ⟨after_loop { s with frame_invalid := true } m1, walk_done e m fuel s _ ?_, rfl, rfl, rfl⟩
    unfold frame_turn
    simp only [if_neg h0, hv, hr, hra, ho, Bool.not_true, Bool.false_eq_true, if_false,
      if_neg (Nat.not_lt.mpr hle), hcw]
  · refine ⟨after_loop { s with frame_invalid := true } m, walk_done e m fuel s _ ?_, rfl, rfl, rfl⟩
    unfold frame_turn
    simp only [if_neg h0, hv, hr, hra, Bool.not_true, Bool.false_eq_true, if_false]
    simp

theorem walk_clean_root (e : Env) (m : Memory) (s : WalkState) (fuel : Nat)
    (return_addr old_ebp : Nat)
    (h0 : s.base_pointer ≠ 0)
    (hr : get_return_addr m s.base_pointer = .ok return_addr)
    (hra : check_valid_frame m return_addr = true)
    (ho : GET_OLD_EBP m s.base_pointer = .ok old_ebp)
    (hle : old_ebp ≤ s.base_pointer)
    (hw : (check_mem_addr_writtable m old_ebp).1 = false) :
    ∃ t, walk e m (fuel + 1) s = .ok t ∧ t.sink = s.sink ∧
      t.frame_invalid = s.frame_invalid ∧ t.exit = .completed := by
  have hv := valid_of_old_ebp m _ _ ho
  rcases hcw : check_mem_addr_writtable m old_ebp with ⟨w, m1⟩
  rw [hcw] at hw
  simp only at hw
  subst hw
  refine ⟨after_loop s m1, walk_done e m fuel s _ ?_, rfl, rfl, rfl⟩
  unfold frame_turn
  simp only [if_neg h0, hv, hr, hra, ho, Bool.not_true, Bool.false_eq_true, if_false,
    if_neg (Nat.not_lt.mpr hle), hcw]

theorem scanned_iff (e : Env) (i : Nat) :
    scanned e i = true ↔
      i = 0 ∨ (i < e.FUNCTS_MAX_NUM ∧ ∀ j, 1 ≤ j → j ≤ i → (e.fn j).name.length ≠ 0) := by
  unfold scanned
  simp only [Bool.or_eq_true, Bool.and_eq_true, decide_eq_true_eq, List.all_eq_true,
    List.mem_range]
  constructor
  · rintro (h | ⟨h1, h2⟩)
    · exact Or.inl h
    · refine Or.inr ⟨h1, fun j hj1 hj2 => ?_⟩
      have := h2 (j - 1) (by omega)
      rwa [show j - 1 + 1 = j by omega] at this
  · rintro (h | ⟨h1, h2⟩)
    · exact Or.inl h
    · exact Or.inr ⟨h1, fun j hj => h2 (j + 1) (by omega) (by omega)⟩

theorem get_function_index_loop_zero (e : Env) (return_addr : Nat) :
    ∀ (fuel i func_index : Nat),
      get_function_index_loop e return_addr fuel i 0 func_index = (0, func_index) := by
  intro fuel
  induction fuel with
  | zero => intro i func_index; rfl
  | succ fuel ih =>
    intro i func_index
    unfold get_function_index_loop
    by_cases hc : (e.fn i).name.length ≠ 0 ∧ i < e.FUNCTS_MAX_NUM
    · simp only [if_pos hc, Nat.not_lt_zero, false_and, if_false]
      exact ih _ _
    · simp only [if_neg hc]

theorem get_function_index_loop_min (e : Env) (return_addr : Nat) :
    ∀ (fuel i temp func_index : Nat), 1 ≤ i → i + fuel = e.FUNCTS_MAX_NUM + 1 →
      temp = GET_ADDR_DIFF return_addr (e.fn func_index).addr → 0 < temp →
      func_index < i → scanned e func_index = true →
      (∀ j, 1 ≤ j → j < i → (e.fn j).name.length ≠ 0) →
      (∀ j, j < i → GET_ADDR_DIFF return_addr (e.fn j).addr ≠ 0 →
        temp ≤ GET_ADDR_DIFF return_addr (e.fn j).addr) →
      (∀ j, j < i → GET_ADDR_DIFF return_addr (e.fn j).addr = temp → func_index ≤ j) →
      scanned e (get_function_index_loop e return_addr fuel i temp func_index).2 = true ∧
      (∀ j, scanned e j = true → GET_ADDR_DIFF return_addr (e.fn j).addr ≠ 0 →
        (get_function_index_loop e return_addr fuel i temp func_index).1
          ≤ GET_ADDR_DIFF return_addr (e.fn j).addr) ∧
      (∀ j, scanned e j = true →
        GET_ADDR_DIFF return_addr (e.fn j).addr
          = (get_function_index_loop e return_addr fuel i temp func_index).1 →
        (get_function_index_loop e return_addr fuel i temp func_index).2 ≤ j) := by
  intro fuel
  induction fuel with
  | zero =>
    intro i temp func_index hi hfuel _ _ _ hs _ hmin htie
    have hlt : ∀ j, scanned e j = true → j < i := by
      intro j hj
      rcases (scanned_iff e j).mp hj with h | ⟨h, _⟩
      · omega
      · omega
    exact ⟨hs, fun j hj hd => hmin j (hlt j hj) hd, fun j hj hd => htie j (hlt j hj) hd⟩
  | succ fuel ih =>
    intro i temp func_index hi hfuel ht hpos hfi hs hnames hmin htie
    unfold get_function_index_loop
    by_cases hc : (e.fn i).name.length ≠ 0 ∧ i < e.FUNCTS_MAX_NUM
    · simp only [if_pos hc]
      have hnames1 : ∀ j, 1 ≤ j → j < i + 1 → (e.fn j).name.length ≠ 0 := by
        intro j h1 h2
        by_cases hji : j = i
        · rw [hji]; exact hc.1
        · exact hnames j h1 (by omega)
      by_cases hd : GET_ADDR_DIFF return_addr (e.fn i).addr < temp ∧
          GET_ADDR_DIFF return_addr (e.fn i).addr > 0
      · simp only [if_pos hd]
        refine ih (i + 1) _ i (by omega) (by omega) rfl hd.2 (by omega) ?_ hnames1 ?_ ?_
        · exact (scanned_iff e i).mpr (Or.inr ⟨hc.2, fun j h1 h2 => hnames1 j h1 (by omega)⟩)
        · intro j hj hne
          by_cases hji : j = i
          · rw [hji]
          · have := hmin j (by omega) hne
            omega
        · intro j hj heq
          by_cases hji : j = i
          · omega
          · have := hmin j (by omega) (by omega)
            omega
      · simp only [if_neg hd]
        refine ih (i + 1) temp func_index (by omega) (by omega) ht hpos (by omega) hs hnames1
          ?_ ?_
        · intro j hj hne
          by_cases hji : j = i
          · rw [hji]
            rw [hji] at hne
            by_contra hlt
            exact hd ⟨by omega, by omega⟩
          · exact hmin j (by omega) hne
        · intro j hj heq
          by_cases hji : j = i
          · omega
          · exact htie j (by omega) heq
    · simp only [if_neg hc]
      have hlt : ∀ j, scanned e j = true → j < i := by
        intro j hj
        rcases (scanned_iff e j).mp hj with h | ⟨h1, h2⟩
        · omega
        · by_contra hge
          exact hc ⟨h2 i hi (by omega), by omega⟩
      exact ⟨hs, fun j hj hd => hmin j (hlt j hj) hd, fun j hj hd => htie j (hlt j hj) hd⟩

theorem load8_not_hang (m : Memory) (a : Nat) : load8 m a ≠ .error .hang := by
  unfold load8
  split <;> simp

theorem load32_not_hang (m : Memory) (a : Nat) : load32 m a ≠ .error .hang := by
  unfold load32
  split <;> simp

theorem c_string_hang (m : Memory) (p : Nat) :
    ∀ (fuel i : Nat), c_string m p fuel i = .error .hang →
      ∀ k, k < fuel → m.readable ((p + i + k) % WORD) = true ∧
        m.byte ((p + i + k) % WORD) % 256 ≠ 0 := by
  intro fuel
  induction fuel with
  | zero => intro i _ k hk; omega
  | succ fuel ih =>
    intro i h k hk
    unfold c_string load8 at h
    by_cases hr : m.readable ((p + i) % WORD) = true
    · simp only [hr, if_true] at h
      by_cases hz : m.byte ((p + i) % WORD) % 256 = 0
      · simp [hz] at h
      · simp only [if_neg hz] at h
        cases hc : c_string m p fuel (i + 1) with
        | ok bs => rw [hc] at h; simp at h
        | error x =>
          rw [hc] at h
          simp only [Except.error.injEq] at h
          subst h
          cases k with
          | zero => exact ⟨hr, hz⟩
          | succ k =>
            have := ih (i + 1) hc k (by omega)
            rwa [show p + (i + 1) + k = p + i + (k + 1) by omega] at this
    · simp [hr] at h

theorem c_string_not_hang (m : Memory) (p : Nat)
    (hz : ∃ a, a < WORD ∧ (m.readable a = false ∨ m.byte a % 256 = 0)) :
    c_string m p WORD 0 ≠ .error .hang := by
  intro h
  obtain ⟨a, ha, hbad⟩ := hz
  have key := c_string_hang m p WORD 0 h ((a + WORD - p % WORD) % WORD)
    (Nat.mod_lt _ (by decide))
  have e : (p + 0 + (a + WORD - p % WORD) % WORD) % WORD = a := by
    unfold WORD at *
    omega
  rw [e] at key
  rcases hbad with h1 | h1
  · rw [h1] at key
    exact Bool.noConfusion key.1
  · exact key.2 h1

theorem strlen_not_hang (m : Memory) (p : Nat)
    (hz : ∃ a, a < WORD ∧ (m.readable a = false ∨ m.byte a % 256 = 0)) :
    strlen m p ≠ .error .hang := by
  unfold strlen
  have := c_string_not_hang m p hz
  cases hc : c_string m p WORD 0 with
  | ok bs => simp
  | error x =>
    rw [hc] at this
    simpa using this

theorem is_string_printable_loop_not_hang (m : Memory) (p : Nat) :
    ∀ (fuel i : Nat), is_string_printable_loop m p fuel i ≠ .error .hang := by
  intro fuel
  induction fuel with
  | zero => intro i; simp [is_string_printable_loop]
  | succ fuel ih =>
    intro i
    unfold is_string_printable_loop
    have := load8_not_hang m (p + i)
    cases hl : load8 m (p + i) with
    | error x =>
      rw [hl] at this
      simpa using this
    | ok c =>
      simp only
      split
      · simp
      · exact ih (i + 1)

theorem strncpy_not_hang (m : Memory) (p : Nat) :
    ∀ (n i : Nat), strncpy m p n i ≠ .error .hang := by
  intro n
  induction n with
  | zero => intro i; simp [strncpy]
  | succ n ih =>
    intro i
    unfold strncpy
    have := load8_not_hang m (p + i)
    cases hl : load8 m (p + i) with
    | error x =>
      rw [hl] at this
      simpa using this
    | ok c =>
      simp only
      split
      · simp
      · have := ih (i + 1)
        cases hs : strncpy m p n (i + 1) with
        | ok bs => simp
        | error x =>
          rw [hs] at this
          simpa using this

theorem build_string_not_hang (m : Memory) (p : Nat) (b : Buf)
    (hz : ∃ a, a < WORD ∧ (m.readable a = false ∨ m.byte a % 256 = 0)) :
    build_string m p b ≠ .error .hang := by
  rcases build_string_shape m p with ⟨t, ht⟩ | hh
  · rw [ht b]
    simp
  · exfalso
    have hb := hh b
    unfold build_string build_string_guarded is_string_printable at hb
    have h1 := strlen_not_hang m p hz
    have h2 := c_string_not_hang m p hz
    have h3 := strncpy_not_hang m p STRING_MAX_CHARACTERS 0
    cases hs : strlen m p with
    | error x =>
      rw [hs] at h1
      cases x with
      | segv => simp [hs] at hb
      | hang => exact h1 rfl
    | ok n =>
      rw [hs] at hb
      simp only at hb
      have h4 := is_string_printable_loop_not_hang m p n 0
      cases hl : is_string_printable_loop m p n 0 with
      | error x =>
        cases x with
        | segv => simp [hl] at hb
        | hang => exact h4 hl
      | ok v =>
        rw [hl] at hb
        cases v with
        | false => simp at hb
        | true =>
          simp only at hb
          by_cases hn : n ≤ STRING_MAX_CHARACTERS
          · simp only [if_pos hn] at hb
            cases hc : c_string m p WORD 0 with
            | error x =>
              cases x with
              | segv => simp [hc] at hb
              | hang => exact h2 hc
            | ok bytes => simp [hc] at hb
          · simp only [if_neg hn] at hb
            cases hc : strncpy m p STRING_MAX_CHARACTERS 0 with
            | error x =>
              cases x with
              | segv => simp [hc] at hb
              | hang => exact h3 hc
            | ok bytes => simp [hc] at hb

theorem build_string_array_loop_not_hang (m : Memory) (str : Nat)
    (hz : ∃ a, a < WORD ∧ (m.readable a = false ∨ m.byte a % 256 = 0)) :
    ∀ (fuel string_count temp_str : Nat) (b : Buf),
      build_string_array_loop m str fuel string_count temp_str b ≠ .error .hang := by
  intro fuel
  induction fuel with
  | zero => intro string_count temp_str b; simp [build_string_array_loop]
  | succ fuel ih =>
    intro string_count temp_str b
    unfold build_string_array_loop
    simp only
    have hl := load32_not_hang m (GET_NEXT_STRING_OFFSET str string_count)
    by_cases hv : is_address_valid m (GET_NEXT_STRING_OFFSET str string_count) = true
    · simp only [hv, if_true]
      unfold GET_NEXT_STRING_ADDR
      cases hg : load32 m (GET_NEXT_STRING_OFFSET str string_count) with
      | error x =>
        rw [hg] at hl
        simpa using hl
      | ok p =>
        simp only
        by_cases hp : p = 0
        · simp [hp]
        · simp only [if_neg hp]
          have hb := build_string_not_hang m p (if string_count ≠ 0 then b.add "," else b) hz
          cases hs : build_string m p (if string_count ≠ 0 then b.add "," else b) with
          | error x =>
            rw [hs] at hb
            simpa using hb
          | ok b3 => exact ih _ _ _
    · simp only [hv, Bool.false_eq_true, if_false]
      by_cases hp : temp_str = 0
      · simp [hp]
      · simp only [if_neg hp]
        have hb := build_string_not_hang m temp_str
          (if string_count ≠ 0 then (b.add (fmt_p (GET_NEXT_STRING_OFFSET str string_count))).add ","
            else b.add (fmt_p (GET_NEXT_STRING_OFFSET str string_count))) hz
        cases hs : build_string m temp_str
            (if string_count ≠ 0
              then (b.add (fmt_p (GET_NEXT_STRING_OFFSET str string_count))).add ","
              else b.add (fmt_p (GET_NEXT_STRING_OFFSET str string_count))) with
        | error x =>
          rw [hs] at hb
          simpa using hb
        | ok b3 => exact ih _ _ _

theorem build_string_array_not_hang (m : Memory) (garbage str : Nat) (b : Buf)
    (hz : ∃ a, a < WORD ∧ (m.readable a = false ∨ m.byte a % 256 = 0)) :
    build_string_array m garbage str b ≠ .error .hang := by
  unfold build_string_array
  have h1 := build_string_array_loop_not_hang m str hz STRING_ARRAY_MAX_STRINGS 0 garbage
    (b.add "\x7b")
  cases hl : build_string_array_loop m str STRING_ARRAY_MAX_STRINGS 0 garbage (b.add "\x7b") with
  | error x =>
    rw [hl] at h1
    simpa using h1
  | ok r =>
    obtain ⟨c, b1⟩ := r
    simp only
    have h2 := load32_not_hang m (GET_NEXT_STRING_OFFSET str c)
    by_cases hv : is_address_valid m (GET_NEXT_STRING_OFFSET str c) = true
    · simp only [hv, if_true]
      unfold GET_NEXT_STRING_ADDR
      cases hg : load32 m (GET_NEXT_STRING_OFFSET str c) with
      | error x =>
        rw [hg] at h2
        simpa using h2
      | ok p => simp
    · simp [hv]

theorem get_function_arguments_not_hang (e : Env) (m : Memory) (i j bp : Nat) (b : Buf)
    (name : String) (off : Int)
    (hz : ∃ a, a < WORD ∧ (m.readable a = false ∨ m.byte a % 256 = 0)) :
    get_function_arguments e m i j bp b name off ≠ .error .hang := by
  have hl := load32_not_hang m (GET_ARG_OFFSET bp off)
  unfold get_function_arguments
  cases (e.arg i j).type <;> simp only
  · unfold get_char_argument GET_ARG
    cases hg : load32 m (GET_ARG_OFFSET bp off) with
    | error x => rw [hg] at hl; simpa using hl
    | ok v => simp only; split <;> simp
  · unfold get_int_argument GET_ARG
    cases hg : load32 m (GET_ARG_OFFSET bp off) with
    | error x => rw [hg] at hl; simpa using hl
    | ok v => simp
  · unfold get_float_argument GET_ARG_FLOAT
    cases hg : load32 m (GET_ARG_OFFSET bp off) with
    | error x => rw [hg] at hl; simpa using hl
    | ok v => simp
  · unfold get_double_argument GET_ARG_FLOAT
    cases hg : load32 m (GET_ARG_OFFSET bp off) with
    | error x => rw [hg] at hl; simpa using hl
    | ok v => simp
  · unfold get_string_argument GET_ARG
    cases hg : load32 m (GET_ARG_OFFSET bp off) with
    | error x => rw [hg] at hl; simpa using hl
    | ok v => exact build_string_not_hang m v _ hz
  · unfold get_string_array GET_ARG
    cases hg : load32 m (GET_ARG_OFFSET bp off) with
    | error x => rw [hg] at hl; simpa using hl
    | ok v =>
      simp only
      split
      · exact build_string_array_not_hang m _ v _ hz
      · simp
  · unfold get_void_pointer_argument GET_ARG
    cases hg : load32 m (GET_ARG_OFFSET bp off) with
    | error x => rw [hg] at hl; simpa using hl
    | ok v => simp
  · unfold get_unknown_argument GET_ARG
    cases hg : load32 m (GET_ARG_OFFSET bp off) with
    | error x => rw [hg] at hl; simpa using hl
    | ok v => simp

theorem args_loop_not_hang (e : Env) (m : Memory) (i bp : Nat)
    (hz : ∃ a, a < WORD ∧ (m.readable a = false ∨ m.byte a % 256 = 0)) :
    ∀ (fuel : Nat) (s : ArgState), args_loop e m i bp fuel s ≠ .error .hang := by
  intro fuel
  induction fuel with
  | zero => intro s; simp [args_loop]
  | succ fuel ih =>
    intro s
    unfold args_loop
    simp only
    split
    · split
      · have hg := get_function_arguments_not_hang e m i s.arg_num bp
          (if s.arg_num ≥ 1 then s.b.add ", " else s.b) (e.arg i s.arg_num).name
          (e.arg i s.arg_num).offset hz
        cases hc : get_function_arguments e m i s.arg_num bp
            (if s.arg_num ≥ 1 then s.b.add ", " else s.b) (e.arg i s.arg_num).name
            (e.arg i s.arg_num).offset with
        | error x => rw [hc] at hg; simpa using hg
        | ok b2 => exact ih _
      · simp
    · simp

theorem frame_turn_not_hang (e : Env) (m : Memory) (s : WalkState)
    (hz : ∃ a, a < WORD ∧ (m.readable a = false ∨ m.byte a % 256 = 0)) :
    frame_turn e m s ≠ .error .hang := by
  unfold frame_turn
  split
  · simp
  split
  · simp
  have h1 := load32_not_hang m (s.base_pointer + 4)
  have h2 := load32_not_hang m s.base_pointer
  unfold get_return_addr GET_OLD_EBP
  cases hr : load32 m (s.base_pointer + 4) with
  | error x => rw [hr] at h1; simpa using h1
  | ok return_addr =>
    simp only
    split
    · simp
    cases ho : load32 m s.base_pointer with
    | error x => rw [ho] at h2; simpa using h2
    | ok old_ebp =>
      simp only
      split
      · cases hf : get_function_index e return_addr with
        | none => simp only; split <;> simp
        | some func_index =>
          simp only
          have ha := args_loop_not_hang e m func_index old_ebp hz e.ARGS_MAX_NUM
            { b := { buf := snprintf s.b.buf 0 ("Function " ++ (e.fn func_index).name ++ "(")
                     read_cnt := ("Function " ++ (e.fn func_index).name ++ "(").length }
              arg_num := 0
              frame_invalid := s.frame_invalid }
          cases hc : args_loop e m func_index old_ebp e.ARGS_MAX_NUM
              { b := { buf := snprintf s.b.buf 0 ("Function " ++ (e.fn func_index).name ++ "(")
                       read_cnt := ("Function " ++ (e.fn func_index).name ++ "(").length }
                arg_num := 0
                frame_invalid := s.frame_invalid } with
          | error x => rw [hc] at ha; simpa using ha
          | ok a => simp only; split <;> simp
      · split <;> simp

theorem walk_error (e : Env) (m : Memory) (fuel : Nat) (s : WalkState) (x : Stop)
    (h : frame_turn e m s = .error x) : walk e m (fuel + 1) s = .error x := by
  rw [walk, h]

theorem state_after_succ (e : Env) (m : Memory) (n : Nat) (s1 : WalkState)
    (h : state_after e m (n + 1) = some s1) :
    ∃ s, state_after e m n = some s ∧ frame_turn e m s = .ok (.next s1) := by
  unfold state_after at h
  cases hp : state_after e m n with
  | none => rw [hp] at h; exact Option.noConfusion h
  | some s0 =>
    rw [hp] at h
    simp only at h
    split at h
    next s2 ht =>
      simp only [Option.some.injEq] at h
      subst h
      exact ⟨s0, rfl, ht⟩
    · exact Option.noConfusion h

theorem state_after_increasing (e : Env) (m : Memory) (i : Nat) (si : WalkState)
    (hi : state_after e m i = some si) :
    ∀ (d : Nat) (sj : WalkState), state_after e m (i + d + 1) = some sj →
      si.base_pointer < sj.base_pointer := by
  intro d
  induction d with
  | zero =>
    intro sj hj
    obtain ⟨s, hs, ht⟩ := state_after_succ e m i sj hj
    rw [hi] at hs
    cases Option.some.inj hs
    exact (frame_turn_next_bp e m si sj ht).1
  | succ d ih =>
    intro sj hj
    obtain ⟨s, hs, ht⟩ := state_after_succ e m (i + d + 1) sj hj
    have h1 := ih s hs
    have h2 := (frame_turn_next_bp e m s sj ht).1
    omega

theorem state_after_last (e : Env) (m : Memory) :
    ∃ n s, n ≤ WORD ∧ state_after e m n = some s ∧ state_after e m (n + 1) = none := by
  have hex : ∃ n, state_after e m (n + 1) = none := by
    refine ⟨WORD, ?_⟩
    cases h : state_after e m (WORD + 1) with
    | none => rfl
    | some s =>
      rcases state_after_bp e m (WORD + 1) s h with h0 | ⟨h1, h2⟩
      · omega
      · omega
  classical
  have hmin : ∀ k, k < Nat.find hex → ¬ state_after e m (k + 1) = none :=
    fun k hk => Nat.find_min hex hk
  have hspec := Nat.find_spec hex
  have hle : Nat.find hex ≤ WORD := by
    apply Nat.find_min' hex
    cases h : state_after e m (WORD + 1) with
    | none => rfl
    | some s =>
      rcases state_after_bp e m (WORD + 1) s h with h0 | ⟨h1, h2⟩
      · omega
      · omega
  cases hn : Nat.find hex with
  | zero =>
    rw [hn] at hspec
    exact ⟨0, initial_state e, Nat.zero_le _, rfl, hspec⟩
  | succ k =>
    rw [hn] at hspec hle
    have hk : ¬ state_after e m (k + 1) = none := hmin k (by omega)
    cases hs : state_after e m (k + 1) with
    | none => exact absurd hs hk
    | some s => exact ⟨k + 1, s, hle, hs, hspec⟩

theorem load32_of_valid (m : Memory) (a : Nat) (h : is_address_valid m a = true) :
    ∃ w, load32 m a = .ok w := by
  unfold is_address_valid DEREFERENCE_ADDR at h
  cases hl : load32 m a with
  | ok w => exact ⟨w, rfl⟩
  | error x => rw [hl] at h; exact Bool.noConfusion h

theorem build_string_not_segv (m : Memory) (p : Nat) (b : Buf) :
    build_string m p b ≠ .error .segv := by
  unfold build_string
  cases hg : build_string_guarded m p b with
  | ok r => simp
  | error x => cases x <;> simp

theorem build_string_array_loop_not_segv (m : Memory) (str : Nat) :
    ∀ (fuel string_count temp_str : Nat) (b : Buf),
      build_string_array_loop m str fuel string_count temp_str b ≠ .error .segv := by
  intro fuel
  induction fuel with
  | zero => intro string_count temp_str b; simp [build_string_array_loop]
  | succ fuel ih =>
    intro string_count temp_str b
    unfold build_string_array_loop
    simp only
    by_cases hv : is_address_valid m (GET_NEXT_STRING_OFFSET str string_count) = true
    · obtain ⟨p, hp⟩ := load32_of_valid m _ hv
      simp only [hv, if_true]
      unfold GET_NEXT_STRING_ADDR
      rw [hp]
      simp only
      by_cases hz : p = 0
      · simp [hz]
      · simp only [if_neg hz]
        have hb := build_string_not_segv m p (if string_count ≠ 0 then b.add "," else b)
        cases hs : build_string m p (if string_count ≠ 0 then b.add "," else b) with
        | error x =>
          rw [hs] at hb
          simpa using hb
        | ok b3 => exact ih _ _ _
    · simp only [hv, Bool.false_eq_true, if_false]
      by_cases hz : temp_str = 0
      · simp [hz]
      · simp only [if_neg hz]
        have hb := build_string_not_segv m temp_str
          (if string_count ≠ 0 then (b.add (fmt_p (GET_NEXT_STRING_OFFSET str string_count))).add ","
            else b.add (fmt_p (GET_NEXT_STRING_OFFSET str string_count)))
        cases hs : build_string m temp_str
            (if string_count ≠ 0
              then (b.add (fmt_p (GET_NEXT_STRING_OFFSET str string_count))).add ","
              else b.add (fmt_p (GET_NEXT_STRING_OFFSET str string_count))) with
        | error x =>
          rw [hs] at hb
          simpa using hb
        | ok b3 => exact ih _ _ _

theorem build_string_array_not_segv (m : Memory) (garbage str : Nat) (b : Buf) :
    build_string_array m garbage str b ≠ .error .segv := by
  unfold build_string_array
  have h1 := build_string_array_loop_not_segv m str STRING_ARRAY_MAX_STRINGS 0 garbage
    (b.add "\x7b")
  cases hl : build_string_array_loop m str STRING_ARRAY_MAX_STRINGS 0 garbage (b.add "\x7b") with
  | error x =>
    rw [hl] at h1
    simpa using h1
  | ok r =>
    obtain ⟨c, b1⟩ := r
    simp only
    by_cases hv : is_address_valid m (GET_NEXT_STRING_OFFSET str c) = true
    · obtain ⟨p, hp⟩ := load32_of_valid m _ hv
      simp only [hv, if_true]
      unfold GET_NEXT_STRING_ADDR
      rw [hp]
      simp
    · simp [hv]

theorem get_function_arguments_not_segv (e : Env) (m : Memory) (i j bp : Nat) (b : Buf)
    (name : String) (off : Int) (hv : is_address_valid m (GET_ARG_OFFSET bp off) = true) :
    get_function_arguments e m i j bp b name off ≠ .error .segv := by
  obtain ⟨w, hw⟩ := load32_of_valid m _ hv
  unfold get_function_arguments
  cases (e.arg i j).type <;> simp only
  · unfold get_char_argument GET_ARG
    rw [hw]
    simp only
    split <;> simp
  · unfold get_int_argument GET_ARG
    rw [hw]
    simp
  · unfold get_float_argument GET_ARG_FLOAT
    rw [hw]
    simp
  · unfold get_double_argument GET_ARG_FLOAT
    rw [hw]
    simp
  · unfold get_string_argument GET_ARG
    rw [hw]
    exact build_string_not_segv m w _
  · unfold get_string_array GET_ARG
    rw [hw]
    simp only
    split
    · exact build_string_array_not_segv m _ w _
    · simp
  · unfold get_void_pointer_argument GET_ARG
    rw [hw]
    simp
  · unfold get_unknown_argument GET_ARG
    rw [hw]
    simp

theorem args_loop_not_segv (e : Env) (m : Memory) (i bp : Nat) :
    ∀ (fuel : Nat) (s : ArgState), args_loop e m i bp fuel s ≠ .error .segv := by
  intro fuel
  induction fuel with
  | zero => intro s; simp [args_loop]
  | succ fuel ih =>
    intro s
    unfold args_loop
    simp only
    split
    · split
      · next hv =>
        have hg := get_function_arguments_not_segv e m i s.arg_num bp
          (if s.arg_num ≥ 1 then s.b.add ", " else s.b) (e.arg i s.arg_num).name
          (e.arg i s.arg_num).offset hv
        cases hc : get_function_arguments e m i s.arg_num bp
            (if s.arg_num ≥ 1 then s.b.add ", " else s.b) (e.arg i s.arg_num).name
            (e.arg i s.arg_num).offset with
        | error x => rw [hc] at hg; simpa using hg
        | ok b2 => exact ih _
      · simp
    · simp

theorem frame_turn_segv_source (e : Env) (m : Memory) (s : WalkState)
    (h : frame_turn e m s = .error .segv) :
    s.base_pointer ≠ 0 ∧ check_valid_frame m s.base_pointer = true ∧
      get_return_addr m s.base_pointer = .error .segv := by
  unfold frame_turn at h
  by_cases h0 : s.base_pointer = 0
  · simp [h0] at h
  by_cases hv : check_valid_frame m s.base_pointer = true
  · refine ⟨h0, hv, ?_⟩
    simp only [if_neg h0, hv, Bool.not_true, Bool.false_eq_true, if_false] at h
    cases hr : get_return_addr m s.base_pointer with
    | error x =>
      rw [hr] at h
      simp only [Except.error.injEq] at h
      rw [h]
    | ok return_addr =>
      exfalso
      rw [hr] at h
      simp only at h
      have hvb : is_address_valid m s.base_pointer = true := by
        unfold check_valid_frame at hv
        by_cases hx : is_address_valid m s.base_pointer = true
        · exact hx
        · simp [hx] at hv
      obtain ⟨old_ebp, ho⟩ := load32_of_valid m _ hvb
      unfold GET_OLD_EBP at h
      rw [ho] at h
      split at h
      · simp at h
      simp only at h
      split at h
      · cases hf : get_function_index e return_addr with
        | none =>
          rw [hf] at h
          simp only at h
          split at h <;> simp at h
        | some func_index =>
          rw [hf] at h
          simp only at h
          have ha := args_loop_not_segv e m func_index old_ebp e.ARGS_MAX_NUM
            { b := { buf := snprintf s.b.buf 0 ("Function " ++ (e.fn func_index).name ++ "(")
                     read_cnt := ("Function " ++ (e.fn func_index).name ++ "(").length }
              arg_num := 0
              frame_invalid := s.frame_invalid }
          cases hc : args_loop e m func_index old_ebp e.ARGS_MAX_NUM
              { b := { buf := snprintf s.b.buf 0 ("Function " ++ (e.fn func_index).name ++ "(")
                       read_cnt := ("Function " ++ (e.fn func_index).name ++ "(").length }
                arg_num := 0
                frame_invalid := s.frame_invalid } with
          | error x =>
            rw [hc] at h ha
            simp only [Except.error.injEq] at h
            rw [h] at ha
            exact ha rfl
          | ok a =>
            rw [hc] at h
            simp only at h
            split at h <;> simp at h
      · split at h <;> simp at h
  · simp [h0, hv] at h

theorem traceback_segv_source (e : Env) (m : Memory)
    (h : stopped (traceback e m) = some .segv) :
    ∃ n s, state_after e m n = some s ∧ s.base_pointer ≠ 0 ∧
      check_valid_frame m s.base_pointer = true ∧
      get_return_addr m s.base_pointer = .error .segv := by
  by_cases hf : e.Fileno_ok = true
  · by_cases hi : e.install_ok = true
    · by_cases hm : e.Malloc_ok = true
      · obtain ⟨n, s, _, hs, _⟩ := state_after_last e m
        obtain ⟨fuel, hfuel⟩ := traceback_from_state e m n s hf hi hm hs
        rw [hfuel] at h
        cases ht : frame_turn e m s with
        | error x =>
          rw [walk_error e m fuel s x ht] at h
          have hx : x = .segv := Option.some.inj h
          subst hx
          exact ⟨n, s, hs, frame_turn_segv_source e m s ht⟩
        | ok r =>
          cases r with
          | done t =>
            rw [walk_done e m fuel s t ht] at h
            exact Option.noConfusion h
          | next s1 =>
            exfalso
            have hnone : state_after e m (n + 1) = none := by assumption
            unfold state_after at hnone
            rw [hs] at hnone
            simp only [ht] at hnone
            exact Option.noConfusion hnone
      · unfold traceback at h
        simp [hf, hi, hm, stopped] at h
    · unfold traceback at h
      simp [hf, hi, stopped] at h
  · unfold traceback at h
    simp [hf, stopped] at h

theorem no_store_append (a b : List Access) :
    no_store (a ++ b) = (no_store a && no_store b) := by
  unfold no_store
  rw [List.all_append]

theorem no_store_load8 (a : Nat) (l : List Access) :
    no_store (Access.load8 a :: l) = no_store l := by
  simp [no_store, is_store]

theorem no_store_load32 (a : Nat) (l : List Access) :
    no_store (Access.load32 a :: l) = no_store l := by
  simp [no_store, is_store]

theorem no_store_nil : no_store [] = true := rfl

theorem c_string_accesses_no_store (m : Memory) (str : Nat) :
    ∀ (fuel i : Nat), no_store (c_string_accesses m str fuel i) = true := by
  intro fuel
  induction fuel with
  | zero => intro i; rfl
  | succ fuel ih =>
    intro i
    unfold c_string_accesses
    rw [no_store_load8]
    cases load8 m (str + i) with
    | error x => rfl
    | ok b =>
      simp only
      split
      · rfl
      · exact ih (i + 1)

theorem strncpy_accesses_no_store (m : Memory) (str : Nat) :
    ∀ (n i : Nat), no_store (strncpy_accesses m str n i) = true := by
  intro n
  induction n with
  | zero => intro i; rfl
  | succ n ih =>
    intro i
    unfold strncpy_accesses
    rw [no_store_load8]
    cases load8 m (str + i) with
    | error x => rfl
    | ok b =>
      simp only
      split
      · rfl
      · exact ih (i + 1)

theorem is_string_printable_loop_accesses_no_store (m : Memory) (str : Nat) :
    ∀ (fuel i : Nat), no_store (is_string_printable_loop_accesses m str fuel i) = true := by
  intro fuel
  induction fuel with
  | zero => intro i; exact c_string_accesses_no_store m str WORD 0
  | succ fuel ih =>
    intro i
    unfold is_string_printable_loop_accesses
    rw [no_store_append, no_store_load8]
    have h1 : no_store (strlen_accesses m str) = true := c_string_accesses_no_store m str WORD 0
    rw [h1, Bool.true_and]
    cases load8 m (str + i) with
    | error x => rfl
    | ok c =>
      simp only
      split
      · rfl
      · exact ih (i + 1)

theorem is_string_printable_accesses_no_store (m : Memory) (str : Nat) :
    no_store (is_string_printable_accesses m str) = true := by
  unfold is_string_printable_accesses
  cases strlen m str with
  | error x => exact c_string_accesses_no_store m str WORD 0
  | ok n => exact is_string_printable_loop_accesses_no_store m str n 0

theorem build_string_accesses_no_store (m : Memory) (str : Nat) :
    no_store (build_string_accesses m str) = true := by
  unfold build_string_accesses
  rw [no_store_append, is_string_printable_accesses_no_store, Bool.true_and]
  cases is_string_printable m str with
  | error x => rfl
  | ok v =>
    cases v with
    | false => rfl
    | true =>
      simp only
      rw [no_store_append]
      have h1 : no_store (strlen_accesses m str) = true := c_string_accesses_no_store m str WORD 0
      rw [h1, Bool.true_and]
      cases strlen m str with
      | error x => rfl
      | ok n =>
        simp only
        split
        · exact c_string_accesses_no_store m str WORD 0
        · exact strncpy_accesses_no_store m str STRING_MAX_CHARACTERS 0

theorem build_string_array_loop_accesses_no_store (m : Memory) (str : Nat) :
    ∀ (fuel string_count temp_str : Nat) (b : Buf),
      no_store (build_string_array_loop_accesses m str fuel string_count temp_str b) = true := by
  intro fuel
  induction fuel with
  | zero => intro string_count temp_str b; rfl
  | succ fuel ih =>
    intro string_count temp_str b
    unfold build_string_array_loop_accesses
    simp only
    rw [no_store_load32]
    split
    · rw [no_store_load32]
      cases GET_NEXT_STRING_ADDR m str string_count with
      | error x => rfl
      | ok p =>
        simp only
        split
        · rfl
        · rw [no_store_append, build_string_accesses_no_store, Bool.true_and]
          cases build_string m p (if string_count ≠ 0 then b.add "," else b) with
          | error x => rfl
          | ok b3 => exact ih _ _ _
    · split
      · rfl
      · rw [no_store_append, build_string_accesses_no_store, Bool.true_and]
        cases build_string m temp_str
            (if string_count ≠ 0
              then (b.add (fmt_p (GET_NEXT_STRING_OFFSET str string_count))).add ","
              else b.add (fmt_p (GET_NEXT_STRING_OFFSET str string_count))) with
        | error x => rfl
        | ok b3 => exact ih _ _ _

theorem build_string_array_accesses_no_store (m : Memory) (garbage str : Nat) (b : Buf) :
    no_store (build_string_array_accesses m garbage str b) = true := by
  unfold build_string_array_accesses
  rw [no_store_append, build_string_array_loop_accesses_no_store, Bool.true_and]
  cases build_string_array_loop m str STRING_ARRAY_MAX_STRINGS 0 garbage (b.add "\x7b") with
  | error x => rfl
  | ok r =>
    obtain ⟨c, b1⟩ := r
    simp only
    rw [no_store_load32]
    split <;> rfl

theorem get_function_arguments_accesses_no_store (e : Env) (m : Memory) (i j bp : Nat)
    (b : Buf) (name : String) (off : Int) :
    no_store (get_function_arguments_accesses e m i j bp b name off) = true := by
  unfold get_function_arguments_accesses
  simp only
  rw [no_store_load32]
  cases (e.arg i j).type <;> cases GET_ARG m (GET_ARG_OFFSET bp off) <;> simp only <;>
    first
    | rfl
    | exact build_string_accesses_no_store m _
    | (rw [no_store_load32]
       split
       · exact build_string_array_accesses_no_store m _ _ _
       · rfl)

theorem args_loop_accesses_no_store (e : Env) (m : Memory) (i bp : Nat) :
    ∀ (fuel : Nat) (s : ArgState), no_store (args_loop_accesses e m i bp fuel s) = true := by
  intro fuel
  induction fuel with
  | zero => intro s; rfl
  | succ fuel ih =>
    intro s
    unfold args_loop_accesses
    simp only
    split
    · rw [no_store_load32]
      split
      · rw [no_store_append, get_function_arguments_accesses_no_store, Bool.true_and]
        cases get_function_arguments e m i s.arg_num bp
            (if s.arg_num ≥ 1 then s.b.add ", " else s.b) (e.arg i s.arg_num).name
            (e.arg i s.arg_num).offset with
        | error x => rfl
        | ok b2 => exact ih _
      · rfl
    · rfl

theorem frame_turn_accesses_cases (e : Env) (m : Memory) (s : WalkState) :
    (no_store (frame_turn_accesses e m s) = true ∧
      ∀ t, frame_turn e m s = .ok (.done t) → t.mem = m) ∨
    (∃ old_ebp pre t, s.base_pointer ≠ 0 ∧ GET_OLD_EBP m s.base_pointer = .ok old_ebp ∧
      old_ebp ≤ s.base_pointer ∧
      frame_turn_accesses e m s = pre ++ [.store32 old_ebp] ∧ no_store pre = true ∧
      frame_turn e m s = .ok (.done t) ∧ t.mem = (check_mem_addr_writtable m old_ebp).2) := by
  unfold frame_turn frame_turn_accesses
  by_cases h0 : s.base_pointer = 0
  · left
    simp only [if_pos h0]
    exact ⟨rfl, fun t ht => by cases ht; rfl⟩
  simp only [if_neg h0]
  by_cases hv : check_valid_frame m s.base_pointer = true
  swap
  · left
    simp only [Bool.not_eq_true] at hv
    simp only [hv, Bool.not_false, if_true]
    exact ⟨rfl, fun t ht => by cases ht; rfl⟩
  simp only [hv, Bool.not_true, Bool.false_eq_true, if_false]
  cases hr : get_return_addr m s.base_pointer with
  | error x =>
    left
    simp only
    exact ⟨rfl, fun t ht => Except.noConfusion ht⟩
  | ok return_addr =>
    simp only
    by_cases hra : check_valid_frame m return_addr = true
    swap
    · left
      simp only [Bool.not_eq_true] at hra
      simp only [hra, Bool.not_false, if_true]
      exact ⟨rfl, fun t ht => by cases ht; rfl⟩
    simp only [hra, Bool.not_true, Bool.false_eq_true, if_false]
    cases ho : GET_OLD_EBP m s.base_pointer with
    | error x =>
      left
      simp only
      exact ⟨rfl, fun t ht => Except.noConfusion ht⟩
    | ok old_ebp =>
      simp only
      by_cases hlt : old_ebp > s.base_pointer
      · left
        simp only [if_pos hlt]
        cases hf : get_function_index e return_addr with
        | none =>
          simp only
          refine ⟨rfl, fun t ht => ?_⟩
          split at ht
          · simp at ht
          · simp only [Except.ok.injEq, Turn.done.injEq] at ht
            subst ht
            rfl
        | some func_index =>
          simp only
          refine ⟨?_, fun t ht => ?_⟩
          · simp only [no_store_load32]
            exact args_loop_accesses_no_store e m func_index old_ebp _ _
          · split at ht
            · exact Except.noConfusion ht
            · split at ht
              · simp at ht
              · simp only [Except.ok.injEq, Turn.done.injEq] at ht
                subst ht
                rfl
      · right
        simp only [if_neg hlt]
        refine ⟨old_ebp, [.load32 s.base_pointer, .load32 (s.base_pointer + 4),
          .load32 return_addr, .load32 s.base_pointer, .load32 s.base_pointer], ?_⟩
        rcases hc : check_mem_addr_writtable m old_ebp with ⟨w, m1⟩
        cases w with
        | false =>
          exact ⟨after_loop s m1, h0, rfl, Nat.not_lt.mp hlt, rfl, rfl, rfl, rfl⟩
        | true =>
          exact ⟨after_loop { s with frame_invalid := true } m1, h0, rfl, Nat.not_lt.mp hlt,
            rfl, rfl, rfl, rfl⟩

theorem walk_accesses_cases (e : Env) (m : Memory) :
    ∀ (fuel n : Nat) (s : WalkState), state_after e m n = some s →
      (no_store (walk_accesses e m fuel s) = true ∧
        ∀ t, walk e m fuel s = .ok t → t.mem = m) ∨
      (∃ k s1 old_ebp pre t, state_after e m k = some s1 ∧ s1.base_pointer ≠ 0 ∧
        GET_OLD_EBP m s1.base_pointer = .ok old_ebp ∧ old_ebp ≤ s1.base_pointer ∧
        walk_accesses e m fuel s = pre ++ [.store32 old_ebp] ∧ no_store pre = true ∧
        walk e m fuel s = .ok t ∧ t.mem = (check_mem_addr_writtable m old_ebp).2) := by
  intro fuel
  induction fuel with
  | zero =>
    intro n s _
    exact Or.inl ⟨rfl, fun t ht => Except.noConfusion ht⟩
  | succ fuel ih =>
    intro n s hs
    unfold walk walk_accesses
    rcases frame_turn_accesses_cases e m s with ⟨hns, hmem⟩ | ⟨old_ebp, pre, t, h0, ho, hle,
      hacc, hpre, hturn, htm⟩
    · cases ht : frame_turn e m s with
      | error x =>
        left
        simp only [List.append_nil]
        exact ⟨hns, fun t h => Except.noConfusion h⟩
      | ok r =>
        cases r with
        | done t =>
          left
          simp only [List.append_nil]
          refine ⟨hns, fun t1 h => ?_⟩
          simp only [Except.ok.injEq] at h
          subst h
          exact hmem t ht
        | next s1 =>
          simp only
          have hs1 : state_after e m (n + 1) = some s1 := by
            unfold state_after
            rw [hs]
            simp only [ht]
          rcases ih (n + 1) s1 hs1 with ⟨h1, h2⟩ | ⟨k, s2, old_ebp, pre, t, hk, h0, ho, hle,
            hacc, hpre, hw, htm⟩
          · left
            rw [no_store_append, hns, h1]
            exact ⟨rfl, h2⟩
          · right
            refine ⟨k, s2, old_ebp, frame_turn_accesses e m s ++ pre, t, hk, h0, ho, hle, ?_,
              ?_, hw, htm⟩
            · rw [hacc, List.append_assoc]
            · rw [no_store_append, hns, hpre]
              rfl
    · right
      rw [hturn]
      simp only [List.append_nil]
      exact ⟨n, s, old_ebp, pre, t, hs, h0, ho, hle, hacc, hpre, rfl, htm⟩

/-! ## Properties of the specification -/

/-- C1: on a stack whose second frame is unmapped the walk ends Fatal
(`frame_invalid` is set), yet the output file holds the line of the first
frame and nothing else: the marker is formatted into `buf`, which is then
freed, and is never handed to `Write`. -/
theorem fatal_marker_not_delivered :
    fatal (traceback chain_env fatal_mem) = some true ∧
    lines (traceback chain_env fatal_mem) = some ["Function f(void), in\n"] ∧
    delivered (traceback chain_env fatal_mem) = some "Function f(void), in\n" ∧
    "FATAL: stack frame invalid/corrupt\n".data.isSuffixOf "Function f(void), in\n".data
      = false := by
  decide

/-- C2: with entry 0 starting exactly at the return address `0x8000`, the
running minimum starts at 0 and no later entry can go below it, so
`get_function_index` gives `-1` although entry 1 (`g`) lies `0x1000` bytes
before the return address, far below the size limit. -/
theorem get_function_index_misses_entry :
    get_function_index resolve_env 0x8000 = none ∧
    (resolve_env.fn 1).name = "g" ∧
    GET_ADDR_DIFF 0x8000 (resolve_env.fn 1).addr = 0x1000 ∧
    0x1000 < resolve_env.MAX_FUNCTION_SIZE_BYTES := by
  decide

/-- C3: the slot of the only argument of `f` is unreadable, which sets
`frame_invalid`; the `break` leaves the argument loop only, so the line of `f`
is completed as `Function f(void), in` and written, and the walk goes on to
write the line of the caller `main`. -/
theorem arg_fault_walk_continues :
    is_address_valid arg_fault_mem (GET_ARG_OFFSET 0x11ff8 8) = false ∧
    fatal (traceback arg_fault_env arg_fault_mem) = some true ∧
    lines (traceback arg_fault_env arg_fault_mem)
      = some ["Function f(void), in\n", "Function main(void), in\n"] := by
  decide

/-- C4: for a well-formed chain of `N` calls (every base pointer non-null and
readable, every return address readable and resolving to a function without
arguments, every saved frame pointer strictly above its frame, the root frame
with a saved frame pointer not above it that the write probe refuses) and an
output file that accepts every write, `traceback` writes exactly `N` lines,
most recent call first, the `k`-th being `Function <name_k>(void), in`. -/
theorem traceback_call_chain (e : Env) (m : Memory) (names : List String)
    (hf : e.Fileno_ok = true) (hi : e.install_ok = true) (hm : e.Malloc_ok = true)
    (hw : ∀ k, e.Write_ok k = true)
    (hc : call_chain e m e.initial_base_pointer names = true) :
    lines (traceback e m) = some (names.map fun n => "Function " ++ n ++ "(void), in\n") := by
  have hlen : names.length < WORD + 1 := by
    rcases call_chain_length e m names _ hc with h | h
    · subst h; simp
    · omega
  obtain ⟨t, ht, hsink⟩ := walk_call_chain e m hw names (WORD + 1)
    { base_pointer := e.initial_base_pointer, b := ⟨"", 0⟩, frame_invalid := false, sink := [] }
    hlen hc
  unfold traceback
  simp only [hf, hi, hm, Bool.not_true, Bool.false_eq_true, if_false]
  rw [ht]
  simp [lines, hsink]

theorem traceback_call_chain_witness :
    call_chain chain_env chain_mem 0x11000 ["f", "main"] = true ∧
    lines (traceback chain_env chain_mem)
      = some ["Function f(void), in\n", "Function main(void), in\n"] :=
  ⟨by decide,
    traceback_call_chain chain_env chain_mem ["f", "main"] rfl rfl rfl (fun _ => rfl)
      (by decide)⟩

/-- C5: a readable, NUL-terminated, fully printable string of more than 25
bytes is rendered by `build_string` as an opening quote, exactly its first 25
characters, the ellipsis `...` and the closing quote, so nothing behind the
25th character reaches the buffer; a string of exactly 25 bytes is rendered
whole between quotes, without ellipsis. -/
theorem build_string_truncation (m : Memory) (str : Nat) (s : List Nat) (b : Buf)
    (h : string_at m str s = true) (hp : s.all isprint = true) :
    (25 < s.length →
      build_string m str b = .ok (b.add ("\"" ++ fmt_s (s.take 25) ++ "...\""))) ∧
    (s.length = 25 → build_string m str b = .ok (b.add ("\"" ++ fmt_s s ++ "\""))) := by
  have hb := build_string_of_string_at m str s b h hp
  unfold STRING_MAX_CHARACTERS at hb
  constructor
  · intro hl
    rw [hb, if_neg (by omega)]
  · intro hl
    rw [hb, if_pos (by omega)]

theorem build_string_truncation_witness :
    build_string arg_mem 0x2000 ⟨"", 0⟩ = .ok ⟨"\"abcdefghijklmnopqrstuvwxy...\"", 30⟩ ∧
    build_string arg_mem 0x2100 ⟨"", 0⟩ = .ok ⟨"\"abcdefghijklmnopqrstuvwxy\"", 27⟩ :=
  ⟨(build_string_truncation arg_mem 0x2000 letters ⟨"", 0⟩ (by decide) (by decide)).1
      (by decide),
    (build_string_truncation arg_mem 0x2100 (letters.take 25) ⟨"", 0⟩ (by decide)
      (by decide)).2 (by decide)⟩

/-- C6: a String argument named `n` whose slot holds a pointer to a readable,
NUL-terminated, fully printable string `s` of at most 25 bytes (the empty
string included) is rendered as `char *n="s"`, the whole string between double
quotes and no ellipsis; decoding the same frame once more, behind the first
token, adds the very same token again. -/
theorem get_string_argument_verbatim (m : Memory) (base_pointer : Nat) (arg_offset : Int)
    (b : Buf) (n : String) (p : Nat) (s : List Nat)
    (hb : b.read_cnt ≤ b.buf.length)
    (hslot : GET_ARG m (GET_ARG_OFFSET base_pointer arg_offset) = .ok p)
    (h : string_at m p s = true) (hp : s.all isprint = true) (hl : s.length ≤ 25) :
    get_string_argument m base_pointer arg_offset b n
      = .ok (b.add ("char *" ++ n ++ "=" ++ ("\"" ++ fmt_s s ++ "\""))) ∧
    get_string_argument m base_pointer arg_offset
        (b.add ("char *" ++ n ++ "=" ++ ("\"" ++ fmt_s s ++ "\""))) n
      = .ok ((b.add ("char *" ++ n ++ "=" ++ ("\"" ++ fmt_s s ++ "\""))).add
          ("char *" ++ n ++ "=" ++ ("\"" ++ fmt_s s ++ "\""))) := by
  have key : ∀ c : Buf, c.read_cnt ≤ c.buf.length →
      get_string_argument m base_pointer arg_offset c n
        = .ok (c.add ("char *" ++ n ++ "=" ++ ("\"" ++ fmt_s s ++ "\""))) := by
    intro c hc
    unfold get_string_argument
    rw [hslot]
    simp only
    rw [build_string_of_string_at m p s _ h hp,
      if_pos (by unfold STRING_MAX_CHARACTERS; omega), add_add c _ _ hc]
  exact ⟨key b hb, key _ (le_of_eq (add_wf b _ hb))⟩

theorem get_string_argument_verbatim_witness :
    get_string_argument arg_mem 0x11000 16 ⟨"", 0⟩ "s" = .ok ⟨"char *s=\"hi\"", 12⟩ ∧
    get_string_argument arg_mem 0x11000 16 ⟨"char *s=\"hi\"", 12⟩ "s"
      = .ok ⟨"char *s=\"hi\"char *s=\"hi\"", 24⟩ :=
  get_string_argument_verbatim arg_mem 0x11000 16 ⟨"", 0⟩ "s" 0x2200 [104, 105]
    (by decide) rfl (by decide) (by decide) (by decide)

/-- C7: a String argument whose pointer `p` leads to an unreadable byte before
any NUL (at `p + k`, with `k = 0` when `p` itself is unmapped) is rendered as
`char *name=` followed by the raw pointer value, with no string content, and
the decoder returns normally. -/
theorem get_string_argument_unreadable (m : Memory) (base_pointer : Nat) (arg_offset : Int)
    (b : Buf) (n : String) (p k : Nat)
    (hb : b.read_cnt ≤ b.buf.length)
    (hslot : GET_ARG m (GET_ARG_OFFSET base_pointer arg_offset) = .ok p)
    (hk : m.readable ((p + k) % WORD) = false)
    (hpre : ∀ i, i < k → m.readable ((p + i) % WORD) = true ∧ m.byte ((p + i) % WORD) % 256 ≠ 0) :
    get_string_argument m base_pointer arg_offset b n
      = .ok (b.add ("char *" ++ n ++ "=" ++ fmt_p p)) := by
  unfold get_string_argument
  rw [hslot]
  simp only
  rw [build_string_faults m p k _ hk hpre, add_add b _ _ hb]

theorem get_string_argument_unreadable_witness :
    get_string_argument arg_mem 0x11000 20 ⟨"", 0⟩ "s" = .ok ⟨"char *s=0x22fe", 14⟩ :=
  get_string_argument_unreadable arg_mem 0x11000 20 ⟨"", 0⟩ "s" 0x22fe 2
    (by decide) rfl (by decide) (by decide)

/-- C8: for a string array whose first `k` slots hold non-null pointers that
`build_string` renders as `s1..sk`: with `k <= 3` and a readable null slot
behind them the array is rendered as `{s1,...,sk}` (`{}` for `k = 0`) without
the truncation marker; with `k >= 4` it is rendered as `{s1,s2,s3, ...}`; with
`k = 3` and an unreadable fourth slot no marker is added. -/
theorem build_string_array_law (m : Memory) (garbage a : Nat) (ps : List (Nat × String))
    (b : Buf) (hb : b.read_cnt ≤ b.buf.length) (h : string_array_at m a 0 ps = true) :
    (ps.length ≤ 3 → GET_NEXT_STRING_ADDR m a ps.length = .ok 0 →
      build_string_array m garbage a b
        = .ok (b.add ("\x7b" ++ ",".intercalate (ps.map Prod.snd) ++ "\x7d"))) ∧
    (4 ≤ ps.length →
      build_string_array m garbage a b
        = .ok (b.add ("\x7b" ++ ",".intercalate ((ps.take 3).map Prod.snd) ++ ", ...\x7d"))) ∧
    (ps.length = 3 → is_address_valid m (GET_NEXT_STRING_OFFSET a 3) = false →
      build_string_array m garbage a b
        = .ok (b.add ("\x7b" ++ ",".intercalate (ps.map Prod.snd) ++ "\x7d"))) := by
  match ps, h with
  | [], _ =>
    refine ⟨?_, ?_, ?_⟩
    · intro _ h0
      have hv := valid_of_load m _ 0 h0
      simp only [List.length_nil] at h0 hv
      simp [build_string_array, build_string_array_loop, STRING_ARRAY_MAX_STRINGS, hv, h0,
        add_add b _ _ hb, String.intercalate]
    · intro h4; simp at h4
    · intro h3; simp at h3
  | [p1], h =>
    obtain ⟨a1, n1, u1, _⟩ := string_array_at_cons m a _ _ _ h
    have v1 := valid_of_load m _ _ a1
    refine ⟨?_, ?_, ?_⟩
    · intro _ h0
      have hv := valid_of_load m _ 0 h0
      simp only [List.length_singleton] at h0 hv
      simp [build_string_array, build_string_array_loop, STRING_ARRAY_MAX_STRINGS, hv, h0,
        a1, v1, n1, u1, add_add b _ _ hb, String.intercalate, String.intercalate.go]
    · intro h4; simp at h4
    · intro h3; simp at h3
  | [p1, p2], h =>
    obtain ⟨a1, n1, u1, h⟩ := string_array_at_cons m a _ _ _ h
    obtain ⟨a2, n2, u2, _⟩ := string_array_at_cons m a _ _ _ h
    have v1 := valid_of_load m _ _ a1
    have v2 := valid_of_load m _ _ a2
    refine ⟨?_, ?_, ?_⟩
    · intro _ h0
      have hv := valid_of_load m _ 0 h0
      simp only [List.length_cons, List.length_nil] at h0 hv
      simp [build_string_array, build_string_array_loop, STRING_ARRAY_MAX_STRINGS, hv, h0,
        a1, v1, n1, u1, a2, v2, n2, u2, add_add b _ _ hb, String.intercalate,
        String.intercalate.go, String.append_assoc]
    · intro h4; simp at h4
    · intro h3; simp at h3
  | [p1, p2, p3], h =>
    obtain ⟨a1, n1, u1, h⟩ := string_array_at_cons m a _ _ _ h
    obtain ⟨a2, n2, u2, h⟩ := string_array_at_cons m a _ _ _ h
    obtain ⟨a3, n3, u3, _⟩ := string_array_at_cons m a _ _ _ h
    have v1 := valid_of_load m _ _ a1
    have v2 := valid_of_load m _ _ a2
    have v3 := valid_of_load m _ _ a3
    refine ⟨?_, ?_, ?_⟩
    · intro _ h0
      have hv := valid_of_load m _ 0 h0
      simp only [List.length_cons, List.length_nil] at h0 hv
      simp [build_string_array, build_string_array_loop, STRING_ARRAY_MAX_STRINGS, hv, h0,
        a1, v1, n1, u1, a2, v2, n2, u2, a3, v3, n3, u3, add_add b _ _ hb, String.intercalate,
        String.intercalate.go, String.append_assoc]
    · intro h4; simp at h4
    · intro _ hv
      simp [build_string_array, build_string_array_loop, STRING_ARRAY_MAX_STRINGS, hv,
        a1, v1, n1, u1, a2, v2, n2, u2, a3, v3, n3, u3, add_add b _ _ hb, String.intercalate,
        String.intercalate.go, String.append_assoc]
  | p1 :: p2 :: p3 :: p4 :: rest, h =>
    obtain ⟨a1, n1, u1, h⟩ := string_array_at_cons m a _ _ _ h
    obtain ⟨a2, n2, u2, h⟩ := string_array_at_cons m a _ _ _ h
    obtain ⟨a3, n3, u3, h⟩ := string_array_at_cons m a _ _ _ h
    obtain ⟨a4, n4, _, _⟩ := string_array_at_cons m a _ _ _ h
    have v1 := valid_of_load m _ _ a1
    have v2 := valid_of_load m _ _ a2
    have v3 := valid_of_load m _ _ a3
    have v4 := valid_of_load m _ _ a4
    refine ⟨?_, ?_, ?_⟩
    · intro h3; simp at h3
    · intro _
      simp [build_string_array, build_string_array_loop, STRING_ARRAY_MAX_STRINGS,
        a1, v1, n1, u1, a2, v2, n2, u2, a3, v3, n3, u3, a4, v4, n4, add_add b _ _ hb,
        String.intercalate, String.intercalate.go, String.append_assoc]
    · intro h3; simp at h3

theorem build_string_array_law_witness :
    build_string_array arg_mem 0 0x3000 ⟨"", 0⟩
      = .ok ⟨"\x7b\"hi\",\"abcdefghijklmnopqrstuvwxy\"\x7d", 34⟩ ∧
    build_string_array arg_mem 0 0x3100 ⟨"", 0⟩
      = .ok ⟨"\x7b\"hi\",\"abcdefghijklmnopqrstuvwxy\",\"abcdefghijklmnopqrstuvwxy...\", ...\x7d", 70⟩ :=
  ⟨(build_string_array_law arg_mem 0 0x3000
      [(0x2200, "\"hi\""), (0x2100, "\"abcdefghijklmnopqrstuvwxy\"")] ⟨"", 0⟩ (by decide)
      (by decide)).1 (by decide) rfl,
    (build_string_array_law arg_mem 0 0x3100
      [(0x2200, "\"hi\""), (0x2100, "\"abcdefghijklmnopqrstuvwxy\""),
        (0x2000, "\"abcdefghijklmnopqrstuvwxy...\""), (0x2200, "\"hi\"")] ⟨"", 0⟩ (by decide)
      (by decide)).2.1 (by decide)⟩

/-- C9: slot 1 of the array lies at the unmapped address `0x3000`. Its raw
address is put into the buffer, but `temp_str` still holds the pointer of
entry 0, so a comma and the string of entry 0 follow; the same happens for
slot 2, and no comma separates an entry from the raw address behind it. -/
theorem unreadable_slot_repeats_previous :
    is_address_valid array_fault_mem (GET_NEXT_STRING_OFFSET 0x2ffc 1) = false ∧
    rendered (build_string_array array_fault_mem 0 0x2ffc ⟨"", 0⟩)
      = some "\x7b\"ab\"0x3000,\"ab\"0x3004,\"ab\"\x7d" := by
  decide

/-- C10: a Char argument named `n` whose slot holds a value `v` in `0..127` is
rendered as `char n='c'`, `c` the character itself, when `v` is printable
(`0x20..0x7E`), and otherwise as `char n='\ooo'` with the octal digits of `v`
and no zero padding. -/
theorem get_char_argument_token (libc : Nat → Bool) (m : Memory) (base_pointer : Nat)
    (arg_offset : Int) (b : Buf) (n : String) (v : Nat)
    (hslot : GET_ARG m (GET_ARG_OFFSET base_pointer arg_offset) = .ok v) (hv : v ≤ 127) :
    (32 ≤ v ∧ v ≤ 126 → get_char_argument libc m base_pointer arg_offset b n
      = .ok (b.add ("char " ++ n ++ "='" ++ String.mk [Char.ofNat v] ++ "'"))) ∧
    (¬ (32 ≤ v ∧ v ≤ 126) → get_char_argument libc m base_pointer arg_offset b n
      = .ok (b.add ("char " ++ n ++ "='\\" ++ String.mk (Nat.toDigits 8 v) ++ "'"))) := by
  unfold get_char_argument
  rw [hslot]
  constructor
  · intro hr
    have : isprint_int libc v = true := by
      unfold isprint_int
      rw [if_pos (by omega)]
      simp [isprint, hr]
    simp only [this, if_true, fmt_c]
    rw [Nat.mod_eq_of_lt (by omega)]
  · intro hr
    have : isprint_int libc v = false := by
      unfold isprint_int
      rw [if_pos (by omega)]
      simp [isprint]
      omega
    simp [this, fmt_o]

theorem get_char_argument_token_witness :
    get_char_argument (fun _ => true) arg_mem 0x11000 24 ⟨"", 0⟩ "c"
      = .ok ⟨"char c='\\7'", 11⟩ ∧
    get_char_argument (fun _ => true) arg_mem 0x11000 28 ⟨"", 0⟩ "c"
      = .ok ⟨"char c='A'", 10⟩ :=
  ⟨(get_char_argument_token (fun _ => true) arg_mem 0x11000 24 ⟨"", 0⟩ "c" 7 rfl
      (by decide)).2 (by decide),
    (get_char_argument_token (fun _ => true) arg_mem 0x11000 28 ⟨"", 0⟩ "c" 65 rfl
      (by decide)).1 (by decide)⟩

/-- C11: when the walker, after `n` turns that led on, stands at a frame
(non-null base pointer, readable frame words) whose saved frame pointer is not
above the base pointer and is found writable by the write probe, `traceback`
returns with `frame_invalid` set through the end of the function, and the
output file holds exactly the lines written in those `n` turns: no further
frame line is written (and no marker line either, see C1). -/
theorem corrupt_frame_ends_walk (e : Env) (m : Memory) (n : Nat) (s : WalkState)
    (return_addr old_ebp : Nat)
    (hf : e.Fileno_ok = true) (hi : e.install_ok = true) (hm : e.Malloc_ok = true)
    (hs : state_after e m n = some s)
    (h0 : s.base_pointer ≠ 0)
    (hr : get_return_addr m s.base_pointer = .ok return_addr)
    (ho : GET_OLD_EBP m s.base_pointer = .ok old_ebp)
    (hle : old_ebp ≤ s.base_pointer)
    (hw : (check_mem_addr_writtable m old_ebp).1 = true) :
    ∃ t, traceback e m = .ok t ∧ t.sink = s.sink ∧ t.frame_invalid = true ∧
      t.exit = .completed := by
  obtain ⟨fuel, hfuel⟩ := traceback_from_state e m n s hf hi hm hs
  rw [hfuel]
  exact walk_corrupt_frame e m s fuel return_addr old_ebp h0 hr ho hle hw

theorem corrupt_frame_ends_walk_witness :
    state_after chain_env corrupt_mem 1 = some
        { base_pointer := 0x11020, b := ⟨"", 21⟩, frame_invalid := false,
          sink := ["Function f(void), in\n"] } ∧
    ∃ t, traceback chain_env corrupt_mem = .ok t ∧
      t.sink = ["Function f(void), in\n"] ∧ t.frame_invalid = true ∧ t.exit = .completed :=
  ⟨rfl, corrupt_frame_ends_walk chain_env corrupt_mem 1
      { base_pointer := 0x11020, b := ⟨"", 21⟩, frame_invalid := false,
        sink := ["Function f(void), in\n"] }
      0x8110 0x10000 rfl rfl rfl rfl (by decide) rfl rfl (by decide) (by decide)⟩

/-- C12: when the walker, after `n` turns that led on, stands at a frame
(non-null base pointer, readable frame words, readable return address) whose
saved frame pointer is not above the base pointer and is refused by the write
probe, `traceback` returns through the end of the function with
`frame_invalid` as it was, and the output file holds exactly the lines written
in those `n` turns: no line is written for the return address of this frame. -/
theorem clean_root_ends_walk (e : Env) (m : Memory) (n : Nat) (s : WalkState)
    (return_addr old_ebp : Nat)
    (hf : e.Fileno_ok = true) (hi : e.install_ok = true) (hm : e.Malloc_ok = true)
    (hs : state_after e m n = some s)
    (h0 : s.base_pointer ≠ 0)
    (hr : get_return_addr m s.base_pointer = .ok return_addr)
    (hra : check_valid_frame m return_addr = true)
    (ho : GET_OLD_EBP m s.base_pointer = .ok old_ebp)
    (hle : old_ebp ≤ s.base_pointer)
    (hw : (check_mem_addr_writtable m old_ebp).1 = false) :
    ∃ t, traceback e m = .ok t ∧ t.sink = s.sink ∧
      t.frame_invalid = s.frame_invalid ∧ t.exit = .completed := by
  obtain ⟨fuel, hfuel⟩ := traceback_from_state e m n s hf hi hm hs
  rw [hfuel]
  exact walk_clean_root e m s fuel return_addr old_ebp h0 hr hra ho hle hw

theorem clean_root_ends_walk_witness :
    state_after chain_env chain_mem 2 = some
        { base_pointer := 0x11040, b := ⟨"", 24⟩, frame_invalid := false,
          sink := ["Function f(void), in\n", "Function main(void), in\n"] } ∧
    ∃ t, traceback chain_env chain_mem = .ok t ∧
      t.sink = ["Function f(void), in\n", "Function main(void), in\n"] ∧
      t.frame_invalid = false ∧ t.exit = .completed :=
  ⟨rfl, clean_root_ends_walk chain_env chain_mem 2
    { base_pointer := 0x11040, b := ⟨"", 24⟩, frame_invalid := false,
      sink := ["Function f(void), in\n", "Function main(void), in\n"] }
    0x8300 0x8200 rfl rfl rfl rfl (by decide) rfl (by decide) rfl (by decide) (by decide)⟩

/-- C13: for a frame whose return address `r` is readable but resolves to no
function, and whose saved frame pointer lies above it, the turn writes exactly
the line `Function <r as %p>(...), in` and the walk goes on at the saved frame
pointer. Nothing but the two words of the frame and the probe of `r` enters
the hypotheses, so no argument slot is read. -/
theorem unresolved_frame_placeholder (e : Env) (m : Memory) (s : WalkState) (fuel : Nat)
    (return_addr old_ebp : Nat)
    (h0 : s.base_pointer ≠ 0)
    (hr : get_return_addr m s.base_pointer = .ok return_addr)
    (hra : check_valid_frame m return_addr = true)
    (ho : GET_OLD_EBP m s.base_pointer = .ok old_ebp)
    (hlt : s.base_pointer < old_ebp)
    (hn : get_function_index e return_addr = none)
    (hw : e.Write_ok s.sink.length = true) :
    frame_turn e m s = .ok (.next
      { base_pointer := old_ebp
        b := { buf := "", read_cnt := s.b.read_cnt }
        frame_invalid := s.frame_invalid
        sink := s.sink ++ ["Function " ++ fmt_p return_addr ++ "(...), in\n"] }) ∧
    walk e m (fuel + 1) s = walk e m fuel
      { base_pointer := old_ebp
        b := { buf := "", read_cnt := s.b.read_cnt }
        frame_invalid := s.frame_invalid
        sink := s.sink ++ ["Function " ++ fmt_p return_addr ++ "(...), in\n"] } := by
  have hv := valid_of_old_ebp m _ _ ho
  have key : frame_turn e m s = .ok (.next
      { base_pointer := old_ebp
        b := { buf := "", read_cnt := s.b.read_cnt }
        frame_invalid := s.frame_invalid
        sink := s.sink ++ ["Function " ++ fmt_p return_addr ++ "(...), in\n"] }) := by
    unfold frame_turn
    simp only [if_neg h0, hv, hr, hra, ho, Bool.not_true, Bool.false_eq_true, if_false,
      if_pos hlt, hn, hw, if_true, snprintf_zero]
  exact ⟨key, walk_next e m fuel s _ key⟩

theorem unresolved_frame_placeholder_witness :
    frame_turn chain_env unresolved_mem
        { base_pointer := 0x11000, b := ⟨"", 0⟩, frame_invalid := false, sink := [] }
      = .ok (.next
          { base_pointer := 0x11020
            b := { buf := "", read_cnt := 0 }
            frame_invalid := false
            sink := ["Function 0x500000(...), in\n"] }) ∧
    walk chain_env unresolved_mem (WORD + 1)
        { base_pointer := 0x11000, b := ⟨"", 0⟩, frame_invalid := false, sink := [] }
      = walk chain_env unresolved_mem WORD
          { base_pointer := 0x11020
            b := { buf := "", read_cnt := 0 }
            frame_invalid := false
            sink := ["Function 0x500000(...), in\n"] } :=
  unresolved_frame_placeholder chain_env unresolved_mem
    { base_pointer := 0x11000, b := ⟨"", 0⟩, frame_invalid := false, sink := [] }
    WORD 0x500000 0x11020 (by decide) rfl (by decide) rfl (by decide) (by decide) rfl

/-- C15: when the output file accepts the writes `0 .. k-1` and rejects write
`k`, `traceback` returns with exactly the first `k` lines of the trace it
produces for a file that accepts everything (all of them when that trace has
at most `k` lines), and it leaves through the `return` behind the failed
`Write`, so no further write is attempted. -/
theorem write_failure_keeps_accepted_lines (e : Env) (m : Memory) (k : Nat)
    (full : TraceResult)
    (hacc : ∀ j, j < k → e.Write_ok j = true) (hrej : e.Write_ok k = false)
    (hfull : traceback (e.with_sink fun _ => true) m = .ok full) :
    ∃ t, traceback e m = .ok t ∧ t.sink = full.sink.take k ∧
      (k < full.sink.length → t.exit = .write_error) := by
  have he : e = e.with_sink e.Write_ok := rfl
  unfold traceback at hfull ⊢
  by_cases hf : (!e.Fileno_ok) = true
  · rw [if_pos hf]
    rw [show (e.with_sink fun _ => true).Fileno_ok = e.Fileno_ok from rfl, if_pos hf] at hfull
    simp only [Except.ok.injEq] at hfull
    subst hfull
    exact ⟨_, rfl, by simp, by simp⟩
  by_cases hi : (!e.install_ok) = true
  · rw [if_neg hf, if_pos hi]
    rw [show (e.with_sink fun _ => true).Fileno_ok = e.Fileno_ok from rfl, if_neg hf,
      show (e.with_sink fun _ => true).install_ok = e.install_ok from rfl, if_pos hi] at hfull
    simp only [Except.ok.injEq] at hfull
    subst hfull
    exact ⟨_, rfl, by simp, by simp⟩
  by_cases hm : (!e.Malloc_ok) = true
  · rw [if_neg hf, if_neg hi, if_pos hm]
    rw [show (e.with_sink fun _ => true).Fileno_ok = e.Fileno_ok from rfl, if_neg hf,
      show (e.with_sink fun _ => true).install_ok = e.install_ok from rfl, if_neg hi,
      show (e.with_sink fun _ => true).Malloc_ok = e.Malloc_ok from rfl, if_pos hm] at hfull
    simp only [Except.ok.injEq] at hfull
    subst hfull
    exact ⟨_, rfl, by simp, by simp⟩
  rw [if_neg hf, if_neg hi, if_neg hm]
  rw [show (e.with_sink fun _ => true).Fileno_ok = e.Fileno_ok from rfl, if_neg hf,
    show (e.with_sink fun _ => true).install_ok = e.install_ok from rfl, if_neg hi,
    show (e.with_sink fun _ => true).Malloc_ok = e.Malloc_ok from rfl, if_neg hm] at hfull
  exact walk_write_failure e e.Write_ok m k hacc hrej _ _ full hfull (Nat.zero_le k)

theorem write_failure_keeps_accepted_lines_witness :
    ∃ t, traceback second_write_fails_env chain_mem = .ok t ∧
      t.sink = ["Function f(void), in\n"] ∧ t.exit = .write_error := by
  have hl : lines (traceback (second_write_fails_env.with_sink fun _ => true) chain_mem)
      = some ["Function f(void), in\n", "Function main(void), in\n"] := by decide
  cases hfull : traceback (second_write_fails_env.with_sink fun _ => true) chain_mem with
  | error x => rw [hfull] at hl; exact Option.noConfusion hl
  | ok full =>
    rw [hfull] at hl
    have hs : full.sink = ["Function f(void), in\n", "Function main(void), in\n"] :=
      Option.some.inj hl
    obtain ⟨t, ht, hsink, hexit⟩ :=
      write_failure_keeps_accepted_lines second_write_fails_env chain_mem 1 full
        (by decide) (by decide) hfull
    exact ⟨t, ht, by rw [hsink, hs]; rfl, hexit (by rw [hs]; decide)⟩

/-- C16: entered with the default action for `SIGSEGV` and `SIGSEGV` blocked,
`traceback` leaves the process with its own handler installed and `SIGSEGV`
unblocked when a `Write` fails and when `Malloc` fails: both paths `return`
without calling `restore_SIGSEGV_handler`. The path through the end of the
function restores the state it was entered in. -/
theorem handler_left_installed_on_early_return :
    exit_of (traceback reject_env chain_mem) = some .write_error ∧
    signals_of (traceback reject_env chain_mem) ⟨.SIG_DFL, true⟩ = some ⟨.sighandler, false⟩ ∧
    exit_of (traceback no_buffer_env chain_mem) = some .malloc_error ∧
    signals_of (traceback no_buffer_env chain_mem) ⟨.SIG_DFL, true⟩
      = some ⟨.sighandler, false⟩ ∧
    signals_of (traceback chain_env chain_mem) ⟨.SIG_DFL, true⟩ = some ⟨.SIG_DFL, true⟩ := by
  decide

/-- C17: the saved frame pointer `0x11ffc` of the first frame passes the read
probe, which covers the bytes `0x11ffc .. 0x11fff`; `get_return_addr` then
loads the word at `0x12000`, which is unmapped, outside any guard: the trace
faults after the line of the first frame. -/
theorem return_address_read_faults :
    check_valid_frame page_end_mem 0x11ffc = true ∧
    is_address_valid page_end_mem (0x11ffc + 4) = false ∧
    stopped (traceback chain_env page_end_mem) = some .segv := by
  decide

/-- C18 as stated fails: with a function starting 16 bytes below the top of
the address space and the return address `0x10`, the 32-bit difference wraps
to `0x20`, and the entry, which starts after the return address, is returned. -/
theorem resolved_entry_after_return_address :
    get_function_index wrap_env 0x10 = some 0 ∧ ¬ ((wrap_env.fn 0).addr ≤ 0x10) := by
  decide

/-- C18, amended: when the return address is at least
`MAX_FUNCTION_SIZE_BYTES`, or the entry `get_function_index` resolves to
starts at least `MAX_FUNCTION_SIZE_BYTES` below the top of the 32-bit address
space, that entry starts at or before the return address, both read as
unsigned 32-bit values. -/
theorem resolved_entry_not_after (e : Env) (return_addr k : Nat)
    (hra : e.MAX_FUNCTION_SIZE_BYTES ≤ return_addr % WORD ∨
      (e.fn k).addr % WORD + e.MAX_FUNCTION_SIZE_BYTES ≤ WORD)
    (h : get_function_index e return_addr = some k) :
    (e.fn k).addr % WORD ≤ return_addr % WORD := by
  obtain ⟨_, h2⟩ := get_function_index_diff e return_addr k h
  unfold GET_ADDR_DIFF at h2
  have ha := Nat.mod_lt (e.fn k).addr (show 0 < WORD by decide)
  have hr := Nat.mod_lt return_addr (show 0 < WORD by decide)
  unfold WORD at *
  omega

theorem resolved_entry_not_after_witness :
    get_function_index high_env 0x8048010 = some 0 ∧
      (high_env.fn 0).addr % WORD ≤ 0x8048010 % WORD :=
  ⟨by decide, resolved_entry_not_after high_env 0x8048010 0 (by decide) (by decide)⟩

/-- C19: `get_float_argument` and `get_double_argument` load the same word at
`base_pointer + arg_offset` and print it with the same conversion: for every
memory, name and offset both fail alike, or both succeed with tokens that
carry the same value text and differ in the type word `float` / `double` only. -/
theorem double_read_as_float (m : Memory) (base_pointer : Nat) (arg_offset : Int) (b : Buf)
    (n : String) :
    match load32 m (GET_ARG_OFFSET base_pointer arg_offset) with
    | .ok w =>
      get_float_argument m base_pointer arg_offset b n
        = .ok (b.add ("float " ++ n ++ "=" ++ fmt_f w)) ∧
      get_double_argument m base_pointer arg_offset b n
        = .ok (b.add ("double " ++ n ++ "=" ++ fmt_f w))
    | .error x =>
      get_float_argument m base_pointer arg_offset b n = .error x ∧
      get_double_argument m base_pointer arg_offset b n = .error x := by
  unfold get_float_argument get_double_argument GET_ARG_FLOAT
  cases load32 m (GET_ARG_OFFSET base_pointer arg_offset) <;> exact ⟨rfl, rfl⟩

/-- C20: the accesses of a trace to the memory it inspects hold no store at
all, and then a trace that returns leaves the memory as it was; or they end
with the one store of the trace, the write probe, all accesses before it being
loads. The probe goes to the address `old_ebp` loaded from the saved frame
pointer slot of the base pointer the walker stands at in its last turn, an
address not above that base pointer. When the probe goes through, the memory
afterwards is the memory before with `DUMMY_VALUE` (10) stored in the word at
`old_ebp`, every byte outside that word unchanged; when it is refused, the
memory is unchanged. The permissions never change. -/
theorem trace_memory_effect (e : Env) (m : Memory) :
    (no_store (traceback_accesses e m) = true ∧ ∀ t, traceback e m = .ok t → t.mem = m) ∨
    (∃ n s old_ebp pre t, state_after e m n = some s ∧ s.base_pointer ≠ 0 ∧
      GET_OLD_EBP m s.base_pointer = .ok old_ebp ∧ old_ebp ≤ s.base_pointer ∧
      traceback_accesses e m = pre ++ [.store32 old_ebp] ∧ no_store pre = true ∧
      traceback e m = .ok t ∧
      t.mem.readable = m.readable ∧ t.mem.writable = m.writable ∧
      ((check_mem_addr_writtable m old_ebp).1 = true →
        t.mem = store32 m old_ebp DUMMY_VALUE ∧ word_at t.mem old_ebp = DUMMY_VALUE ∧
        ∀ a, a ≠ old_ebp % WORD → a ≠ (old_ebp + 1) % WORD → a ≠ (old_ebp + 2) % WORD →
          a ≠ (old_ebp + 3) % WORD → t.mem.byte a = m.byte a) ∧
      ((check_mem_addr_writtable m old_ebp).1 = false → t.mem = m)) := by
  unfold traceback traceback_accesses
  by_cases hf : (!e.Fileno_ok) = true
  · left
    simp only [if_pos hf]
    exact ⟨rfl, fun t ht => by cases ht; rfl⟩
  by_cases hi : (!e.install_ok) = true
  · left
    simp only [if_neg hf, if_pos hi]
    exact ⟨rfl, fun t ht => by cases ht; rfl⟩
  by_cases hm : (!e.Malloc_ok) = true
  · left
    simp only [if_neg hf, if_neg hi, if_pos hm]
    exact ⟨rfl, fun t ht => by cases ht; rfl⟩
  simp only [if_neg hf, if_neg hi, if_neg hm]
  rcases walk_accesses_cases e m (WORD + 1) 0 (initial_state e) rfl with h | ⟨k, s1, old_ebp,
    pre, t, hk, h0, ho, hle, hacc, hpre, hw, htm⟩
  · exact Or.inl h
  · right
    have hcm := check_mem_addr_writtable_mem m old_ebp
    refine ⟨k, s1, old_ebp, pre, t, hk, h0, ho, hle, hacc, hpre, hw, ?_, ?_, ?_, ?_⟩
    · rw [htm, hcm]
      split <;> rfl
    · rw [htm, hcm]
      split <;> rfl
    · intro hwr
      rw [hwr] at hcm
      simp only [if_true] at hcm
      rw [htm, hcm]
      refine ⟨rfl, store32_word m old_ebp DUMMY_VALUE (by decide), ?_⟩
      intro a h1 h2 h3 h4
      show (if a = old_ebp % WORD then _ else _) = _
      rw [if_neg h1, if_neg h2, if_neg h3, if_neg h4]
    · intro hwr
      rw [hwr] at hcm
      simp only [Bool.false_eq_true, if_false] at hcm
      rw [htm, hcm]

theorem trace_memory_effect_witness :
    traceback_accesses chain_env corrupt_mem =
      [.load32 0x11000, .load32 0x11004, .load32 0x8010, .load32 0x11000, .load32 0x11000,
        .load32 0x11020, .load32 0x11024, .load32 0x8110, .load32 0x11020, .load32 0x11020,
        .store32 0x10000] ∧
    word_at corrupt_mem 0x10000 = 0 ∧
    word_after (traceback chain_env corrupt_mem) 0x10000 = some 10 ∧
    ((no_store (traceback_accesses chain_env corrupt_mem) = true ∧
        ∀ t, traceback chain_env corrupt_mem = .ok t → t.mem = corrupt_mem) ∨
      (∃ n s old_ebp pre t, state_after chain_env corrupt_mem n = some s ∧
        s.base_pointer ≠ 0 ∧
        GET_OLD_EBP corrupt_mem s.base_pointer = .ok old_ebp ∧ old_ebp ≤ s.base_pointer ∧
        traceback_accesses chain_env corrupt_mem = pre ++ [.store32 old_ebp] ∧
        no_store pre = true ∧
        traceback chain_env corrupt_mem = .ok t ∧
        t.mem.readable = corrupt_mem.readable ∧ t.mem.writable = corrupt_mem.writable ∧
        ((check_mem_addr_writtable corrupt_mem old_ebp).1 = true →
          t.mem = store32 corrupt_mem old_ebp DUMMY_VALUE ∧
          word_at t.mem old_ebp = DUMMY_VALUE ∧
          ∀ a, a ≠ old_ebp % WORD → a ≠ (old_ebp + 1) % WORD → a ≠ (old_ebp + 2) % WORD →
            a ≠ (old_ebp + 3) % WORD → t.mem.byte a = corrupt_mem.byte a) ∧
        ((check_mem_addr_writtable corrupt_mem old_ebp).1 = false → t.mem = corrupt_mem))) :=
  ⟨by decide, by decide, by decide, trace_memory_effect chain_env corrupt_mem⟩

/-- C21: for every readable, NUL-terminated string `s` at `str` that holds at
least one byte that is not printable, of whatever length, `build_string` adds
the pointer `str` printed with `%p` to the buffer, without quotes, and nothing
of the string's content. -/
theorem build_string_nonprintable (m : Memory) (str : Nat) (s : List Nat) (b : Buf)
    (h : string_at m str s = true) (hn : ∃ c, c ∈ s ∧ isprint c = false) :
    build_string m str b = .ok (b.add (fmt_p str)) := by
  have hall : s.all isprint = false := by
    obtain ⟨c, hc, hp⟩ := hn
    rw [List.all_eq_false]
    exact ⟨c, hc, by rw [hp]; exact Bool.false_ne_true⟩
  unfold build_string build_string_guarded
  rw [is_string_printable_of_string_at m str s h, hall]

theorem build_string_nonprintable_witness :
    string_at nonprint_mem 0x2000 [104, 7, 105] = true ∧
    build_string nonprint_mem 0x2000 ⟨"char *s=", 8⟩ = .ok ⟨"char *s=0x2000", 14⟩ :=
  ⟨by decide,
    build_string_nonprintable nonprint_mem 0x2000 [104, 7, 105] ⟨"char *s=", 8⟩ (by decide)
      ⟨7, by decide, by decide⟩⟩

/-- C22: when `get_function_index` returns an index `k`, entry `k` is among the
entries the function looks at, its difference to the return address modulo
`2^32` is positive and below `MAX_FUNCTION_SIZE_BYTES`, no entry looked at has
a smaller difference other than zero, and `k` is the lowest index among the
entries with that difference. -/
theorem get_function_index_least_difference (e : Env) (return_addr k : Nat)
    (h : get_function_index e return_addr = some k) :
    scanned e k = true ∧
    0 < GET_ADDR_DIFF return_addr (e.fn k).addr ∧
    GET_ADDR_DIFF return_addr (e.fn k).addr < e.MAX_FUNCTION_SIZE_BYTES ∧
    (∀ j, scanned e j = true → GET_ADDR_DIFF return_addr (e.fn j).addr ≠ 0 →
      GET_ADDR_DIFF return_addr (e.fn k).addr ≤ GET_ADDR_DIFF return_addr (e.fn j).addr) ∧
    (∀ j, scanned e j = true →
      GET_ADDR_DIFF return_addr (e.fn j).addr = GET_ADDR_DIFF return_addr (e.fn k).addr →
      k ≤ j) := by
  obtain ⟨hpos, hmax⟩ := get_function_index_diff e return_addr k h
  have hd := get_function_index_loop_diff e return_addr e.FUNCTS_MAX_NUM 1
    (GET_ADDR_DIFF return_addr (e.fn 0).addr) 0 rfl
  unfold get_function_index at h
  simp only at h
  split at h
  · next hc =>
    have hk := Option.some.inj h
    by_cases h0 : GET_ADDR_DIFF return_addr (e.fn 0).addr = 0
    · rw [h0, get_function_index_loop_zero] at hc
      exact absurd hc.1 (Nat.lt_irrefl 0)
    · obtain ⟨h1, h2, h3⟩ := get_function_index_loop_min e return_addr e.FUNCTS_MAX_NUM 1
        (GET_ADDR_DIFF return_addr (e.fn 0).addr) 0 (Nat.le_refl 1) (by omega) rfl
        (Nat.pos_of_ne_zero h0) (by omega) ((scanned_iff e 0).mpr (Or.inl rfl))
        (fun j h1 h2 => by omega)
        (fun j hj _ => by rw [show j = 0 by omega])
        (fun j hj _ => by omega)
      rw [hd, hk] at h2 h3
      rw [hk] at h1
      exact ⟨h1, hpos, hmax, h2, h3⟩
  · exact Option.noConfusion h

theorem get_function_index_least_difference_witness :
    get_function_index tie_env 0x8210 = some 2 ∧
    scanned tie_env 2 = true ∧
    0 < GET_ADDR_DIFF 0x8210 (tie_env.fn 2).addr ∧
    GET_ADDR_DIFF 0x8210 (tie_env.fn 2).addr < tie_env.MAX_FUNCTION_SIZE_BYTES ∧
    (∀ j, scanned tie_env j = true → GET_ADDR_DIFF 0x8210 (tie_env.fn j).addr ≠ 0 →
      GET_ADDR_DIFF 0x8210 (tie_env.fn 2).addr ≤ GET_ADDR_DIFF 0x8210 (tie_env.fn j).addr) ∧
    (∀ j, scanned tie_env j = true →
      GET_ADDR_DIFF 0x8210 (tie_env.fn j).addr = GET_ADDR_DIFF 0x8210 (tie_env.fn 2).addr →
      2 ≤ j) :=
  ⟨by decide, get_function_index_least_difference tie_env 0x8210 2 (by decide)⟩

/-- C23: the frame loop of `traceback` makes progress and ends. A turn that
leads to a further turn replaces the base pointer by a strictly greater
address below `2^32`; the base pointers of the turns are therefore strictly
increasing (no frame is visited twice), from the second turn on the base
pointer is not null, and after at most `2^32` turns comes a last one, which
gives `traceback` its result: it returns, or it is stopped inside that turn.
The stop is never a scan that runs forever when the memory has a byte that is
unreadable or zero. -/
theorem walk_terminates (e : Env) (m : Memory)
    (hf : e.Fileno_ok = true) (hi : e.install_ok = true) (hm : e.Malloc_ok = true) :
    (∀ s s1, frame_turn e m s = .ok (.next s1) →
      s.base_pointer < s1.base_pointer ∧ s1.base_pointer < WORD) ∧
    (∀ i j si sj, i < j → state_after e m i = some si → state_after e m j = some sj →
      si.base_pointer < sj.base_pointer) ∧
    (∀ n s, state_after e m (n + 1) = some s → s.base_pointer ≠ 0) ∧
    (∃ n s, n ≤ WORD ∧ state_after e m n = some s ∧ state_after e m (n + 1) = none ∧
      ((∃ t, frame_turn e m s = .ok (.done t) ∧ traceback e m = .ok t) ∨
        (∃ x, frame_turn e m s = .error x ∧ traceback e m = .error x))) ∧
    ((∃ a, a < WORD ∧ (m.readable a = false ∨ m.byte a % 256 = 0)) →
      stopped (traceback e m) ≠ some .hang) := by
  have hlast : ∃ n s, n ≤ WORD ∧ state_after e m n = some s ∧
      state_after e m (n + 1) = none ∧
      ((∃ t, frame_turn e m s = .ok (.done t) ∧ traceback e m = .ok t) ∨
        (∃ x, frame_turn e m s = .error x ∧ traceback e m = .error x)) := by
    obtain ⟨n, s, hn, hs, hnone⟩ := state_after_last e m
    obtain ⟨fuel, hfuel⟩ := traceback_from_state e m n s hf hi hm hs
    refine ⟨n, s, hn, hs, hnone, ?_⟩
    cases ht : frame_turn e m s with
    | error x => exact Or.inr ⟨x, rfl, by rw [hfuel]; exact walk_error e m fuel s x ht⟩
    | ok r =>
      cases r with
      | done t => exact Or.inl ⟨t, rfl, by rw [hfuel]; exact walk_done e m fuel s t ht⟩
      | next s1 =>
        exfalso
        unfold state_after at hnone
        rw [hs] at hnone
        simp only [ht] at hnone
        exact Option.noConfusion hnone
  refine ⟨fun s s1 h => frame_turn_next_bp e m s s1 h, ?_, ?_, hlast, ?_⟩
  · intro i j si sj hij hsi hsj
    obtain ⟨d, rfl⟩ : ∃ d, j = i + d + 1 := ⟨j - i - 1, by omega⟩
    exact state_after_increasing e m i si hsi d sj hsj
  · intro n s hs
    obtain ⟨s0, _, ht⟩ := state_after_succ e m n s hs
    have := (frame_turn_next_bp e m s0 s ht).1
    omega
  · intro hz hstop
    obtain ⟨n, s, _, _, _, h | h⟩ := hlast
    · obtain ⟨t, _, ht⟩ := h
      rw [ht] at hstop
      exact Option.noConfusion hstop
    · obtain ⟨x, hx, ht⟩ := h
      rw [ht] at hstop
      have : x = .hang := Option.some.inj hstop
      subst this
      exact frame_turn_not_hang e m s hz hx

theorem walk_terminates_witness :
    (∀ s s1, frame_turn chain_env chain_mem s = .ok (.next s1) →
      s.base_pointer < s1.base_pointer ∧ s1.base_pointer < WORD) ∧
    (∀ i j si sj, i < j → state_after chain_env chain_mem i = some si →
      state_after chain_env chain_mem j = some sj → si.base_pointer < sj.base_pointer) ∧
    (∀ n s, state_after chain_env chain_mem (n + 1) = some s → s.base_pointer ≠ 0) ∧
    (∃ n s, n ≤ WORD ∧ state_after chain_env chain_mem n = some s ∧
      state_after chain_env chain_mem (n + 1) = none ∧
      ((∃ t, frame_turn chain_env chain_mem s = .ok (.done t) ∧
          traceback chain_env chain_mem = .ok t) ∨
        (∃ x, frame_turn chain_env chain_mem s = .error x ∧
          traceback chain_env chain_mem = .error x))) ∧
    ((∃ a, a < WORD ∧ (chain_mem.readable a = false ∨ chain_mem.byte a % 256 = 0)) →
      stopped (traceback chain_env chain_mem) ≠ some .hang) :=
  walk_terminates chain_env chain_mem rfl rfl rfl

end Traceback

namespace Kern

/-! ## Lemmas on the kernel drivers -/

theorem cursor_bytes (k : Nat) (hk : k < 65536) :
    ((k / 256 % 256 % 256) <<< 8 ||| (k % 256 % 256 % 256)) = k := by
  rw [Nat.shiftLeft_eq, Nat.mul_comm]
  have h : k % 256 % 256 % 256 < 2 ^ 8 := by omega
  rw [← Nat.mul_add_lt_is_or h]
  omega

theorem get_cursor_send_data (st : Console) (k : Nat) :
    cursor_position (send_data_IO_port st (k : Int))
      = (((((k / 256 % 256 % 256) <<< 8 ||| (k % 256 % 256 % 256)) / 80 : Nat) : Int),
         ((((k / 256 % 256 % 256) <<< 8 ||| (k % 256 % 256 % 256)) % 80 : Nat) : Int)) := by
  rfl

theorem cursor_position_send_data (st : Console) (k : Nat) (hk : k < 65536) :
    cursor_position (send_data_IO_port st (k : Int)) = (((k / 80 : Nat) : Int), ((k % 80 : Nat) : Int)) := by
  rw [get_cursor_send_data, cursor_bytes k hk]


theorem clear_console_row_loop_spec (addr : Nat) :
    ∀ (fuel i : Nat) (mem : Nat → Nat) (a : Nat), addr + CONSOLE_WIDTH ≤ i + 2 * fuel →
      clear_console_row_loop addr fuel i mem a
        = if i ≤ a ∧ a < addr + CONSOLE_WIDTH ∧ (a - i) % 2 = 0 then 0 else mem a := by
  intro fuel
  induction fuel with
  | zero =>
    intro i mem a h
    have hc : ¬ (i ≤ a ∧ a < addr + CONSOLE_WIDTH ∧ (a - i) % 2 = 0) := by omega
    rw [if_neg hc]
    rfl
  | succ fuel ih =>
    intro i mem a h
    unfold clear_console_row_loop
    by_cases hi : i < addr + CONSOLE_WIDTH
    · rw [if_pos hi, ih (i + 2) _ a (by omega)]
      by_cases hai : a = i
      · subst hai
        have h1 : ¬ (a + 2 ≤ a ∧ a < addr + CONSOLE_WIDTH ∧ (a - (a + 2)) % 2 = 0) := by omega
        have h2 : a ≤ a ∧ a < addr + CONSOLE_WIDTH ∧ (a - a) % 2 = 0 := ⟨Nat.le_refl a, hi, by simp⟩
        rw [if_neg h1, if_pos h2]
        simp
      · simp only [if_neg hai]
        by_cases h1 : i + 2 ≤ a ∧ a < addr + CONSOLE_WIDTH ∧ (a - (i + 2)) % 2 = 0
        · have h2 : i ≤ a ∧ a < addr + CONSOLE_WIDTH ∧ (a - i) % 2 = 0 := by omega
          rw [if_pos h1, if_pos h2]
        · have h2 : ¬ (i ≤ a ∧ a < addr + CONSOLE_WIDTH ∧ (a - i) % 2 = 0) := by omega
          rw [if_neg h1, if_neg h2]
    · rw [if_neg hi]
      have hc : ¬ (i ≤ a ∧ a < addr + CONSOLE_WIDTH ∧ (a - i) % 2 = 0) := by omega
      rw [if_neg hc]

theorem scroll_console_mem (st : Console) (a : Nat) :
    (scroll_console st).mem a
      = if CONSOLE_MEM_BASE + 3840 ≤ a ∧ a < CONSOLE_MEM_BASE + 3920 ∧
            (a - (CONSOLE_MEM_BASE + 3840)) % 2 = 0 then 0
        else if CONSOLE_MEM_BASE ≤ a ∧ a < CONSOLE_MEM_BASE + 3840 then st.mem (a + 160)
        else st.mem a := by
  unfold scroll_console clear_console_row
  simp only
  rw [clear_console_row_loop_spec _ _ _ _ _ (by unfold CONSOLE_WIDTH; omega)]
  unfold GET_LAST_ROW SCROLL_CONSOLE_BUFFER_LENGTH memcpy GET_NEXT_ROW CONSOLE_WIDTH
    CONSOLE_HEIGHT CONSOLE_MEM_BASE
  simp only [Nat.reduceMul, Nat.reduceAdd, Nat.reduceSub]
  by_cases h1 : 757504 ≤ a ∧ a < 757584 ∧ (a - 757504) % 2 = 0
  · simp only [if_pos h1]
  · simp only [if_neg h1]
    by_cases h2 : 753664 ≤ a ∧ a < 757504
    · simp only [if_pos h2]
      have e : 753824 + (a - 753664) = a + 160 := by omega
      rw [e]
    · simp only [if_neg h2]

theorem scroll_console_rows_up (st : Console) (row col : Nat) (hr : row < 24) (hc : col < 80) :
    cell_char (scroll_console st) row col = cell_char st (row + 1) col ∧
    cell_color (scroll_console st) row col = cell_color st (row + 1) col := by
  unfold cell_char cell_color
  rw [scroll_console_mem, scroll_console_mem]
  unfold CONSOLE_MEM_BASE CONSOLE_WIDTH
  constructor
  · rw [if_neg (by omega), if_pos (by omega)]
    have e : 753664 + 2 * (row * 80 + col) + 160 = 753664 + 2 * ((row + 1) * 80 + col) := by
      omega
    rw [e]
  · rw [if_neg (by omega), if_pos (by omega)]
    have e : 753664 + 2 * (row * 80 + col) + 1 + 160
        = 753664 + 2 * ((row + 1) * 80 + col) + 1 := by
      omega
    rw [e]

theorem scroll_console_last_row (st : Console) (col : Nat) (hc : col < 80) :
    cell_char (scroll_console st) 24 col = (if col < 40 then 0 else cell_char st 24 col) ∧
    cell_color (scroll_console st) 24 col = cell_color st 24 col := by
  unfold cell_char cell_color
  rw [scroll_console_mem, scroll_console_mem]
  unfold CONSOLE_MEM_BASE CONSOLE_WIDTH
  constructor
  · by_cases h : col < 40
    · rw [if_pos h, if_pos (by omega)]
    · rw [if_neg h, if_neg (by omega), if_neg (by omega)]
  · rw [if_neg (by omega), if_neg (by omega)]

theorem insert_all_spec :
    ∀ (items : List Int) (s : sbuf_t), 0 < s.num_slots →
      s.rear + items.length ≤ s.num_slots →
      ∃ s1, insert_all s items = some s1 ∧ s1.num_slots = s.num_slots ∧
        s1.front = s.front ∧
        ∀ i, s1.buf i = if s.rear ≤ i ∧ i < s.rear + items.length
          then to_char (items.getD (i - s.rear) 0) else s.buf i := by
  intro items
  induction items with
  | nil =>
    intro s _ _
    refine ⟨s, rfl, rfl, rfl, fun i => ?_⟩
    rw [if_neg (by simp)]
  | cons item rest ih =>
    intro s hn hlen
    simp only [List.length_cons] at hlen
    have hne : s.num_slots ≠ 0 := by omega
    have hmod : s.rear % s.num_slots = s.rear := Nat.mod_eq_of_lt (by omega)
    obtain ⟨s1, h1, h2, h3, h4⟩ := ih
      { s with
        buf := fun i => if i = s.rear % s.num_slots then to_char item else s.buf i
        rear := s.rear + 1 } hn (by show s.rear + 1 + rest.length ≤ s.num_slots; omega)
    refine ⟨s1, ?_, h2, h3, fun i => ?_⟩
    · unfold insert_all sbuf_insert
      simp only [if_neg hne]
      exact h1
    · rw [h4 i]
      simp only [List.length_cons, hmod]
      by_cases hi : i = s.rear
      · subst hi
        rw [if_neg (by omega), if_pos rfl, if_pos (by omega)]
        simp
      · by_cases hr : s.rear + 1 ≤ i ∧ i < s.rear + 1 + rest.length
        · rw [if_pos hr, if_pos (by omega)]
          obtain ⟨d, hd⟩ : ∃ d, i - s.rear = d + 1 := ⟨i - s.rear - 1, by omega⟩
          have e : i - (s.rear + 1) = d := by omega
          rw [hd, e]
          rfl
        · rw [if_neg hr, if_neg hi, if_neg (by omega)]

theorem remove_all_spec :
    ∀ (k : Nat) (s : sbuf_t), 0 < s.num_slots → s.front + k ≤ s.num_slots →
      remove_all s k = some ((List.range k).map fun j => s.buf (s.front + j)) := by
  intro k
  induction k with
  | zero => intro s _ _; rfl
  | succ k ih =>
    intro s hn hlen
    have hne : s.num_slots ≠ 0 := by omega
    have hmod : s.front % s.num_slots = s.front := Nat.mod_eq_of_lt (by omega)
    unfold remove_all sbuf_remove
    simp only [if_neg hne]
    rw [ih { s with front := s.front + 1 } hn (by show s.front + 1 + k ≤ s.num_slots; omega)]
    simp only [hmod, List.range_succ_eq_map, List.map_cons, List.map_map, Nat.add_zero,
      Option.some.injEq, List.cons.injEq, true_and]
    apply List.map_congr_left
    intro j _
    show s.buf (s.front + 1 + j) = s.buf (s.front + (j + 1))
    rw [Nat.add_assoc, Nat.add_comm 1 j]

theorem round_trip_spec (n : Nat) (items : List Int) (hn : 0 < n) (hk : items.length ≤ n) :
    round_trip n items = some (items.map to_char) := by
  obtain ⟨s1, h1, h2, h3, h4⟩ := insert_all_spec items (sbuf_init n) hn
    (by show 0 + items.length ≤ n; omega)
  unfold round_trip
  rw [h1]
  simp only
  rw [remove_all_spec items.length s1 (by rw [h2]; exact hn)
    (by rw [h2, h3]; show 0 + items.length ≤ n; omega)]
  congr 1
  apply List.ext_getElem
  · simp
  · intro i hi1 hi2
    simp only [List.length_map, List.length_range] at hi1
    simp only [List.getElem_map, List.getElem_range, h3, h4]
    show (if (sbuf_init n).rear ≤ (sbuf_init n).front + i ∧
        (sbuf_init n).front + i < (sbuf_init n).rear + items.length
      then to_char (items.getD ((sbuf_init n).front + i - (sbuf_init n).rear) 0)
      else (sbuf_init n).buf ((sbuf_init n).front + i)) = to_char items[i]
    have e0 : (sbuf_init n).rear = 0 := rfl
    have e1 : (sbuf_init n).front = 0 := rfl
    rw [e0, e1, if_pos (by omega)]
    simp only [Nat.zero_add, Nat.sub_zero]
    rw [List.getD_eq_getElem _ _ hi1]

theorem to_char_low (v : Int) (h0 : 0 ≤ v) (h1 : v < 128) : to_char v = v := by
  unfold to_char
  omega

theorem to_char_high (v : Int) (h0 : 128 ≤ v) (h1 : v < 256) : to_char v = v - 256 := by
  unfold to_char
  omega

/-! ## Properties of the kernel drivers -/

/-- C26 as stated fails: on a console whose cursor was hidden by `hide_cursor`,
`set_cursor(3, 7)` followed by `get_cursor` yields `(28, 7)`. -/
theorem hidden_cursor_round_trip :
    hidden_console.cursor_hidden = 1 ∧
    cursor_position (set_cursor hidden_console 3 7) = (28, 7) ∧
    cursor_position (set_cursor hidden_console 3 7) ≠ (3, 7) := by
  decide

/-- C26, amended: for every row in `0..24` and column in `0..79`, `set_cursor`
followed by `get_cursor` yields `(row, col)` while the cursor is shown and
`(row + 25, col)` while it is hidden: the position of a hidden cursor is kept
`CONSOLE_WIDTH * CONSOLE_HEIGHT` cells behind the one asked for. -/
theorem set_cursor_get_cursor (st : Console) (row col : Int)
    (hr0 : 0 ≤ row) (hr : row < 25) (hc0 : 0 ≤ col) (hc : col < 80) :
    cursor_position (set_cursor st row col)
      = (if st.cursor_hidden = 0 then row else row + 25, col) := by
  lift row to ℕ using hr0
  lift col to ℕ using hc0
  have hr1 : row < 25 := by exact_mod_cast hr
  have hc1 : col < 80 := by exact_mod_cast hc
  unfold set_cursor get_cursor_location GET_CURSOR_POS CURSOR_HIDE_ADD CURSOR_HIDE_CONSTANT
    CONSOLE_WIDTH CONSOLE_HEIGHT
  by_cases hh : st.cursor_hidden = 0
  · simp only [if_pos hh]
    have e : ((row : Int) * ((80 : Nat) : Int) + (col : Int)) = ((row * 80 + col : Nat) : Int) := by
      push_cast
      ring
    rw [e, cursor_position_send_data st _ (by omega)]
    have h1 : (row * 80 + col) / 80 = row := by omega
    have h2 : (row * 80 + col) % 80 = col := by omega
    rw [h1, h2]
  · simp only [if_neg hh]
    have e : ((row : Int) * ((80 : Nat) : Int) + (col : Int) + ((80 : Nat) : Int) * ((25 : Nat) : Int))
        = ((row * 80 + col + 2000 : Nat) : Int) := by
      push_cast
      ring
    rw [e, cursor_position_send_data st _ (by omega)]
    have h1 : (row * 80 + col + 2000) / 80 = row + 25 := by omega
    have h2 : (row * 80 + col + 2000) % 80 = col := by omega
    rw [h1, h2]
    push_cast
    rfl

theorem set_cursor_get_cursor_witness :
    cursor_position (set_cursor shown_console 24 79) = (24, 79) ∧
    cursor_position (set_cursor hidden_console 24 79)
      = (if hidden_console.cursor_hidden = 0 then 24 else 24 + 25, 79) :=
  ⟨set_cursor_get_cursor shown_console 24 79 (by decide) (by decide) (by decide) (by decide),
    set_cursor_get_cursor hidden_console 24 79 (by decide) (by decide) (by decide) (by decide)⟩

/-- C27: on a screen whose cells all hold the character `A`, `scroll_console`
leaves `A` in the cells 40 to 79 of the last row: `clear_console_row` runs
over `CONSOLE_WIDTH` bytes, the first 40 cells, of the 160 bytes of the row. -/
theorem scroll_console_half_row :
    cell_char (scroll_console full_console) 23 0 = 65 ∧
    cell_char (scroll_console full_console) 24 0 = 0 ∧
    cell_char (scroll_console full_console) 24 39 = 0 ∧
    cell_char (scroll_console full_console) 24 40 = 65 ∧
    cell_char (scroll_console full_console) 24 79 = 65 := by
  decide

/-- C28: a buffer fresh from `sbuf_init(4)` that received the scancodes `0x1E`
and `0x9E` (key `a` pressed and released) returns `0x1E` and `-98`: the slots
of `buf` are of type `char`, and the scancodes from 128 on come back 256 less. -/
theorem scancode_comes_back_negative :
    round_trip 4 [0x1E, 0x9E] = some [0x1E, -98] := by
  decide

end Kern
